import Mathlib

/-!
Double mass curve analysis (`DMCT.cpp`).

A shallow embedding of the class `DoubleMassCurve` of `src/DMCT.cpp` and a
verification of its documented behaviour.

Modelling conventions.

* `double` is an arbitrary linearly ordered field `F` (exact arithmetic); the
  library function `sqrt` is a parameter `sqrt : F → F` of the definitions that
  call it.  Theorems that depend on what the square root is are stated for
  `F = ℝ` and `Real.sqrt`.
* A second embedding of the same lines, the definitions whose names end in
  `D`, computes as the compiled program does: in IEEE 754 binary64, every
  operation rounded to nearest (ties to even) on its own, without fused
  multiply-add or extended precision.  It decides what the program returns
  where rounding matters; the statements about the first embedding are
  statements in exact arithmetic.
* `int` is `Int`; `size_t` is `Nat` with the wrap-around at `2 ^ 64` written out
  where the source subtracts from or compares with `data.size()`.
* `data[i]` is a checked read: outside `0 ≤ i < data.size()` the C++ behaviour
  is undefined and the embedding returns `none`.  A method whose result is
  `none` has run into such a read.
* `a / b` is field division.  The only divisions of the program whose
  denominator can vanish are the slope quotient, where the C++ value is the
  NaN `0.0 / 0.0` and the embedding has `0`, and the quotient of the two stored
  slopes; `pearson_eq_zero_of_slopeDen` shows that a segment with a vanishing
  slope denominator has correlation `0`, so such a candidate is never
  selected in either reading.
* Printing is not modelled, except for the record reads it performs.
* The hard-coded table holds whole numbers: the regression sums of its
  segments are computed in `Int` (`intCovNum`, `intSlopeDen`, `intYDen`) and
  carried over to the field by `regression_toField`.
-/

namespace DMCT

/-! ## Data model -/

/-- The struct `RainfallData` (lines 7-13). -/
structure RainfallData (F : Type) where
  year : Int
  pa : F
  avg_p10 : F
  cum_pa : F
  cum_avg : F

/-- The fields of the class `DoubleMassCurve` (lines 17-21). -/
structure DoubleMassCurve (F : Type) where
  data : List (RainfallData F)
  inconsistency_year : Int
  slope_before : F
  slope_after : F
  correction_factor : F

section Defs

variable {F : Type} [LinearOrderedField F]

/-- The default member initialisers of lines 17-21: an empty vector, the
sentinel year `-1`, both slopes `0.0` and the factor `1.0`. -/
def DoubleMassCurve.initial : DoubleMassCurve F :=
  { data := [], inconsistency_year := -1, slope_before := 0, slope_after := 0,
    correction_factor := 1 }

/-- The conversion of an `int` to the 64-bit `size_t` in a mixed comparison:
a negative value wraps around. -/
def toSizeT (z : Int) : Nat := if 0 ≤ z then z.toNat else (z + 2 ^ 64).toNat

/-- The `size_t` difference `a - b` of two sizes below `2 ^ 64`: it wraps
around when `a < b`. -/
def sizeSub (a b : Nat) : Nat := if b ≤ a then a - b else a + 2 ^ 64 - b

/-- The value of `data.size() - 1` passed as an `int` argument (lines 112,
114): the wrapped `size_t` difference narrowed to `int`, which is
`size - 1` for every vector of fewer than `2 ^ 31` records, the empty one
included. -/
def lastIndex (data : List (RainfallData F)) : Int := (data.length : Int) - 1

/-- The read `data[i]` with an `int` index. -/
def readAt (data : List (RainfallData F)) (i : Int) : Option (RainfallData F) :=
  if i < 0 then none else data.get? i.toNat

/-! ## `inputData` -/

/-- The hard-coded table of `inputData` (lines 26-35). -/
def rainfall_data : List (Int × F × F) :=
  [ (1990, 677, 780), (1991, 579, 660), (1992, 96, 110), (1993, 463, 520),
    (1994, 473, 540), (1995, 700, 800), (1996, 480, 540), (1997, 432, 490),
    (1998, 494, 560), (1999, 504, 575), (2000, 416, 480), (2001, 532, 600),
    (2002, 505, 580), (2003, 829, 950), (2004, 680, 770), (2005, 1243, 1400),
    (2006, 998, 1140), (2007, 572, 650), (2008, 595, 646), (2009, 374, 350),
    (2010, 634, 590), (2011, 496, 490), (2012, 385, 400), (2013, 437, 390),
    (2014, 567, 570), (2015, 355, 377), (2016, 684, 653), (2017, 824, 787),
    (2018, 425, 410), (2019, 611, 588) ]

/-- The accumulation loop of `inputData` (lines 40-53): `entries` is what is
left of the table, `cum_pa` and `cum_avg` are the two running sums and `data`
the vector built so far. -/
def accumulate : List (Int × F × F) → F → F → List (RainfallData F) →
    List (RainfallData F)
  | [], _, _, data => data
  | entry :: rest, cum_pa, cum_avg, data =>
    let cum_pa := cum_pa + entry.2.1
    let cum_avg := cum_avg + entry.2.2
    accumulate rest cum_pa cum_avg
      (data ++ [{ year := entry.1, pa := entry.2.1, avg_p10 := entry.2.2,
                  cum_pa := cum_pa, cum_avg := cum_avg }])

/-- Lines 37-53 of `inputData` for an arbitrary table: `data.clear()`, both
running sums at `0.0`, then the loop. -/
def inputDataFrom (table : List (Int × F × F)) (s : DoubleMassCurve F) :
    DoubleMassCurve F :=
  { s with data := accumulate table 0 0 [] }

/-- The method `inputData` (lines 24-54). -/
def inputData (s : DoubleMassCurve F) : DoubleMassCurve F :=
  inputDataFrom rainfall_data s

/-! ## `calculateSlope` and `calculateCorrelation` -/

/-- The accumulators of the two regression loops.  The loop of
`calculateSlope` has no `sum_y2`; it is the loop of `calculateCorrelation`
with that accumulator never read. -/
structure Sums (F : Type) where
  sum_x : F
  sum_y : F
  sum_xy : F
  sum_x2 : F
  sum_y2 : F

/-- The loop `for (int i = start_idx; i <= end_idx; i++)` of lines 63-71 and
84-93, with `count` iterations left and `i` the loop variable. -/
def sumLoop (data : List (RainfallData F)) : Nat → Int → Sums F → Option (Sums F)
  | 0, _, acc => some acc
  | count + 1, i, acc =>
    match readAt data i with
    | none => none
    | some rd =>
      let x := rd.cum_avg
      let y := rd.cum_pa
      sumLoop data count (i + 1)
        { sum_x := acc.sum_x + x, sum_y := acc.sum_y + y,
          sum_xy := acc.sum_xy + x * y, sum_x2 := acc.sum_x2 + x * x,
          sum_y2 := acc.sum_y2 + y * y }

/-- The guard of lines 58 and 79:
`start_idx >= end_idx || end_idx >= data.size()`. -/
def degenerate (data : List (RainfallData F)) (start_idx end_idx : Int) : Bool :=
  decide (start_idx ≥ end_idx) || decide (toSizeT end_idx ≥ data.length)

/-- The method `calculateSlope` (lines 57-75). -/
def calculateSlope (data : List (RainfallData F)) (start_idx end_idx : Int) :
    Option F :=
  if degenerate data start_idx end_idx then some 0
  else
    let n : Int := end_idx - start_idx + 1
    match sumLoop data n.toNat start_idx ⟨0, 0, 0, 0, 0⟩ with
    | none => none
    | some a =>
      some ((n * a.sum_xy - a.sum_x * a.sum_y) / (n * a.sum_x2 - a.sum_x * a.sum_x))

/-- The method `calculateCorrelation` (lines 78-99). -/
def calculateCorrelation (sqrt : F → F) (data : List (RainfallData F))
    (start_idx end_idx : Int) : Option F :=
  if degenerate data start_idx end_idx then some 0
  else
    let n : Int := end_idx - start_idx + 1
    match sumLoop data n.toNat start_idx ⟨0, 0, 0, 0, 0⟩ with
    | none => none
    | some a =>
      let numerator := n * a.sum_xy - a.sum_x * a.sum_y
      let denominator :=
        sqrt ((n * a.sum_x2 - a.sum_x * a.sum_x) * (n * a.sum_y2 - a.sum_y * a.sum_y))
      some (if denominator ≠ 0 then numerator / denominator else 0)

/-! ## `detectInconsistency` -/

/-- What the scan of `detectInconsistency` updates: its two locals and the two
slope fields. -/
structure Scan (F : Type) where
  max_slope_diff : F
  best_break_point : Int
  slope_before : F
  slope_after : F

/-- The four regression results of one candidate (lines 111-116). -/
structure Candidate (F : Type) where
  slope1 : F
  slope2 : F
  corr1 : F
  corr2 : F

/-- Lines 111-114 and the read `data[i].year` of line 118 for the candidate
`i`. -/
def evalCandidate (sqrt : F → F) (data : List (RainfallData F)) (i : Int) :
    Option (Candidate F) :=
  match calculateSlope data 0 (i - 1), calculateSlope data i (lastIndex data),
      calculateCorrelation sqrt data 0 (i - 1),
      calculateCorrelation sqrt data i (lastIndex data), readAt data i with
  | some slope1, some slope2, some corr1, some corr2, some _ =>
    some ⟨slope1, slope2, corr1, corr2⟩
  | _, _, _, _, _ => none

/-- The value `slope_diff` of line 116. -/
def Candidate.slope_diff (c : Candidate F) : F := |c.slope2 - c.slope1|

/-- The update of lines 124-129 for the candidate `i`. -/
def select (st : Scan F) (i : Int) (c : Candidate F) : Scan F :=
  if c.slope_diff > st.max_slope_diff ∧ c.corr1 > 0.85 ∧ c.corr2 > 0.85 then
    { max_slope_diff := c.slope_diff, best_break_point := i,
      slope_before := c.slope1, slope_after := c.slope2 }
  else st

/-- The bound `data.size() - 5` of the loop of line 110, a `size_t`. -/
def scanBound (data : List (RainfallData F)) : Nat := sizeSub data.length 5

/-- The loop of lines 110-130, `for (int i = 5; i < data.size() - 5; i++)`,
with `count` iterations left and `i` the loop variable (never negative, hence
a `Nat`). -/
def scanLoop (sqrt : F → F) (data : List (RainfallData F)) :
    Nat → Nat → Scan F → Option (Scan F)
  | 0, _, st => some st
  | count + 1, i, st =>
    match evalCandidate sqrt data (i : Int) with
    | none => none
    | some c => scanLoop sqrt data count (i + 1) (select st (i : Int) c)

/-- The values the loop variable of line 110 takes, in the order the loop
takes them: `5, 6, ...` as long as `i < data.size() - 5`. -/
def scanIndices (data : List (RainfallData F)) : List Nat :=
  List.range' 5 (scanBound data - 5)

/-- What `detectInconsistency` leaves behind: the object and the final
values of its two locals (`max_slope_diff` is printed on line 139). -/
structure Detection (F : Type) where
  state : DoubleMassCurve F
  max_slope_diff : F
  best_break_point : Int

/-- The method `detectInconsistency` (lines 101-140). -/
def detectInconsistency (sqrt : F → F) (s : DoubleMassCurve F) :
    Option (Detection F) :=
  match scanLoop sqrt s.data (scanBound s.data - 5) 5
      { max_slope_diff := 0, best_break_point := -1,
        slope_before := s.slope_before, slope_after := s.slope_after } with
  | none => none
  | some st =>
    let s1 := { s with slope_before := st.slope_before, slope_after := st.slope_after }
    if st.max_slope_diff > 0.05 then
      match readAt s.data st.best_break_point with
      | none => none
      | some rd =>
        some { state := { s1 with inconsistency_year := rd.year,
                                  correction_factor := st.slope_after / st.slope_before },
               max_slope_diff := st.max_slope_diff,
               best_break_point := st.best_break_point }
    else
      some { state := s1, max_slope_diff := st.max_slope_diff,
             best_break_point := st.best_break_point }

/-! ## `correctData` -/

/-- One line of the table printed by `correctData` (lines 164-170). -/
structure Row (F : Type) where
  year : Int
  original_pa : F
  corrected_pa : F
  avg_p10 : F
  status : String

/-- The search loop of lines 147-152 from index `i` on, over the records
`rest` not yet visited: the first index whose year is `year`, or `-1`. -/
def findBreak (year : Int) : List (RainfallData F) → Int → Int
  | [], _ => -1
  | rd :: rest, i => if rd.year = year then i else findBreak year rest (i + 1)

/-- The printing loop of lines 161-172 from index `i` on. -/
def correctRows (correction_factor : F) (break_idx : Int) :
    List (RainfallData F) → Int → List (Row F)
  | [], _ => []
  | rd :: rest, i =>
    (if i < break_idx then
      { year := rd.year, original_pa := rd.pa,
        corrected_pa := rd.pa * correction_factor, avg_p10 := rd.avg_p10,
        status := "Corrected" }
    else
      { year := rd.year, original_pa := rd.pa, corrected_pa := rd.pa,
        avg_p10 := rd.avg_p10, status := "Original" })
      :: correctRows correction_factor break_idx rest (i + 1)

/-- The method `correctData` (lines 142-173): the rows it prints. -/
def correctData (s : DoubleMassCurve F) : List (Row F) :=
  if s.inconsistency_year = -1 then []
  else
    let break_idx := findBreak s.inconsistency_year s.data 0
    if break_idx = -1 then []
    else correctRows s.correction_factor break_idx s.data 0

/-! ## The closed forms of the specification -/

/-- The records `start_idx .. end_idx` (inclusive) of the series. -/
def segment (data : List (RainfallData F)) (start_idx end_idx : Int) :
    List (RainfallData F) :=
  (data.drop start_idx.toNat).take (end_idx - start_idx + 1).toNat

/-- The sum of `f` over the records of a segment. -/
def sumOver (f : RainfallData F → F) (seg : List (RainfallData F)) : F :=
  (seg.map f).sum

/-- The sum `Σx` with `x = cum_avg`. -/
def Sx (seg : List (RainfallData F)) : F := sumOver (fun rd => rd.cum_avg) seg

/-- The sum `Σy` with `y = cum_pa`. -/
def Sy (seg : List (RainfallData F)) : F := sumOver (fun rd => rd.cum_pa) seg

/-- The sum `Σxy`. -/
def Sxy (seg : List (RainfallData F)) : F :=
  sumOver (fun rd => rd.cum_avg * rd.cum_pa) seg

/-- The sum `Σx²`. -/
def Sxx (seg : List (RainfallData F)) : F :=
  sumOver (fun rd => rd.cum_avg * rd.cum_avg) seg

/-- The sum `Σy²`. -/
def Syy (seg : List (RainfallData F)) : F :=
  sumOver (fun rd => rd.cum_pa * rd.cum_pa) seg

/-- The numerator `k·Σxy − Σx·Σy` shared by both formulas, `k` the number of
records. -/
def covNum (seg : List (RainfallData F)) : F :=
  (seg.length : F) * Sxy seg - Sx seg * Sy seg

/-- The slope denominator `k·Σx² − (Σx)²`. -/
def slopeDen (seg : List (RainfallData F)) : F :=
  (seg.length : F) * Sxx seg - Sx seg * Sx seg

/-- The corresponding quantity `k·Σy² − (Σy)²` of the station values. -/
def yDen (seg : List (RainfallData F)) : F :=
  (seg.length : F) * Syy seg - Sy seg * Sy seg

/-- The ordinary least-squares closed form
`(n·Σxy − Σx·Σy) / (n·Σx² − (Σx)²)` of the specification. -/
def olsSlope (seg : List (RainfallData F)) : F := covNum seg / slopeDen seg

/-- The denominator `sqrt((n·Σx² − (Σx)²)·(n·Σy² − (Σy)²))` of the Pearson
formula. -/
def pearsonDen (sqrt : F → F) (seg : List (RainfallData F)) : F :=
  sqrt (slopeDen seg * yDen seg)

/-- The Pearson formula of the specification with its zero-denominator
guard. -/
def pearson (sqrt : F → F) (seg : List (RainfallData F)) : F :=
  if pearsonDen sqrt seg ≠ 0 then covNum seg / pearsonDen sqrt seg else 0

/-- The correlation gate of line 124: both segments of the candidate have a
correlation above `0.85`. -/
def Candidate.eligible (c : Candidate F) : Prop := c.corr1 > 0.85 ∧ c.corr2 > 0.85

/-- The selection rule of `detectInconsistency` for the candidates `5 ≤ j < hi`
and the scan state `st`: either no eligible candidate has a positive
`slope_diff` and `st` still has its initial values (`slope_before` and
`slope_after` being the slopes stored before the scan), or `st` holds an
eligible candidate `b` whose `slope_diff` is positive and maximal among the
eligible candidates, `b` being the smallest index at which the maximum is
reached. -/
def Selected (sqrt : F → F) (data : List (RainfallData F)) (slope_before slope_after : F)
    (hi : Nat) (st : Scan F) : Prop :=
  (st.max_slope_diff = 0 ∧ st.best_break_point = -1 ∧
    st.slope_before = slope_before ∧ st.slope_after = slope_after ∧
    ∀ (j : Nat) (c : Candidate F), 5 ≤ j → j < hi →
      evalCandidate sqrt data (j : Int) = some c → c.eligible → c.slope_diff ≤ 0)
  ∨ ∃ (b : Nat) (c : Candidate F), 5 ≤ b ∧ b < hi ∧
      evalCandidate sqrt data (b : Int) = some c ∧ c.eligible ∧ 0 < c.slope_diff ∧
      st.max_slope_diff = c.slope_diff ∧ st.best_break_point = (b : Int) ∧
      st.slope_before = c.slope1 ∧ st.slope_after = c.slope2 ∧
      ∀ (j : Nat) (cj : Candidate F), 5 ≤ j → j < hi →
        evalCandidate sqrt data (j : Int) = some cj → cj.eligible →
          cj.slope_diff ≤ c.slope_diff ∧ (cj.slope_diff = c.slope_diff → b ≤ j)

/-- The body of the scan loop run over a list of candidate indices in the
order of the list. -/
def scanOver (sqrt : F → F) (data : List (RainfallData F)) :
    List Nat → Scan F → Option (Scan F)
  | [], st => some st
  | i :: rest, st =>
    match evalCandidate sqrt data (i : Int) with
    | none => none
    | some c => scanOver sqrt data rest (select st (i : Int) c)

/-- The row the Corrector of the specification gives the record `rd` at
index `i`, for the break index `break_idx` and the factor `f`. -/
def expectedRow (f : F) (break_idx : Int) (i : Nat) (rd : RainfallData F) : Row F :=
  if (i : Int) < break_idx then
    { year := rd.year, original_pa := rd.pa, corrected_pa := rd.pa * f,
      avg_p10 := rd.avg_p10, status := "Corrected" }
  else
    { year := rd.year, original_pa := rd.pa, corrected_pa := rd.pa,
      avg_p10 := rd.avg_p10, status := "Original" }

/-! ## Example series -/

/-- A table of eleven years whose station values step from `1` to `2` at
index 5 while the reference stays at `1`; `y` is the year at index 5. -/
def stepTable (y : Int) : List (Int × F × F) :=
  [ (2000, 1, 1), (2001, 1, 1), (2002, 1, 1), (2003, 1, 1), (2004, 1, 1),
    (y, 2, 1), (2006, 2, 1), (2007, 2, 1), (2008, 2, 1), (2009, 2, 1), (2010, 2, 1) ]

/-- The records `inputData` builds from `stepTable y`. -/
def stepRecords (y : Int) : List (RainfallData F) :=
  [ ⟨2000, 1, 1, 1, 1⟩, ⟨2001, 1, 1, 2, 2⟩, ⟨2002, 1, 1, 3, 3⟩, ⟨2003, 1, 1, 4, 4⟩,
    ⟨2004, 1, 1, 5, 5⟩, ⟨y, 2, 1, 7, 6⟩, ⟨2006, 2, 1, 9, 7⟩, ⟨2007, 2, 1, 11, 8⟩,
    ⟨2008, 2, 1, 13, 9⟩, ⟨2009, 2, 1, 15, 10⟩, ⟨2010, 2, 1, 17, 11⟩ ]

/-- The object after `inputData` on `stepTable y`. -/
def stepState (y : Int) : DoubleMassCurve F :=
  inputDataFrom (stepTable y) DoubleMassCurve.initial

/-- What `detectInconsistency` returns on `stepState y`. -/
def stepDetection (y : Int) : Detection F :=
  { state := { data := stepRecords y, inconsistency_year := y, slope_before := 1,
               slope_after := 2, correction_factor := 2 },
    max_slope_diff := 1, best_break_point := 5 }

/-- The first ten records of the step series. -/
def shortRecords : List (RainfallData F) := (stepRecords 2005).take 10

/-- Three records on the falling line `cum_pa = -cum_avg`. -/
def fallRecords : List (RainfallData F) :=
  [ ⟨2000, -1, 1, -1, 1⟩, ⟨2001, -1, 1, -2, 2⟩, ⟨2002, -1, 1, -3, 3⟩ ]

/-- Three records with a constant cumulative reference. -/
def flatRecords : List (RainfallData F) :=
  [ ⟨2000, 1, 3, 1, 3⟩, ⟨2001, 2, 0, 3, 3⟩, ⟨2002, 1, 0, 4, 3⟩ ]

/-- A table of eleven years whose station value is twice the reference value
in every year. -/
def doubleTable : List (Int × F × F) :=
  [ (2000, 2, 1), (2001, 4, 2), (2002, 2, 1), (2003, 6, 3), (2004, 2, 1), (2005, 4, 2),
    (2006, 2, 1), (2007, 2, 1), (2008, 8, 4), (2009, 2, 1), (2010, 2, 1) ]

/-- A table of eleven years whose reference value is zero in the second to
fifth year, all values being non-negative. -/
def dryTable : List (Int × F × F) :=
  [ (2000, 1, 3), (2001, 1, 0), (2002, 1, 0), (2003, 1, 0), (2004, 1, 0), (2005, 1, 1),
    (2006, 1, 1), (2007, 1, 1), (2008, 1, 1), (2009, 1, 1), (2010, 1, 1) ]

/-- The records `inputData` builds from `dryTable`. -/
def dryRecords : List (RainfallData F) :=
  [ ⟨2000, 1, 3, 1, 3⟩, ⟨2001, 1, 0, 2, 3⟩, ⟨2002, 1, 0, 3, 3⟩, ⟨2003, 1, 0, 4, 3⟩,
    ⟨2004, 1, 0, 5, 3⟩, ⟨2005, 1, 1, 6, 4⟩, ⟨2006, 1, 1, 7, 5⟩, ⟨2007, 1, 1, 8, 6⟩,
    ⟨2008, 1, 1, 9, 7⟩, ⟨2009, 1, 1, 10, 8⟩, ⟨2010, 1, 1, 11, 9⟩ ]

/-- The records `inputData` builds from its hard-coded table. -/
def rainfallRecords : List (RainfallData F) :=
  [
    ⟨1990, 677, 780, 677, 780⟩, ⟨1991, 579, 660, 1256, 1440⟩, ⟨1992, 96, 110, 1352, 1550⟩,
    ⟨1993, 463, 520, 1815, 2070⟩, ⟨1994, 473, 540, 2288, 2610⟩, ⟨1995, 700, 800, 2988, 3410⟩,
    ⟨1996, 480, 540, 3468, 3950⟩, ⟨1997, 432, 490, 3900, 4440⟩, ⟨1998, 494, 560, 4394, 5000⟩,
    ⟨1999, 504, 575, 4898, 5575⟩, ⟨2000, 416, 480, 5314, 6055⟩, ⟨2001, 532, 600, 5846, 6655⟩,
    ⟨2002, 505, 580, 6351, 7235⟩, ⟨2003, 829, 950, 7180, 8185⟩, ⟨2004, 680, 770, 7860, 8955⟩,
    ⟨2005, 1243, 1400, 9103, 10355⟩, ⟨2006, 998, 1140, 10101, 11495⟩, ⟨2007, 572, 650, 10673, 12145⟩,
    ⟨2008, 595, 646, 11268, 12791⟩, ⟨2009, 374, 350, 11642, 13141⟩, ⟨2010, 634, 590, 12276, 13731⟩,
    ⟨2011, 496, 490, 12772, 14221⟩, ⟨2012, 385, 400, 13157, 14621⟩, ⟨2013, 437, 390, 13594, 15011⟩,
    ⟨2014, 567, 570, 14161, 15581⟩, ⟨2015, 355, 377, 14516, 15958⟩, ⟨2016, 684, 653, 15200, 16611⟩,
    ⟨2017, 824, 787, 16024, 17398⟩, ⟨2018, 425, 410, 16449, 17808⟩, ⟨2019, 611, 588, 17060, 18396⟩ ]

/-! ## Integer copies of the regression sums

The hard-coded table holds whole numbers, so the sums of its segments can be
computed in `Int` and carried over to the field. -/

/-- A record with whole-number values as a record of the field. -/
def RainfallData.toField (rd : RainfallData Int) : RainfallData F :=
  { year := rd.year, pa := (rd.pa : F), avg_p10 := (rd.avg_p10 : F),
    cum_pa := (rd.cum_pa : F), cum_avg := (rd.cum_avg : F) }

/-- The records of `rainfallRecords` with their values in `Int`. -/
def rainfallInts : List (RainfallData Int) :=
  [
    ⟨1990, 677, 780, 677, 780⟩, ⟨1991, 579, 660, 1256, 1440⟩, ⟨1992, 96, 110, 1352, 1550⟩,
    ⟨1993, 463, 520, 1815, 2070⟩, ⟨1994, 473, 540, 2288, 2610⟩, ⟨1995, 700, 800, 2988, 3410⟩,
    ⟨1996, 480, 540, 3468, 3950⟩, ⟨1997, 432, 490, 3900, 4440⟩, ⟨1998, 494, 560, 4394, 5000⟩,
    ⟨1999, 504, 575, 4898, 5575⟩, ⟨2000, 416, 480, 5314, 6055⟩, ⟨2001, 532, 600, 5846, 6655⟩,
    ⟨2002, 505, 580, 6351, 7235⟩, ⟨2003, 829, 950, 7180, 8185⟩, ⟨2004, 680, 770, 7860, 8955⟩,
    ⟨2005, 1243, 1400, 9103, 10355⟩, ⟨2006, 998, 1140, 10101, 11495⟩, ⟨2007, 572, 650, 10673, 12145⟩,
    ⟨2008, 595, 646, 11268, 12791⟩, ⟨2009, 374, 350, 11642, 13141⟩, ⟨2010, 634, 590, 12276, 13731⟩,
    ⟨2011, 496, 490, 12772, 14221⟩, ⟨2012, 385, 400, 13157, 14621⟩, ⟨2013, 437, 390, 13594, 15011⟩,
    ⟨2014, 567, 570, 14161, 15581⟩, ⟨2015, 355, 377, 14516, 15958⟩, ⟨2016, 684, 653, 15200, 16611⟩,
    ⟨2017, 824, 787, 16024, 17398⟩, ⟨2018, 425, 410, 16449, 17808⟩, ⟨2019, 611, 588, 17060, 18396⟩ ]

/-- The sum of `f` over a segment of whole-number records. -/
def intSum (f : RainfallData Int → Int) (seg : List (RainfallData Int)) : Int :=
  (seg.map f).sum

/-- The numerator `k·Σxy − Σx·Σy` of a segment of whole-number records. -/
def intCovNum (seg : List (RainfallData Int)) : Int :=
  (seg.length : Int) * intSum (fun rd => rd.cum_avg * rd.cum_pa) seg
    - intSum (fun rd => rd.cum_avg) seg * intSum (fun rd => rd.cum_pa) seg

/-- The slope denominator `k·Σx² − (Σx)²` of a segment of whole-number
records. -/
def intSlopeDen (seg : List (RainfallData Int)) : Int :=
  (seg.length : Int) * intSum (fun rd => rd.cum_avg * rd.cum_avg) seg
    - intSum (fun rd => rd.cum_avg) seg * intSum (fun rd => rd.cum_avg) seg

/-- The factor `k·Σy² − (Σy)²` of a segment of whole-number records. -/
def intYDen (seg : List (RainfallData Int)) : Int :=
  (seg.length : Int) * intSum (fun rd => rd.cum_pa * rd.cum_pa) seg
    - intSum (fun rd => rd.cum_pa) seg * intSum (fun rd => rd.cum_pa) seg

/-- The records before candidate `j` of the hard-coded series. -/
def intBefore (j : Nat) : List (RainfallData Int) :=
  segment rainfallInts 0 ((j : Int) - 1)

/-- The records from candidate `j` on of the hard-coded series. -/
def intAfter (j : Nat) : List (RainfallData Int) :=
  segment rainfallInts (j : Int) (lastIndex rainfallInts)

/-- The numerator of `slope2 − slope1` of candidate `j` of the hard-coded
series over the common denominator `gapDen j`. -/
def gapNum (j : Nat) : Int :=
  intCovNum (intAfter j) * intSlopeDen (intBefore j)
    - intCovNum (intBefore j) * intSlopeDen (intAfter j)

/-- The product of the two slope denominators of candidate `j` of the
hard-coded series. -/
def gapDen (j : Nat) : Int := intSlopeDen (intBefore j) * intSlopeDen (intAfter j)

/-! ## IEEE double arithmetic

The second embedding of the regression and detection code computes as the
program does, in IEEE 754 binary64 with round-to-nearest-even, every
operation rounded on its own.  A finite double is the rational number it
denotes; an operation whose result is not a normal double or zero (overflow,
a subnormal, a division by zero, the square root of a negative number) gives
`none`, as does an out-of-bounds read. -/

/-- The power `2^e` as a rational number. -/
def pow2 (e : Int) : ℚ :=
  if 0 ≤ e then ((2 ^ e.toNat : Nat) : ℚ) else 1 / ((2 ^ (-e).toNat : Nat) : ℚ)

/-- The search for the largest `k` with `2^k ≤ n`, one binary digit of `k`
per step, from the digit of weight `2^(steps - 1)` down. -/
def log2Loop (n : Nat) : Nat → Nat → Nat
  | 0, k => k
  | steps + 1, k => log2Loop n steps (if 2 ^ (k + 2 ^ steps) ≤ n then k + 2 ^ steps else k)

/-- The number `⌊log₂ n⌋` of a natural number `0 < n < 2^4096`. -/
def natLog2 (n : Nat) : Nat := log2Loop n 12 0

/-- The exponent `⌊log₂ q⌋` of a positive rational number. -/
def ilog2 (q : ℚ) : Int :=
  let k : Int := (natLog2 q.num.toNat : Int) - (natLog2 q.den : Int)
  if pow2 k ≤ q then k else k - 1

/-- The integer nearest to `x ≥ 0`, the even one of the two in a tie. -/
def roundHalfEven (x : ℚ) : Nat :=
  let n : Nat := x.num.toNat / x.den
  let twice : ℚ := 2 * (x - (n : ℚ))
  if twice < 1 then n else if 1 < twice then n + 1 else if n % 2 = 0 then n else n + 1

/-- The double nearest to the rational `q`: 53 significant bits, ties to
even; `none` below the normal range and at overflow. -/
def roundD (q : ℚ) : Option ℚ :=
  if q = 0 then some 0
  else
    let a : ℚ := if q < 0 then -q else q
    let e : Int := ilog2 a
    if e < -1022 then none
    else
      let r : ℚ := (roundHalfEven (a / pow2 (e - 52)) : ℚ) * pow2 (e - 52)
      if pow2 1024 ≤ r then none else some (if q < 0 then -r else r)

/-- The double a decimal literal of the source denotes. -/
def literalD (q : ℚ) : ℚ := (roundD q).getD 0

/-- The sum `a + b` of two doubles. -/
def addD (a b : ℚ) : Option ℚ := roundD (a + b)

/-- The difference `a - b` of two doubles. -/
def subD (a b : ℚ) : Option ℚ := roundD (a - b)

/-- The product `a * b` of two doubles. -/
def mulD (a b : ℚ) : Option ℚ := roundD (a * b)

/-- The quotient `a / b` of two doubles, `b` not zero. -/
def divD (a b : ℚ) : Option ℚ := if b = 0 then none else roundD (a / b)

/-- The value `fabs(a)`. -/
def fabsD (a : ℚ) : ℚ := if a < 0 then -a else a

/-- The integer square root of `n < 2^(2·bits)`, bit by bit from the top. -/
def isqrtLoop (n : Nat) : Nat → Nat → Nat
  | 0, r => r
  | bits + 1, r =>
    let c := r + 2 ^ bits
    isqrtLoop n bits (if c * c ≤ n then c else r)

/-- The value `sqrt(a)` of a double `a ≥ 0`, correctly rounded: the square
root is scaled to an integer of 53 bits, and the half-way point decides the
last bit. -/
def sqrtD (a : ℚ) : Option ℚ :=
  if a < 0 then none
  else if a = 0 then some 0
  else
    let half : Int := Int.fdiv (ilog2 a) 2
    let scaled : ℚ := a * pow2 (2 * (52 - half))
    let n : Nat := isqrtLoop (scaled.num.toNat / scaled.den) 64 0
    let mid : ℚ := ((2 * n + 1 : Nat) : ℚ) / 2
    let m : Nat :=
      if scaled < mid * mid then n
      else if mid * mid < scaled then n + 1
      else if n % 2 = 0 then n else n + 1
    roundD ((m : ℚ) * pow2 (half - 52))

/-- The conversion of an `int` to `double`. -/
def ofIntD (n : Int) : Option ℚ := roundD (n : ℚ)

/-! ## The program in double arithmetic -/

/-- The accumulation loop of `inputData` (lines 40-53) in double arithmetic. -/
def accumulateD : List (Int × ℚ × ℚ) → ℚ → ℚ → List (RainfallData ℚ) →
    Option (List (RainfallData ℚ))
  | [], _, _, data => some data
  | entry :: rest, cum_pa, cum_avg, data => do
    let cum_pa ← addD cum_pa entry.2.1
    let cum_avg ← addD cum_avg entry.2.2
    accumulateD rest cum_pa cum_avg
      (data ++ [{ year := entry.1, pa := entry.2.1, avg_p10 := entry.2.2,
                  cum_pa := cum_pa, cum_avg := cum_avg }])

/-- The loops of lines 63-71 (`withY2 = false`) and 84-93 (`withY2 = true`)
in double arithmetic, with `count` iterations left. -/
def sumLoopD (withY2 : Bool) (data : List (RainfallData ℚ)) :
    Nat → Int → Sums ℚ → Option (Sums ℚ)
  | 0, _, acc => some acc
  | count + 1, i, acc => do
    let rd ← readAt data i
    let x := rd.cum_avg
    let y := rd.cum_pa
    let sum_x ← addD acc.sum_x x
    let sum_y ← addD acc.sum_y y
    let sum_xy ← addD acc.sum_xy (← mulD x y)
    let sum_x2 ← addD acc.sum_x2 (← mulD x x)
    let sum_y2 ← if withY2 then addD acc.sum_y2 (← mulD y y) else some acc.sum_y2
    sumLoopD withY2 data count (i + 1)
      { sum_x := sum_x, sum_y := sum_y, sum_xy := sum_xy, sum_x2 := sum_x2, sum_y2 := sum_y2 }

/-- The value `n * sum_xy - sum_x * sum_y` of lines 73 and 95 in double
arithmetic. -/
def numeratorD (n : Int) (a : Sums ℚ) : Option ℚ := do
  subD (← mulD (← ofIntD n) a.sum_xy) (← mulD a.sum_x a.sum_y)

/-- The value `n * sum_x2 - sum_x * sum_x` of lines 73 and 96 in double
arithmetic. -/
def xDenominatorD (n : Int) (a : Sums ℚ) : Option ℚ := do
  subD (← mulD (← ofIntD n) a.sum_x2) (← mulD a.sum_x a.sum_x)

/-- The value `n * sum_y2 - sum_y * sum_y` of line 96 in double arithmetic. -/
def yDenominatorD (n : Int) (a : Sums ℚ) : Option ℚ := do
  subD (← mulD (← ofIntD n) a.sum_y2) (← mulD a.sum_y a.sum_y)

/-- The denominator of line 73 as `calculateSlope` computes it on the range
`start_idx .. end_idx`, a range that passes the guard of line 58. -/
def slopeDenominatorD (data : List (RainfallData ℚ)) (start_idx end_idx : Int) : Option ℚ := do
  let n : Int := end_idx - start_idx + 1
  xDenominatorD n (← sumLoopD false data n.toNat start_idx ⟨0, 0, 0, 0, 0⟩)

/-- The method `calculateSlope` (lines 57-75) in double arithmetic. -/
def calculateSlopeD (data : List (RainfallData ℚ)) (start_idx end_idx : Int) : Option ℚ :=
  if degenerate data start_idx end_idx then some 0
  else do
    let n : Int := end_idx - start_idx + 1
    let a ← sumLoopD false data n.toNat start_idx ⟨0, 0, 0, 0, 0⟩
    divD (← numeratorD n a) (← xDenominatorD n a)

/-- The method `calculateCorrelation` (lines 78-99) in double arithmetic. -/
def calculateCorrelationD (data : List (RainfallData ℚ)) (start_idx end_idx : Int) :
    Option ℚ :=
  if degenerate data start_idx end_idx then some 0
  else do
    let n : Int := end_idx - start_idx + 1
    let a ← sumLoopD true data n.toNat start_idx ⟨0, 0, 0, 0, 0⟩
    let numerator ← numeratorD n a
    let denominator ← sqrtD (← mulD (← xDenominatorD n a) (← yDenominatorD n a))
    if denominator ≠ 0 then divD numerator denominator else some 0

/-- Lines 111-116 and the read of line 118 for the candidate `i` in double
arithmetic: the two slopes, the two correlations and `slope_diff`. -/
def evalCandidateD (data : List (RainfallData ℚ)) (i : Int) : Option (Candidate ℚ × ℚ) := do
  let slope1 ← calculateSlopeD data 0 (i - 1)
  let slope2 ← calculateSlopeD data i (lastIndex data)
  let corr1 ← calculateCorrelationD data 0 (i - 1)
  let corr2 ← calculateCorrelationD data i (lastIndex data)
  let slope_diff := fabsD (← subD slope2 slope1)
  let _ ← readAt data i
  some (⟨slope1, slope2, corr1, corr2⟩, slope_diff)

/-- The update of lines 124-129 in double arithmetic; `0.85` is the double
the literal denotes. -/
def selectD (st : Scan ℚ) (i : Int) (c : Candidate ℚ) (slope_diff : ℚ) : Scan ℚ :=
  if slope_diff > st.max_slope_diff ∧ c.corr1 > literalD (85 / 100) ∧
      c.corr2 > literalD (85 / 100) then
    { max_slope_diff := slope_diff, best_break_point := i,
      slope_before := c.slope1, slope_after := c.slope2 }
  else st

/-- The loop of lines 110-130 in double arithmetic. -/
def scanLoopD (data : List (RainfallData ℚ)) : Nat → Nat → Scan ℚ → Option (Scan ℚ)
  | 0, _, st => some st
  | count + 1, i, st => do
    let c ← evalCandidateD data (i : Int)
    scanLoopD data count (i + 1) (selectD st (i : Int) c.1 c.2)

/-- The method `detectInconsistency` (lines 101-140) in double arithmetic. -/
def detectInconsistencyD (s : DoubleMassCurve ℚ) : Option (Detection ℚ) := do
  let st ← scanLoopD s.data (scanBound s.data - 5) 5
    { max_slope_diff := 0, best_break_point := -1,
      slope_before := s.slope_before, slope_after := s.slope_after }
  let s1 := { s with slope_before := st.slope_before, slope_after := st.slope_after }
  if st.max_slope_diff > literalD (5 / 100) then
    let rd ← readAt s.data st.best_break_point
    let correction_factor ← divD st.slope_after st.slope_before
    some { state := { s1 with inconsistency_year := rd.year,
                              correction_factor := correction_factor },
           max_slope_diff := st.max_slope_diff, best_break_point := st.best_break_point }
  else
    some { state := s1, max_slope_diff := st.max_slope_diff,
           best_break_point := st.best_break_point }

/-- A table of eleven years in which every station value is three times the
reference value and every reference value is positive, all whole numbers. -/
def tripleTable : List (Int × ℚ × ℚ) :=
  [ (2000, 900000021, 300000007), (2001, 6, 2), (2002, 6, 2), (2003, 6, 2),
    (2004, 126, 42), (2005, 105, 35), (2006, 3, 1), (2007, 75, 25), (2008, 132, 44),
    (2009, 42, 14), (2010, 84, 28) ]

/-- Lines 37-53 of `inputData` for an arbitrary table of doubles, in double
arithmetic. -/
def inputDataFromD (table : List (Int × ℚ × ℚ)) (s : DoubleMassCurve ℚ) :
    Option (DoubleMassCurve ℚ) := do
  let data ← accumulateD table 0 0 []
  some { s with data := data }

/-- A table of eleven years whose reference values are all positive, the
first one large; the station values equal the reference values. -/
def largeTable : List (Int × ℚ × ℚ) :=
  [ (2000, 1000000001, 1000000001), (2001, 1, 1), (2002, 1, 1), (2003, 1, 1), (2004, 1, 1),
    (2005, 1, 1), (2006, 1, 1), (2007, 1, 1), (2008, 1, 1), (2009, 1, 1), (2010, 1, 1) ]

/-- A table of five years whose values are the doubles `0.1` and `0.2` in the
first year and zero afterwards, so that both cumulative values are constant. -/
def constantTable : List (Int × ℚ × ℚ) :=
  [ (2000, literalD (1 / 10), literalD (1 / 5)), (2001, 0, 0), (2002, 0, 0), (2003, 0, 0),
    (2004, 0, 0) ]

end Defs

/-! ## Reads and the regression loops -/

section Reads

variable {F : Type}

theorem readAt_natCast (data : List (RainfallData F)) (i : Nat) :
    readAt data (i : Int) = data.get? i := by
  simp [readAt]

theorem readAt_neg (data : List (RainfallData F)) (i : Int) (h : i < 0) :
    readAt data i = none := by
  simp [readAt, h]

theorem readAt_isSome (data : List (RainfallData F)) (i : Int) (h0 : 0 ≤ i)
    (h1 : i < data.length) : ∃ rd, readAt data i = some rd := by
  obtain ⟨k, rfl⟩ := Int.eq_ofNat_of_zero_le h0
  have hk : k < data.length := by exact_mod_cast h1
  exact ⟨data[k], by simp [readAt_natCast, List.getElem?_eq_getElem hk]⟩

theorem segment_length (data : List (RainfallData F)) (start_idx end_idx : Int)
    (h0 : 0 ≤ start_idx) (h1 : start_idx ≤ end_idx) (h2 : end_idx < data.length) :
    ((segment data start_idx end_idx).length : Int) = end_idx - start_idx + 1 := by
  simp only [segment, List.length_take, List.length_drop]
  omega

theorem degenerate_eq_false (data : List (RainfallData F)) (start_idx end_idx : Int)
    (h0 : 0 ≤ start_idx) (h1 : start_idx < end_idx) (h2 : end_idx < data.length) :
    degenerate data start_idx end_idx = false := by
  have h3 : 0 ≤ end_idx := by omega
  simp only [degenerate, toSizeT, h3, if_true, Bool.or_eq_false_iff, decide_eq_false_iff_not]
  constructor <;> omega

/-- The guard of lines 58 and 79 catches every range with `start ≥ end`, every
`end_idx` at or past `data.size()`, and every negative `end_idx` of an `int`
(which the comparison with `data.size()` turns into a value above any vector
size). -/
theorem degenerate_eq_true (data : List (RainfallData F)) (start_idx end_idx : Int)
    (hint : -(2 ^ 31) ≤ end_idx) (hsize : data.length < 2 ^ 63)
    (h : start_idx ≥ end_idx ∨ end_idx ≥ data.length ∨ end_idx < 0) :
    degenerate data start_idx end_idx = true := by
  simp only [degenerate, toSizeT, Bool.or_eq_true, decide_eq_true_eq]
  by_cases h1 : start_idx ≥ end_idx
  · exact Or.inl h1
  · right
    by_cases h2 : 0 ≤ end_idx
    · rw [if_pos h2]
      omega
    · rw [if_neg h2]
      omega

theorem mem_scanIndices (data : List (RainfallData F)) (j : Nat) :
    j ∈ scanIndices data ↔ 5 ≤ j ∧ j < 5 + (scanBound data - 5) := by
  simp [scanIndices, List.mem_range'_1]

/-- The record at position `j` of a segment is the record `start_idx + j` of
the series. -/
theorem segment_get (data : List (RainfallData F)) (start_idx end_idx : Int) (j : Nat)
    (hj : (j : Int) ≤ end_idx - start_idx) :
    (segment data start_idx end_idx).get? j = data.get? (start_idx.toNat + j) := by
  have hlt : j < (end_idx - start_idx + 1).toNat := by omega
  simp only [segment, List.get?_eq_getElem?, List.getElem?_take_of_lt hlt, List.getElem?_drop]

theorem segment_sublist (data : List (RainfallData F)) (start_idx end_idx : Int) :
    List.Sublist (segment data start_idx end_idx) data :=
  (List.take_sublist _ _).trans (List.drop_sublist _ _)

/-- On at least five records the indices of the scan are those with five
records before them and six from them on. -/
theorem scanIndices_bounds (data : List (RainfallData F)) (h : 5 ≤ data.length) (i : Nat)
    (hi : i ∈ scanIndices data) : 5 ≤ i ∧ i + 6 ≤ data.length := by
  have hb : scanBound data = data.length - 5 := by
    unfold scanBound sizeSub
    rw [if_pos h]
  rw [mem_scanIndices, hb] at hi
  omega

/-- A range that passes the guard of lines 58 and 79 and does not start below
index 0 is a range `start < end < data.size()`. -/
theorem valid_of_not_degenerate (data : List (RainfallData F)) (start_idx end_idx : Int)
    (h0 : 0 ≤ start_idx) (h : degenerate data start_idx end_idx = false) :
    start_idx < end_idx ∧ end_idx < data.length := by
  simp only [degenerate, toSizeT, Bool.or_eq_false_iff, decide_eq_false_iff_not] at h
  obtain ⟨h1, h2⟩ := h
  have h3 : 0 ≤ end_idx := by omega
  rw [if_pos h3] at h2
  omega

end Reads

section Loops

variable {F : Type} [LinearOrderedField F]

theorem sumOver_cons (f : RainfallData F → F) (rd : RainfallData F)
    (seg : List (RainfallData F)) : sumOver f (rd :: seg) = f rd + sumOver f seg := by
  simp [sumOver]

/-- The loop invariant of `sumLoop`: on an in-bounds range the loop adds the
sums over the records of the range to its accumulators. -/
theorem sumLoop_natCast (data : List (RainfallData F)) :
    ∀ (count start : Nat) (acc : Sums F), start + count ≤ data.length →
      sumLoop data count (start : Int) acc =
        some { sum_x := acc.sum_x + Sx ((data.drop start).take count),
               sum_y := acc.sum_y + Sy ((data.drop start).take count),
               sum_xy := acc.sum_xy + Sxy ((data.drop start).take count),
               sum_x2 := acc.sum_x2 + Sxx ((data.drop start).take count),
               sum_y2 := acc.sum_y2 + Syy ((data.drop start).take count) } := by
  intro count
  induction count with
  | zero =>
    intro start acc _
    simp [sumLoop, Sx, Sy, Sxy, Sxx, Syy, sumOver]
  | succ count ih =>
    intro start acc h
    have hlt : start < data.length := by omega
    have hread : readAt data (start : Int) = some data[start] := by
      simp [readAt_natCast, List.getElem?_eq_getElem hlt]
    have hdrop : data.drop start = data[start] :: data.drop (start + 1) :=
      List.drop_eq_getElem_cons hlt
    have hnext : ((start : Int) + 1) = ((start + 1 : Nat) : Int) := by push_cast; rfl
    rw [sumLoop, hread]
    simp only []
    rw [hnext, ih (start + 1) _ (by omega), hdrop, List.take_succ_cons]
    simp only [Sx, Sy, Sxy, Sxx, Syy, sumOver_cons, add_assoc]

/-- The sums the regression loop returns on an in-bounds range. -/
theorem sumLoop_segment (data : List (RainfallData F)) (start_idx end_idx : Int)
    (h0 : 0 ≤ start_idx) (h1 : start_idx ≤ end_idx) (h2 : end_idx < data.length) :
    sumLoop data (end_idx - start_idx + 1).toNat start_idx ⟨0, 0, 0, 0, 0⟩ =
      some { sum_x := Sx (segment data start_idx end_idx),
             sum_y := Sy (segment data start_idx end_idx),
             sum_xy := Sxy (segment data start_idx end_idx),
             sum_x2 := Sxx (segment data start_idx end_idx),
             sum_y2 := Syy (segment data start_idx end_idx) } := by
  obtain ⟨k, rfl⟩ := Int.eq_ofNat_of_zero_le h0
  have hb : k + ((end_idx - (k : Int) + 1).toNat) ≤ data.length := by omega
  rw [sumLoop_natCast data _ k _ hb]
  simp [segment]

/-- On a range with `0 ≤ start_idx < end_idx < data.size()` the method
`calculateSlope` returns the quotient of the sums over the range. -/
theorem calculateSlope_segment (data : List (RainfallData F)) (start_idx end_idx : Int)
    (h0 : 0 ≤ start_idx) (h1 : start_idx < end_idx) (h2 : end_idx < data.length) :
    calculateSlope data start_idx end_idx = some (olsSlope (segment data start_idx end_idx)) := by
  have hk := segment_length data start_idx end_idx h0 (le_of_lt h1) h2
  have hk2 : ((end_idx - start_idx + 1 : Int) : F) =
      ((segment data start_idx end_idx).length : F) := by
    rw [← hk]; simp
  simp only [calculateSlope, degenerate_eq_false data start_idx end_idx h0 h1 h2,
    sumLoop_segment data start_idx end_idx h0 (le_of_lt h1) h2, olsSlope, covNum, slopeDen, hk2]
  simp

/-- On a range with `0 ≤ start_idx < end_idx < data.size()` the method
`calculateCorrelation` returns the guarded Pearson quotient of the sums over
the range. -/
theorem calculateCorrelation_segment (sqrt : F → F) (data : List (RainfallData F))
    (start_idx end_idx : Int)
    (h0 : 0 ≤ start_idx) (h1 : start_idx < end_idx) (h2 : end_idx < data.length) :
    calculateCorrelation sqrt data start_idx end_idx =
      some (pearson sqrt (segment data start_idx end_idx)) := by
  have hk := segment_length data start_idx end_idx h0 (le_of_lt h1) h2
  have hk2 : ((end_idx - start_idx + 1 : Int) : F) =
      ((segment data start_idx end_idx).length : F) := by
    rw [← hk]; simp
  simp only [calculateCorrelation, degenerate_eq_false data start_idx end_idx h0 h1 h2,
    sumLoop_segment data start_idx end_idx h0 (le_of_lt h1) h2, pearson, pearsonDen, covNum,
    slopeDen, yDen, hk2]
  simp

/-- The guard of line 58: a degenerate range gives `0.0` before any record is
read. -/
theorem calculateSlope_of_degenerate (data : List (RainfallData F)) (start_idx end_idx : Int)
    (h : degenerate data start_idx end_idx = true) :
    calculateSlope data start_idx end_idx = some 0 := by
  simp [calculateSlope, h]

/-- The guard of line 79: a degenerate range gives `0.0` before any record is
read. -/
theorem calculateCorrelation_of_degenerate (sqrt : F → F) (data : List (RainfallData F))
    (start_idx end_idx : Int) (h : degenerate data start_idx end_idx = true) :
    calculateCorrelation sqrt data start_idx end_idx = some 0 := by
  simp [calculateCorrelation, h]

end Loops

/-! ## Algebra of the regression sums -/

section Algebra

variable {F : Type} [LinearOrderedField F]

theorem sumOver_nil (f : RainfallData F → F) : sumOver f [] = 0 := by
  simp [sumOver]

theorem sumOver_const (f : RainfallData F → F) (c : F) :
    ∀ seg : List (RainfallData F), (∀ rd ∈ seg, f rd = c) →
      sumOver f seg = (seg.length : F) * c
  | [], _ => by simp [sumOver]
  | rd :: seg, h => by
    have h1 : f rd = c := h rd (List.mem_cons_self _ _)
    have h2 := sumOver_const f c seg (fun r hr => h r (List.mem_cons_of_mem _ hr))
    rw [sumOver_cons, h1, h2]
    simp only [List.length_cons, Nat.cast_add, Nat.cast_one]
    ring

/-- Expansion of `Σ (a·f − c)²`. -/
theorem sumOver_sq_affine (f : RainfallData F → F) (a c : F) :
    ∀ seg : List (RainfallData F),
      sumOver (fun rd => (a * f rd - c) * (a * f rd - c)) seg =
        a * a * sumOver (fun rd => f rd * f rd) seg - 2 * a * c * sumOver f seg
          + (seg.length : F) * (c * c)
  | [] => by simp [sumOver]
  | rd :: seg => by
    rw [sumOver_cons, sumOver_cons, sumOver_cons, sumOver_sq_affine f a c seg]
    simp only [List.length_cons, Nat.cast_add, Nat.cast_one]
    ring

theorem sumOver_nonneg (g : RainfallData F → F) (hg : ∀ rd, 0 ≤ g rd) :
    ∀ seg : List (RainfallData F), 0 ≤ sumOver g seg
  | [] => by simp [sumOver]
  | rd :: seg => by
    rw [sumOver_cons]
    exact add_nonneg (hg rd) (sumOver_nonneg g hg seg)

theorem sumOver_eq_zero (g : RainfallData F → F) (hg : ∀ rd, 0 ≤ g rd) :
    ∀ seg : List (RainfallData F), sumOver g seg = 0 → ∀ rd ∈ seg, g rd = 0
  | [], _ => by simp
  | r :: seg, h => by
    rw [sumOver_cons] at h
    have h1 := hg r
    have h2 := sumOver_nonneg g hg seg
    have h3 : g r = 0 := by linarith
    have h4 : sumOver g seg = 0 := by linarith
    intro rd hrd
    rcases List.mem_cons.mp hrd with rfl | hmem
    · exact h3
    · exact sumOver_eq_zero g hg seg h4 rd hmem

/-- The variance identity `k·(k·Σx² − (Σx)²) = Σ (k·x − Σx)²`. -/
theorem length_mul_slopeDen (seg : List (RainfallData F)) :
    (seg.length : F) * slopeDen seg =
      sumOver (fun rd => ((seg.length : F) * rd.cum_avg - Sx seg) *
        ((seg.length : F) * rd.cum_avg - Sx seg)) seg := by
  rw [sumOver_sq_affine (fun rd => rd.cum_avg) (seg.length : F) (Sx seg) seg]
  simp only [slopeDen, Sxx, Sx]
  ring

/-- The slope denominator is never negative. -/
theorem slopeDen_nonneg (seg : List (RainfallData F)) : 0 ≤ slopeDen seg := by
  rcases Nat.eq_zero_or_pos seg.length with h | h
  · have : seg = [] := List.length_eq_zero.mp h
    subst this
    simp [slopeDen, Sxx, Sx, sumOver]
  · have hk : (0 : F) < (seg.length : F) := by exact_mod_cast h
    have h1 := length_mul_slopeDen seg
    have h2 := sumOver_nonneg (fun rd => ((seg.length : F) * rd.cum_avg - Sx seg) *
        ((seg.length : F) * rd.cum_avg - Sx seg)) (fun rd => mul_self_nonneg _) seg
    rw [← h1] at h2
    exact nonneg_of_mul_nonneg_right h2 hk

/-- A vanishing slope denominator means that `x` is constant on the segment. -/
theorem const_of_slopeDen_eq_zero (seg : List (RainfallData F)) (h : slopeDen seg = 0) :
    ∀ rd ∈ seg, ∀ rd' ∈ seg, rd.cum_avg = rd'.cum_avg := by
  have h1 := length_mul_slopeDen seg
  rw [h, mul_zero] at h1
  have h2 := sumOver_eq_zero _ (fun rd => mul_self_nonneg _) seg h1.symm
  intro rd hrd rd' hrd'
  have hpos : 0 < seg.length := List.length_pos_of_mem hrd
  have hk : (0 : F) < (seg.length : F) := by exact_mod_cast hpos
  have e1 := mul_self_eq_zero.mp (h2 rd hrd)
  have e2 := mul_self_eq_zero.mp (h2 rd' hrd')
  have e3 : (seg.length : F) * rd.cum_avg = (seg.length : F) * rd'.cum_avg := by
    linarith
  exact mul_left_cancel₀ (ne_of_gt hk) e3

/-- When `x` is not constant on the segment the slope denominator is positive. -/
theorem slopeDen_pos (seg : List (RainfallData F))
    (h : ∃ rd ∈ seg, ∃ rd' ∈ seg, rd.cum_avg ≠ rd'.cum_avg) : 0 < slopeDen seg := by
  rcases lt_or_eq_of_le (slopeDen_nonneg seg) with hlt | heq
  · exact hlt
  · obtain ⟨rd, hrd, rd', hrd', hne⟩ := h
    exact absurd (const_of_slopeDen_eq_zero seg heq.symm rd hrd rd' hrd') hne

/-- When `x` is constant on the segment both the slope denominator and the
shared numerator vanish. -/
theorem slopeDen_covNum_of_const (seg : List (RainfallData F)) (c : F)
    (h : ∀ rd ∈ seg, rd.cum_avg = c) : slopeDen seg = 0 ∧ covNum seg = 0 := by
  have hx : Sx seg = (seg.length : F) * c := sumOver_const _ c seg h
  have hxx : Sxx seg = (seg.length : F) * (c * c) :=
    sumOver_const _ (c * c) seg (fun rd hrd => by rw [h rd hrd])
  have hxy : Sxy seg = c * Sy seg := by
    clear hx hxx
    induction seg with
    | nil => simp [Sxy, Sy, sumOver]
    | cons r seg ih =>
      have ih2 := ih (fun rd hrd => h rd (List.mem_cons_of_mem _ hrd))
      simp only [Sxy, Sy, sumOver_cons] at ih2 ⊢
      rw [ih2, h r (List.mem_cons_self _ _)]
      ring
  constructor
  · rw [slopeDen, hx, hxx]; ring
  · rw [covNum, hx, hxy]; ring

/-- When `y` is constant on the segment both `k·Σy² − (Σy)²` and the shared
numerator vanish. -/
theorem yDen_covNum_of_const (seg : List (RainfallData F)) (c : F)
    (h : ∀ rd ∈ seg, rd.cum_pa = c) : yDen seg = 0 ∧ covNum seg = 0 := by
  have hy : Sy seg = (seg.length : F) * c := sumOver_const _ c seg h
  have hyy : Syy seg = (seg.length : F) * (c * c) :=
    sumOver_const _ (c * c) seg (fun rd hrd => by rw [h rd hrd])
  have hxy : Sxy seg = c * Sx seg := by
    clear hy hyy
    induction seg with
    | nil => simp [Sxy, Sx, sumOver]
    | cons r seg ih =>
      have ih2 := ih (fun rd hrd => h rd (List.mem_cons_of_mem _ hrd))
      simp only [Sxy, Sx, sumOver_cons] at ih2 ⊢
      rw [ih2, h r (List.mem_cons_self _ _)]
      ring
  constructor
  · rw [yDen, hy, hyy]; ring
  · rw [covNum, hy, hxy]; ring

/-- A segment whose slope denominator vanishes has correlation `0` whatever
the square root function is: the candidate is not eligible. -/
theorem pearson_eq_zero_of_slopeDen (sqrt : F → F) (seg : List (RainfallData F))
    (h : slopeDen seg = 0) : pearson sqrt seg = 0 := by
  have hnum : covNum seg = 0 := by
    rcases seg with _ | ⟨r, seg⟩
    · simp [covNum, Sxy, Sx, Sy, sumOver]
    · exact (slopeDen_covNum_of_const (r :: seg) r.cum_avg
        (fun rd hrd => const_of_slopeDen_eq_zero _ h rd hrd r (List.mem_cons_self _ _))).2
  simp [pearson, hnum]

/-- The sums of a segment whose points lie on the line `y = m·x + b`. -/
theorem sums_of_line (m b : F) :
    ∀ seg : List (RainfallData F), (∀ rd ∈ seg, rd.cum_pa = m * rd.cum_avg + b) →
      Sy seg = m * Sx seg + (seg.length : F) * b ∧
      Sxy seg = m * Sxx seg + b * Sx seg ∧
      Syy seg = m * m * Sxx seg + 2 * m * b * Sx seg + (seg.length : F) * (b * b)
  | [], _ => by simp [Sx, Sy, Sxy, Sxx, Syy, sumOver]
  | r :: seg, h => by
    obtain ⟨e1, e2, e3⟩ := sums_of_line m b seg (fun rd hrd => h rd (List.mem_cons_of_mem _ hrd))
    have hr := h r (List.mem_cons_self _ _)
    simp only [Sx, Sy, Sxy, Sxx, Syy, sumOver_cons, List.length_cons, Nat.cast_add,
      Nat.cast_one] at e1 e2 e3 ⊢
    rw [e1, e2, e3, hr]
    refine ⟨by ring, by ring, by ring⟩

/-- On a line `y = m·x + b` the numerator is `m` times the slope denominator
and `k·Σy² − (Σy)²` is `m²` times it. -/
theorem covNum_yDen_of_line (m b : F) (seg : List (RainfallData F))
    (h : ∀ rd ∈ seg, rd.cum_pa = m * rd.cum_avg + b) :
    covNum seg = m * slopeDen seg ∧ yDen seg = m * m * slopeDen seg := by
  obtain ⟨e1, e2, e3⟩ := sums_of_line m b seg h
  constructor
  · rw [covNum, slopeDen, e1, e2]; ring
  · rw [yDen, slopeDen, e1, e3]; ring

end Algebra

/-! ## The series builder -/

section Builder

variable {F : Type} [LinearOrderedField F]

theorem accumulate_append (table : List (Int × F × F)) :
    ∀ (cum_pa cum_avg : F) (data : List (RainfallData F)),
      accumulate table cum_pa cum_avg data = data ++ accumulate table cum_pa cum_avg [] := by
  induction table with
  | nil => intro _ _ data; simp [accumulate]
  | cons entry rest ih =>
    intro cum_pa cum_avg data
    simp only [accumulate]
    rw [ih _ _ (data ++ _), ih _ _ ([] ++ _)]
    simp

theorem accumulate_cons (entry : Int × F × F) (rest : List (Int × F × F)) (cum_pa cum_avg : F) :
    accumulate (entry :: rest) cum_pa cum_avg [] =
      { year := entry.1, pa := entry.2.1, avg_p10 := entry.2.2,
        cum_pa := cum_pa + entry.2.1, cum_avg := cum_avg + entry.2.2 } ::
        accumulate rest (cum_pa + entry.2.1) (cum_avg + entry.2.2) [] := by
  simp only [accumulate]
  rw [accumulate_append]
  simp

theorem accumulate_triples (table : List (Int × F × F)) :
    ∀ (cum_pa cum_avg : F),
      (accumulate table cum_pa cum_avg []).map (fun rd => (rd.year, rd.pa, rd.avg_p10)) = table := by
  induction table with
  | nil => intro _ _; simp [accumulate]
  | cons entry rest ih =>
    intro cum_pa cum_avg
    rw [accumulate_cons, List.map_cons, ih]

theorem accumulate_cum_pa (table : List (Int × F × F)) :
    ∀ (cum_pa cum_avg : F),
      (accumulate table cum_pa cum_avg []).map (fun rd => rd.cum_pa) =
        (List.range table.length).map
          (fun i => cum_pa + ((table.take (i + 1)).map (fun entry => entry.2.1)).sum) := by
  induction table with
  | nil => intro _ _; simp [accumulate]
  | cons entry rest ih =>
    intro cum_pa cum_avg
    rw [accumulate_cons, List.map_cons, ih, List.length_cons, List.range_succ_eq_map,
      List.map_cons, List.map_map]
    simp [Function.comp_def, add_assoc]

theorem accumulate_cum_avg (table : List (Int × F × F)) :
    ∀ (cum_pa cum_avg : F),
      (accumulate table cum_pa cum_avg []).map (fun rd => rd.cum_avg) =
        (List.range table.length).map
          (fun i => cum_avg + ((table.take (i + 1)).map (fun entry => entry.2.2)).sum) := by
  induction table with
  | nil => intro _ _; simp [accumulate]
  | cons entry rest ih =>
    intro cum_pa cum_avg
    rw [accumulate_cons, List.map_cons, ih, List.length_cons, List.range_succ_eq_map,
      List.map_cons, List.map_map]
    simp [Function.comp_def, add_assoc]

/-- Every record built by the loop carries the sum of the previous record
plus its own value; `prev` stands for the record before the first one. -/
theorem accumulate_step (table : List (Int × F × F)) :
    ∀ (cum_pa cum_avg : F) (prev : RainfallData F),
      prev.cum_pa = cum_pa → prev.cum_avg = cum_avg →
      List.Chain (fun rd rd' => rd'.cum_pa = rd.cum_pa + rd'.pa ∧
          rd'.cum_avg = rd.cum_avg + rd'.avg_p10)
        prev (accumulate table cum_pa cum_avg []) := by
  induction table with
  | nil => intro _ _ _ _ _; simp [accumulate]
  | cons entry rest ih =>
    intro cum_pa cum_avg prev h1 h2
    rw [accumulate_cons]
    refine List.Chain.cons ⟨by rw [h1], by rw [h2]⟩ (ih _ _ _ rfl rfl)

end Builder

/-! ## The scan of `detectInconsistency` -/

section Scan

variable {F : Type} [LinearOrderedField F]

/-- The candidate `i` is evaluated exactly when its four regression calls and
the read `data[i]` succeed; its fields are the four results. -/
theorem evalCandidate_eq_some (sqrt : F → F) (data : List (RainfallData F)) (i : Int)
    (c : Candidate F) :
    evalCandidate sqrt data i = some c ↔
      calculateSlope data 0 (i - 1) = some c.slope1 ∧
      calculateSlope data i (lastIndex data) = some c.slope2 ∧
      calculateCorrelation sqrt data 0 (i - 1) = some c.corr1 ∧
      calculateCorrelation sqrt data i (lastIndex data) = some c.corr2 ∧
      ∃ rd, readAt data i = some rd := by
  unfold evalCandidate
  cases h1 : calculateSlope data 0 (i - 1) <;>
  cases h2 : calculateSlope data i (lastIndex data) <;>
  cases h3 : calculateCorrelation sqrt data 0 (i - 1) <;>
  cases h4 : calculateCorrelation sqrt data i (lastIndex data) <;>
  cases h5 : readAt data i <;>
  simp
  constructor
  · rintro rfl
    exact ⟨rfl, rfl, rfl, rfl⟩
  · rintro ⟨rfl, rfl, rfl, rfl⟩
    rfl

/-- Every index with at least five records before it and at least five after
it is evaluated without an out-of-bounds read. -/
theorem evalCandidate_isSome (sqrt : F → F) (data : List (RainfallData F)) (i : Nat)
    (h5 : 5 ≤ i) (hn : i + 6 ≤ data.length) :
    ∃ c, evalCandidate sqrt data (i : Int) = some c := by
  have e1 := calculateSlope_segment data 0 ((i : Int) - 1) (le_refl _) (by omega) (by omega)
  have e2 := calculateSlope_segment data (i : Int) (lastIndex data) (by omega)
    (by unfold lastIndex; omega) (by unfold lastIndex; omega)
  have e3 := calculateCorrelation_segment sqrt data 0 ((i : Int) - 1) (le_refl _) (by omega)
    (by omega)
  have e4 := calculateCorrelation_segment sqrt data (i : Int) (lastIndex data) (by omega)
    (by unfold lastIndex; omega) (by unfold lastIndex; omega)
  have e5 := readAt_isSome data (i : Int) (by omega) (by omega)
  exact ⟨⟨_, _, _, _⟩, (evalCandidate_eq_some sqrt data i _).mpr ⟨e1, e2, e3, e4, e5⟩⟩

/-- One iteration of the scan keeps the selection rule. -/
theorem select_selected (sqrt : F → F) (data : List (RainfallData F)) (sb sa : F)
    (i : Nat) (st : Scan F) (c : Candidate F) (h5 : 5 ≤ i)
    (hst : Selected sqrt data sb sa i st)
    (hc : evalCandidate sqrt data (i : Int) = some c) :
    Selected sqrt data sb sa (i + 1) (select st (i : Int) c) := by
  have hfun : ∀ (j : Nat) (cj : Candidate F), j < i + 1 → ¬ j < i →
      evalCandidate sqrt data (j : Int) = some cj → cj = c := by
    intro j cj hj1 hj2 hcj
    have hji : j = i := by omega
    subst hji
    rw [hc] at hcj
    exact (Option.some.inj hcj).symm
  unfold select
  by_cases hsel : c.slope_diff > st.max_slope_diff ∧ c.corr1 > 0.85 ∧ c.corr2 > 0.85
  · rw [if_pos hsel]
    obtain ⟨hgt, helig⟩ := hsel
    right
    rcases hst with ⟨hmax, _, _, _, hall⟩ | ⟨b, cb, _, _, _, _, hpos, hmax, _, _, _, hall⟩
    · refine ⟨i, c, h5, by omega, hc, helig, by rw [hmax] at hgt; exact hgt, rfl, rfl, rfl, rfl, ?_⟩
      intro j cj hj5 hj hcj hel
      by_cases hlt : j < i
      · have := hall j cj hj5 hlt hcj hel
        rw [hmax] at hgt
        exact ⟨by linarith, fun heq => by linarith⟩
      · rw [hfun j cj hj hlt hcj]
        exact ⟨le_refl _, fun _ => by omega⟩
    · refine ⟨i, c, h5, by omega, hc, helig, by rw [hmax] at hgt; linarith, rfl, rfl, rfl, rfl, ?_⟩
      intro j cj hj5 hj hcj hel
      by_cases hlt : j < i
      · have := (hall j cj hj5 hlt hcj hel).1
        rw [hmax] at hgt
        exact ⟨by linarith, fun heq => by linarith⟩
      · rw [hfun j cj hj hlt hcj]
        exact ⟨le_refl _, fun _ => by omega⟩
  · rw [if_neg hsel]
    rcases hst with ⟨hmax, hb, hsb, hsa, hall⟩ | ⟨b, cb, hb5, hbi, hcb, helb, hpos, hmax, hb, hsb, hsa, hall⟩
    · left
      refine ⟨hmax, hb, hsb, hsa, ?_⟩
      intro j cj hj5 hj hcj hel
      by_cases hlt : j < i
      · exact hall j cj hj5 hlt hcj hel
      · rw [hfun j cj hj hlt hcj] at hel ⊢
        by_contra hcon
        exact hsel ⟨by rw [hmax]; exact not_le.mp hcon, hel⟩
    · right
      refine ⟨b, cb, hb5, by omega, hcb, helb, hpos, hmax, hb, hsb, hsa, ?_⟩
      intro j cj hj5 hj hcj hel
      by_cases hlt : j < i
      · exact hall j cj hj5 hlt hcj hel
      · have hji : j = i := by omega
        rw [hfun j cj hj hlt hcj] at hel ⊢
        refine ⟨?_, fun _ => by omega⟩
        by_contra hcon
        exact hsel ⟨by rw [hmax]; exact not_le.mp hcon, hel⟩

/-- The loop invariant of the scan: the selection rule holds for the
candidates visited so far. -/
theorem scanLoop_selected (sqrt : F → F) (data : List (RainfallData F)) (sb sa : F) :
    ∀ (count i : Nat) (st st' : Scan F), 5 ≤ i → Selected sqrt data sb sa i st →
      scanLoop sqrt data count i st = some st' → Selected sqrt data sb sa (i + count) st' := by
  intro count
  induction count with
  | zero =>
    intro i st st' _ hst h
    simp only [scanLoop, Option.some.injEq] at h
    subst h
    exact hst
  | succ count ih =>
    intro i st st' h5 hst h
    rw [scanLoop] at h
    cases hc : evalCandidate sqrt data (i : Int) with
    | none => rw [hc] at h; exact absurd h (by simp)
    | some c =>
      rw [hc] at h
      have := ih (i + 1) _ st' (by omega) (select_selected sqrt data sb sa i st c h5 hst hc) h
      rw [show i + (count + 1) = i + 1 + count by omega]
      exact this

/-- A scan that completes has evaluated every index it visited. -/
theorem scanLoop_evaluated (sqrt : F → F) (data : List (RainfallData F)) :
    ∀ (count i : Nat) (st st' : Scan F), scanLoop sqrt data count i st = some st' →
      ∀ j : Nat, i ≤ j → j < i + count → ∃ c, evalCandidate sqrt data (j : Int) = some c := by
  intro count
  induction count with
  | zero => intro i st st' _ j h1 h2; omega
  | succ count ih =>
    intro i st st' h j h1 h2
    rw [scanLoop] at h
    cases hc : evalCandidate sqrt data (i : Int) with
    | none => rw [hc] at h; exact absurd h (by simp)
    | some c =>
      rw [hc] at h
      by_cases hji : j = i
      · subst hji; exact ⟨c, hc⟩
      · exact ih (i + 1) _ st' h j (by omega) (by omega)

/-- The scan completes when every index it visits has five records before it
and five after it. -/
theorem scanLoop_isSome (sqrt : F → F) (data : List (RainfallData F)) :
    ∀ (count i : Nat) (st : Scan F), 5 ≤ i → (0 < count → i + count + 5 ≤ data.length) →
      ∃ st', scanLoop sqrt data count i st = some st' := by
  intro count
  induction count with
  | zero => intro i st _ _; exact ⟨st, rfl⟩
  | succ count ih =>
    intro i st h5 hn
    have hn2 := hn (Nat.succ_pos _)
    obtain ⟨c, hc⟩ := evalCandidate_isSome sqrt data i h5 (by omega)
    rw [scanLoop, hc]
    exact ih (i + 1) _ (by omega) (fun _ => by omega)

/-- Before its first iteration the scan satisfies the selection rule. -/
theorem selected_initial (sqrt : F → F) (data : List (RainfallData F)) (sb sa : F) :
    Selected sqrt data sb sa 5
      { max_slope_diff := 0, best_break_point := -1, slope_before := sb, slope_after := sa } :=
  Or.inl ⟨rfl, rfl, rfl, rfl, fun j _ h1 h2 => by omega⟩

/-- On fewer than five records the first iteration of the scan reads
`data[5]`, which is out of bounds. -/
theorem scanLoop_short (sqrt : F → F) (data : List (RainfallData F)) (st : Scan F)
    (h : data.length < 5) : scanLoop sqrt data (scanBound data - 5) 5 st = none := by
  have hcount : scanBound data - 5 = (scanBound data - 6) + 1 := by
    unfold scanBound sizeSub
    rw [if_neg (by omega)]
    omega
  have hread : readAt data ((5 : Nat) : Int) = none := by
    rw [readAt_natCast]
    exact List.get?_eq_none.mpr (by omega)
  have heval : evalCandidate sqrt data ((5 : Nat) : Int) = none := by
    cases hc : evalCandidate sqrt data ((5 : Nat) : Int) with
    | none => rfl
    | some c =>
      obtain ⟨_, _, _, _, rd, hrd⟩ := (evalCandidate_eq_some sqrt data _ c).mp hc
      rw [hread] at hrd
      exact absurd hrd (by simp)
  rw [hcount, scanLoop, heval]

/-- On fewer than five records `detectInconsistency` does not return: the
bound `data.size() - 5` of line 110 wraps around and the scan reads `data[5]`. -/
theorem detectInconsistency_short (sqrt : F → F) (s : DoubleMassCurve F)
    (h : s.data.length < 5) : detectInconsistency sqrt s = none := by
  unfold detectInconsistency
  rw [scanLoop_short sqrt s.data _ h]

/-- The shape of a result of `detectInconsistency`: the scan completed with
some state `st`, and the object is updated as lines 134-137 say. -/
theorem detectInconsistency_eq_some (sqrt : F → F) (s : DoubleMassCurve F)
    (out : Detection F) (h : detectInconsistency sqrt s = some out) :
    ∃ st : Scan F,
      scanLoop sqrt s.data (scanBound s.data - 5) 5
        { max_slope_diff := 0, best_break_point := -1,
          slope_before := s.slope_before, slope_after := s.slope_after } = some st ∧
      out.max_slope_diff = st.max_slope_diff ∧ out.best_break_point = st.best_break_point ∧
      out.state.data = s.data ∧
      out.state.slope_before = st.slope_before ∧ out.state.slope_after = st.slope_after ∧
      ((st.max_slope_diff > 0.05 ∧ ∃ rd, readAt s.data st.best_break_point = some rd ∧
          out.state.inconsistency_year = rd.year ∧
          out.state.correction_factor = st.slope_after / st.slope_before) ∨
       (¬ st.max_slope_diff > 0.05 ∧ out.state.inconsistency_year = s.inconsistency_year ∧
          out.state.correction_factor = s.correction_factor)) := by
  unfold detectInconsistency at h
  cases hscan : scanLoop sqrt s.data (scanBound s.data - 5) 5
      { max_slope_diff := 0, best_break_point := -1,
        slope_before := s.slope_before, slope_after := s.slope_after } with
  | none => rw [hscan] at h; exact absurd h (by simp)
  | some st =>
    rw [hscan] at h
    refine ⟨st, rfl, ?_⟩
    simp only [] at h
    by_cases hgate : st.max_slope_diff > 0.05
    · rw [if_pos hgate] at h
      cases hrd : readAt s.data st.best_break_point with
      | none => rw [hrd] at h; exact absurd h (by simp)
      | some rd =>
        rw [hrd] at h
        simp only [Option.some.injEq] at h
        subst h
        exact ⟨rfl, rfl, rfl, rfl, rfl, Or.inl ⟨hgate, rd, rfl, rfl, rfl⟩⟩
    · rw [if_neg hgate] at h
      simp only [Option.some.injEq] at h
      subst h
      exact ⟨rfl, rfl, rfl, rfl, rfl, Or.inr ⟨hgate, rfl, rfl⟩⟩

/-- The selection rule holds of the state in which the scan of
`detectInconsistency` ends. -/
theorem detectInconsistency_selected (sqrt : F → F) (s : DoubleMassCurve F) (st : Scan F)
    (h : scanLoop sqrt s.data (scanBound s.data - 5) 5
        { max_slope_diff := 0, best_break_point := -1,
          slope_before := s.slope_before, slope_after := s.slope_after } = some st) :
    Selected sqrt s.data s.slope_before s.slope_after (5 + (scanBound s.data - 5)) st :=
  scanLoop_selected sqrt s.data s.slope_before s.slope_after _ 5 _ st (le_refl _)
    (selected_initial sqrt s.data _ _) h

/-- On at least five records `detectInconsistency` returns: no read of the
scan or of line 135 is out of bounds. -/
theorem detectInconsistency_isSome (sqrt : F → F) (s : DoubleMassCurve F)
    (h : 5 ≤ s.data.length) : ∃ out, detectInconsistency sqrt s = some out := by
  have hb : scanBound s.data = s.data.length - 5 := by
    unfold scanBound sizeSub
    rw [if_pos h]
  obtain ⟨st, hst⟩ := scanLoop_isSome sqrt s.data (scanBound s.data - 5) 5
    { max_slope_diff := 0, best_break_point := -1,
      slope_before := s.slope_before, slope_after := s.slope_after } (le_refl _)
    (by rw [hb]; omega)
  have hsel := detectInconsistency_selected sqrt s st hst
  unfold detectInconsistency
  rw [hst]
  simp only []
  by_cases hgate : st.max_slope_diff > 0.05
  · rw [if_pos hgate]
    rcases hsel with ⟨hmax, _⟩ | ⟨b, c, hb5, hbhi, _, _, _, _, hbest, _⟩
    · rw [hmax] at hgate
      exact absurd hgate (by norm_num)
    · obtain ⟨rd, hrd⟩ := readAt_isSome s.data st.best_break_point (by rw [hbest]; omega)
        (by rw [hbest, hb] at *; omega)
      rw [hrd]
      exact ⟨_, rfl⟩
  · rw [if_neg hgate]
    exact ⟨_, rfl⟩

theorem scanLoop_eq_scanOver (sqrt : F → F) (data : List (RainfallData F)) :
    ∀ (count i : Nat) (st : Scan F),
      scanLoop sqrt data count i st = scanOver sqrt data (List.range' i count) st := by
  intro count
  induction count with
  | zero => intro i st; rfl
  | succ count ih =>
    intro i st
    rw [scanLoop, List.range'_succ, scanOver]
    cases evalCandidate sqrt data (i : Int) with
    | none => rfl
    | some c => exact ih (i + 1) _

/-- What a result of `detectInconsistency` says about the candidates: the
selection rule holds of the final locals and slope fields. -/
theorem detectInconsistency_outcome (sqrt : F → F) (s : DoubleMassCurve F) (out : Detection F)
    (h : detectInconsistency sqrt s = some out) :
    Selected sqrt s.data s.slope_before s.slope_after (5 + (scanBound s.data - 5))
      { max_slope_diff := out.max_slope_diff, best_break_point := out.best_break_point,
        slope_before := out.state.slope_before, slope_after := out.state.slope_after } := by
  obtain ⟨st, hscan, h1, h2, _, h3, h4, _⟩ := detectInconsistency_eq_some sqrt s out h
  have := detectInconsistency_selected sqrt s st hscan
  rw [h1, h2, h3, h4]
  exact this

/-- What an accepted break looks like: the gate of line 134 passed, so the
locals hold an eligible candidate `b`, and lines 135-136 stored its year and
the quotient of its slopes. -/
theorem detectInconsistency_accepted (sqrt : F → F) (s : DoubleMassCurve F) (out : Detection F)
    (h : detectInconsistency sqrt s = some out) (hgate : out.max_slope_diff > 0.05) :
    ∃ (b : Nat) (c : Candidate F) (rd : RainfallData F),
      b ∈ scanIndices s.data ∧ evalCandidate sqrt s.data (b : Int) = some c ∧ c.eligible ∧
      out.best_break_point = (b : Int) ∧ out.max_slope_diff = c.slope_diff ∧
      out.state.slope_before = c.slope1 ∧ out.state.slope_after = c.slope2 ∧
      readAt s.data (b : Int) = some rd ∧ out.state.inconsistency_year = rd.year ∧
      out.state.correction_factor = c.slope2 / c.slope1 ∧ out.state.data = s.data := by
  obtain ⟨st, hscan, h1, h2, hdata, h3, h4, hcase⟩ := detectInconsistency_eq_some sqrt s out h
  have hsel := detectInconsistency_selected sqrt s st hscan
  rw [h1] at hgate
  rcases hcase with ⟨_, rd, hrd, hy, hf⟩ | ⟨hno, _⟩
  · rcases hsel with ⟨hmax, _⟩ | ⟨b, c, hb5, hbhi, hc, hel, _, hmax, hbest, hsb, hsa, _⟩
    · rw [hmax] at hgate
      exact absurd hgate (by norm_num)
    · refine ⟨b, c, rd, (mem_scanIndices _ _).mpr ⟨hb5, hbhi⟩, hc, hel, by rw [h2, hbest],
        by rw [h1, hmax], by rw [h3, hsb], by rw [h4, hsa], by rw [← hbest]; exact hrd, hy,
        by rw [hf, hsb, hsa], hdata⟩
  · exact absurd hgate hno

end Scan

/-! ## The corrector -/

section Corrector

variable {F : Type}

/-- With pairwise distinct years the search of lines 147-152 finds the index
of the record whose year it is given. -/
theorem findBreak_nodup :
    ∀ (data : List (RainfallData F)) (b : Nat) (rd : RainfallData F) (i : Int),
      (data.map (fun r => r.year)).Nodup → data.get? b = some rd →
      findBreak rd.year data i = i + (b : Int)
  | [], b, rd, i, _, h => by simp at h
  | r :: rest, 0, rd, i, _, h => by
    simp only [List.get?_cons_zero, Option.some.injEq] at h
    subst h
    simp [findBreak]
  | r :: rest, b + 1, rd, i, hnd, h => by
    simp only [List.get?_cons_succ] at h
    rw [List.map_cons, List.nodup_cons] at hnd
    have hmem : rd.year ∈ rest.map (fun r => r.year) :=
      List.mem_map.mpr ⟨rd, List.get?_mem h, rfl⟩
    have hne : r.year ≠ rd.year := fun heq => hnd.1 (heq ▸ hmem)
    rw [findBreak, if_neg hne, findBreak_nodup rest b rd (i + 1) hnd.2 h]
    push_cast
    ring

theorem correctRows_length [LinearOrderedField F] (f : F) (break_idx : Int) :
    ∀ (data : List (RainfallData F)) (i : Int),
      (correctRows f break_idx data i).length = data.length
  | [], _ => rfl
  | _ :: rest, i => by
    rw [correctRows, List.length_cons, List.length_cons, correctRows_length f break_idx rest (i + 1)]

/-- The printing loop gives every record the row of the specification. -/
theorem correctRows_get [LinearOrderedField F] (f : F) (break_idx : Int) :
    ∀ (data : List (RainfallData F)) (i k : Nat) (rd : RainfallData F),
      data.get? k = some rd →
      (correctRows f break_idx data (i : Int)).get? k = some (expectedRow f break_idx (i + k) rd)
  | [], _, k, rd, h => by simp at h
  | r :: rest, i, 0, rd, h => by
    simp only [List.get?_cons_zero, Option.some.injEq] at h
    subst h
    rw [correctRows, List.get?_cons_zero, expectedRow]
    by_cases hlt : (i : Int) < break_idx
    · simp [hlt]
    · simp [hlt]
  | r :: rest, i, k + 1, rd, h => by
    simp only [List.get?_cons_succ] at h
    have := correctRows_get f break_idx rest (i + 1) k rd h
    rw [correctRows, List.get?_cons_succ, show ((i : Int) + 1) = ((i + 1 : Nat) : Int) by
      push_cast; rfl, this, show i + 1 + k = i + (k + 1) by omega]

end Corrector

/-! ## Exact real arithmetic -/

section RealArithmetic

/-- On a line `y = m·x + b` with non-constant `x` the least-squares slope is `m`. -/
theorem olsSlope_of_line {F : Type} [LinearOrderedField F] (m b : F)
    (seg : List (RainfallData F))
    (hline : ∀ rd ∈ seg, rd.cum_pa = m * rd.cum_avg + b)
    (hx : ∃ rd ∈ seg, ∃ rd' ∈ seg, rd.cum_avg ≠ rd'.cum_avg) : olsSlope seg = m := by
  have hD := slopeDen_pos seg hx
  rw [olsSlope, (covNum_yDen_of_line m b seg hline).1]
  exact mul_div_cancel_right₀ m (ne_of_gt hD)

/-- On a line `y = m·x + b` the Pearson denominator is `|m|` times the slope
denominator. -/
theorem pearsonDen_of_line (m b : ℝ) (seg : List (RainfallData ℝ))
    (hline : ∀ rd ∈ seg, rd.cum_pa = m * rd.cum_avg + b) :
    pearsonDen Real.sqrt seg = |m| * slopeDen seg := by
  obtain ⟨_, h2⟩ := covNum_yDen_of_line m b seg hline
  rw [pearsonDen, h2, show slopeDen seg * (m * m * slopeDen seg) =
    (m * slopeDen seg) * (m * slopeDen seg) by ring, Real.sqrt_mul_self_eq_abs, abs_mul,
    abs_of_nonneg (slopeDen_nonneg seg)]

/-- On a rising line with non-constant `x` the correlation is `1`. -/
theorem pearson_of_line_pos (m b : ℝ) (seg : List (RainfallData ℝ))
    (hline : ∀ rd ∈ seg, rd.cum_pa = m * rd.cum_avg + b)
    (hx : ∃ rd ∈ seg, ∃ rd' ∈ seg, rd.cum_avg ≠ rd'.cum_avg) (hm : 0 < m) :
    pearson Real.sqrt seg = 1 := by
  have hD := slopeDen_pos seg hx
  have hne : m * slopeDen seg ≠ 0 := ne_of_gt (mul_pos hm hD)
  rw [pearson, pearsonDen_of_line m b seg hline, (covNum_yDen_of_line m b seg hline).1,
    abs_of_pos hm, if_pos hne, div_self hne]

/-- On a falling line with non-constant `x` the correlation is `-1`. -/
theorem pearson_of_line_neg (m b : ℝ) (seg : List (RainfallData ℝ))
    (hline : ∀ rd ∈ seg, rd.cum_pa = m * rd.cum_avg + b)
    (hx : ∃ rd ∈ seg, ∃ rd' ∈ seg, rd.cum_avg ≠ rd'.cum_avg) (hm : m < 0) :
    pearson Real.sqrt seg = -1 := by
  have hD := slopeDen_pos seg hx
  have hne : -m * slopeDen seg ≠ 0 := ne_of_gt (mul_pos (neg_pos.mpr hm) hD)
  rw [pearson, pearsonDen_of_line m b seg hline, (covNum_yDen_of_line m b seg hline).1,
    abs_of_neg hm, if_pos hne, show m * slopeDen seg = -(-m * slopeDen seg) by ring,
    neg_div, div_self hne]

end RealArithmetic

/-! ## The example series evaluated -/

section Examples

theorem stepState_data {F : Type} [LinearOrderedField F] (y : Int) :
    (stepState y : DoubleMassCurve F).data = stepRecords y := by
  simp only [stepState, inputDataFrom, stepTable, accumulate_cons, accumulate, stepRecords]
  norm_num

theorem stepRecords_before (y : Int) :
    segment (stepRecords y : List (RainfallData ℝ)) 0 (((5 : Nat) : Int) - 1) =
      [ ⟨2000, 1, 1, 1, 1⟩, ⟨2001, 1, 1, 2, 2⟩, ⟨2002, 1, 1, 3, 3⟩, ⟨2003, 1, 1, 4, 4⟩,
        ⟨2004, 1, 1, 5, 5⟩ ] := by
  simp [segment, stepRecords]

theorem stepRecords_after (y : Int) :
    segment (stepRecords y : List (RainfallData ℝ)) ((5 : Nat) : Int)
        (lastIndex (stepRecords y : List (RainfallData ℝ))) =
      [ ⟨y, 2, 1, 7, 6⟩, ⟨2006, 2, 1, 9, 7⟩, ⟨2007, 2, 1, 11, 8⟩,
        ⟨2008, 2, 1, 13, 9⟩, ⟨2009, 2, 1, 15, 10⟩, ⟨2010, 2, 1, 17, 11⟩ ] := by
  simp [segment, stepRecords, lastIndex]

/-- The only candidate of the step series, index 5: slopes `1` and `2`, both
correlations `1`. -/
theorem stepRecords_candidate (y : Int) :
    evalCandidate Real.sqrt (stepRecords y : List (RainfallData ℝ)) ((5 : Nat) : Int) =
      some ⟨1, 2, 1, 1⟩ := by
  have hlen : (stepRecords y : List (RainfallData ℝ)).length = 11 := rfl
  have hlast : lastIndex (stepRecords y : List (RainfallData ℝ)) = 10 := by
    simp [lastIndex, hlen]
  have hline1 : ∀ rd ∈ segment (stepRecords y : List (RainfallData ℝ)) 0 (((5 : Nat) : Int) - 1),
      rd.cum_pa = 1 * rd.cum_avg + 0 := by
    rw [stepRecords_before]
    intro rd hrd
    simp only [List.mem_cons, List.mem_singleton, List.not_mem_nil, or_false] at hrd
    rcases hrd with rfl | rfl | rfl | rfl | rfl <;> norm_num
  have hx1 : ∃ rd ∈ segment (stepRecords y : List (RainfallData ℝ)) 0 (((5 : Nat) : Int) - 1),
      ∃ rd' ∈ segment (stepRecords y : List (RainfallData ℝ)) 0 (((5 : Nat) : Int) - 1),
        rd.cum_avg ≠ rd'.cum_avg := by
    rw [stepRecords_before]
    exact ⟨⟨2000, 1, 1, 1, 1⟩, by simp, ⟨2001, 1, 1, 2, 2⟩, by simp, by norm_num⟩
  have hline2 : ∀ rd ∈ segment (stepRecords y : List (RainfallData ℝ)) ((5 : Nat) : Int)
      (lastIndex (stepRecords y : List (RainfallData ℝ))), rd.cum_pa = 2 * rd.cum_avg + (-5) := by
    rw [stepRecords_after]
    intro rd hrd
    simp only [List.mem_cons, List.mem_singleton, List.not_mem_nil, or_false] at hrd
    rcases hrd with rfl | rfl | rfl | rfl | rfl | rfl <;> norm_num
  have hx2 : ∃ rd ∈ segment (stepRecords y : List (RainfallData ℝ)) ((5 : Nat) : Int)
      (lastIndex (stepRecords y : List (RainfallData ℝ))),
      ∃ rd' ∈ segment (stepRecords y : List (RainfallData ℝ)) ((5 : Nat) : Int)
        (lastIndex (stepRecords y : List (RainfallData ℝ))), rd.cum_avg ≠ rd'.cum_avg := by
    rw [stepRecords_after]
    exact ⟨⟨y, 2, 1, 7, 6⟩, by simp, ⟨2006, 2, 1, 9, 7⟩, by simp, by norm_num⟩
  rw [evalCandidate_eq_some]
  refine ⟨?_, ?_, ?_, ?_, ?_⟩
  · rw [calculateSlope_segment _ _ _ (le_refl _) (by norm_num) (by rw [hlen]; norm_num),
      olsSlope_of_line 1 0 _ hline1 hx1]
  · rw [calculateSlope_segment _ _ _ (by norm_num) (by rw [hlast]; norm_num)
      (by rw [hlast, hlen]; norm_num), olsSlope_of_line 2 (-5) _ hline2 hx2]
  · rw [calculateCorrelation_segment _ _ _ _ (le_refl _) (by norm_num) (by rw [hlen]; norm_num),
      pearson_of_line_pos 1 0 _ hline1 hx1 (by norm_num)]
  · rw [calculateCorrelation_segment _ _ _ _ (by norm_num) (by rw [hlast]; norm_num)
      (by rw [hlast, hlen]; norm_num), pearson_of_line_pos 2 (-5) _ hline2 hx2 (by norm_num)]
  · exact ⟨⟨y, 2, 1, 7, 6⟩, by simp [readAt, stepRecords]⟩

/-- The scan of the step series ends with candidate 5 selected. -/
theorem stepRecords_scan (y : Int) (sb sa : ℝ) :
    scanLoop Real.sqrt (stepRecords y : List (RainfallData ℝ))
        (scanBound (stepRecords y : List (RainfallData ℝ)) - 5) 5
        { max_slope_diff := 0, best_break_point := -1, slope_before := sb, slope_after := sa } =
      some { max_slope_diff := 1, best_break_point := 5, slope_before := 1, slope_after := 2 } := by
  have hb : scanBound (stepRecords y : List (RainfallData ℝ)) - 5 = 1 := by
    simp [scanBound, sizeSub, stepRecords]
  rw [hb, scanLoop, stepRecords_candidate]
  simp only [scanLoop, select, Candidate.slope_diff]
  norm_num

/-- The run of `detectInconsistency` on the step series: the break at index 5
passes the significance gate, the year stored is `y` and the factor is `2`. -/
theorem stepState_detect (y : Int) :
    detectInconsistency Real.sqrt (stepState y : DoubleMassCurve ℝ) =
      some (stepDetection y) := by
  have hread : readAt (stepRecords y : List (RainfallData ℝ)) 5 = some ⟨y, 2, 1, 7, 6⟩ := by
    simp [readAt, stepRecords]
  have hd := stepState_data (F := ℝ) y
  unfold detectInconsistency
  rw [hd, stepRecords_scan]
  simp only []
  rw [if_pos (by norm_num), hread]
  simp only [Option.some.injEq, stepDetection]
  congr 1
  norm_num

end Examples

/-! ## The breakpoint detector -/

section Detector

variable {F : Type} [LinearOrderedField F]

/-- C1 (selection rule of `detectInconsistency`): the method returns on every
series of at least five records, and whenever it returns every index of the
scan has been evaluated and either some eligible candidate has a positive
`slope_diff`, in which case `best_break_point` is the smallest index `b`
among the eligible candidates of maximal `slope_diff`, `max_slope_diff` is
that maximum and `slope_before`, `slope_after` are `calculateSlope(0, b-1)`
and `calculateSlope(b, n-1)`; or no eligible candidate has a positive
`slope_diff`, and `best_break_point` is still `-1` and `max_slope_diff`
still `0`. -/
theorem detectInconsistency_selection (sqrt : F → F) (s : DoubleMassCurve F) :
    (5 ≤ s.data.length → ∃ out, detectInconsistency sqrt s = some out) ∧
    ∀ out, detectInconsistency sqrt s = some out →
      (∀ i ∈ scanIndices s.data, ∃ c, evalCandidate sqrt s.data (i : Int) = some c) ∧
      ((∃ b ∈ scanIndices s.data, ∃ c, evalCandidate sqrt s.data (b : Int) = some c ∧
          c.eligible ∧ 0 < c.slope_diff ∧
          (∀ j ∈ scanIndices s.data, ∀ cj, evalCandidate sqrt s.data (j : Int) = some cj →
            cj.eligible → cj.slope_diff ≤ c.slope_diff ∧ (cj.slope_diff = c.slope_diff → b ≤ j)) ∧
          out.best_break_point = (b : Int) ∧ out.max_slope_diff = c.slope_diff ∧
          calculateSlope s.data 0 ((b : Int) - 1) = some out.state.slope_before ∧
          calculateSlope s.data (b : Int) (lastIndex s.data) = some out.state.slope_after) ∨
       ((∀ j ∈ scanIndices s.data, ∀ cj, evalCandidate sqrt s.data (j : Int) = some cj →
            cj.eligible → cj.slope_diff ≤ 0) ∧
          out.best_break_point = -1 ∧ out.max_slope_diff = 0)) := by
  refine ⟨detectInconsistency_isSome sqrt s, ?_⟩
  intro out h
  obtain ⟨st, hscan, _⟩ := detectInconsistency_eq_some sqrt s out h
  constructor
  · intro i hi
    obtain ⟨h5, hlt⟩ := (mem_scanIndices _ _).mp hi
    exact scanLoop_evaluated sqrt s.data _ 5 _ st hscan i h5 hlt
  · rcases detectInconsistency_outcome sqrt s out h with
      ⟨hmax, hbest, _, _, hall⟩ | ⟨b, c, hb5, hbhi, hc, hel, hpos, hmax, hbest, hsb, hsa, hall⟩
    · right
      exact ⟨fun j hj cj hcj helj =>
        hall j cj ((mem_scanIndices _ _).mp hj).1 ((mem_scanIndices _ _).mp hj).2 hcj helj,
        hbest, hmax⟩
    · left
      obtain ⟨e1, e2, _⟩ := (evalCandidate_eq_some sqrt s.data _ c).mp hc
      simp only [] at hmax hbest hsb hsa
      refine ⟨b, (mem_scanIndices _ _).mpr ⟨hb5, hbhi⟩, c, hc, hel, hpos, ?_, hbest, hmax,
        by rw [hsb]; exact e1, by rw [hsa]; exact e2⟩
      exact fun j hj cj hcj helj =>
        hall j cj ((mem_scanIndices _ _).mp hj).1 ((mem_scanIndices _ _).mp hj).2 hcj helj

/-- C2 as amended (significance gate): on a series on which
`detectInconsistency` returns, started from the no-break state (`-1`, factor
`1.0`), and whose record at the selected index does not carry the year `-1`,
`inconsistency_year` leaves `-1` and is the year of the record at
`best_break_point` if and only if some eligible candidate of the scan has
`slope_diff > 0.05`; when there is no such candidate `inconsistency_year` is
still `-1` and `correction_factor` still `1.0`. -/
theorem detectInconsistency_gate (sqrt : F → F) (s : DoubleMassCurve F) (out : Detection F)
    (hyear0 : s.inconsistency_year = -1) (hfactor0 : s.correction_factor = 1)
    (h : detectInconsistency sqrt s = some out)
    (hyear : ∀ rd, readAt s.data out.best_break_point = some rd → rd.year ≠ -1) :
    ((out.state.inconsistency_year ≠ -1 ∧
        ∃ rd, readAt s.data out.best_break_point = some rd ∧
          out.state.inconsistency_year = rd.year) ↔
      ∃ i ∈ scanIndices s.data, ∃ c, evalCandidate sqrt s.data (i : Int) = some c ∧
        c.eligible ∧ c.slope_diff > 0.05) ∧
    ((¬ ∃ i ∈ scanIndices s.data, ∃ c, evalCandidate sqrt s.data (i : Int) = some c ∧
        c.eligible ∧ c.slope_diff > 0.05) →
      out.state.inconsistency_year = -1 ∧ out.state.correction_factor = 1) := by
  obtain ⟨st, hscan, h1, h2, _, _, _, hcase⟩ := detectInconsistency_eq_some sqrt s out h
  have hsel := detectInconsistency_selected sqrt s st hscan
  have hiff : st.max_slope_diff > 0.05 ↔
      ∃ i ∈ scanIndices s.data, ∃ c, evalCandidate sqrt s.data (i : Int) = some c ∧
        c.eligible ∧ c.slope_diff > 0.05 := by
    rcases hsel with ⟨hmax, _, _, _, hall⟩ | ⟨b, c, hb5, hbhi, hc, hel, _, hmax, _, _, _, hall⟩
    · constructor
      · intro hg
        rw [hmax] at hg
        exact absurd hg (by norm_num)
      · rintro ⟨i, hi, c, hc, hel, hgt⟩
        have := hall i c ((mem_scanIndices _ _).mp hi).1 ((mem_scanIndices _ _).mp hi).2 hc hel
        have h05 : (0 : F) < 0.05 := by norm_num
        linarith
    · constructor
      · intro hg
        exact ⟨b, (mem_scanIndices _ _).mpr ⟨hb5, hbhi⟩, c, hc, hel, by rw [← hmax]; exact hg⟩
      · rintro ⟨i, hi, ci, hci, heli, hgt⟩
        have := (hall i ci ((mem_scanIndices _ _).mp hi).1 ((mem_scanIndices _ _).mp hi).2
          hci heli).1
        rw [hmax]
        exact lt_of_lt_of_le hgt this
  rcases hcase with ⟨hg, rd, hrd, hy, _⟩ | ⟨hno, hy, hf⟩
  · rw [← h2] at hrd
    refine ⟨⟨fun _ => hiff.mp hg, fun _ => ⟨by rw [hy]; exact hyear rd hrd, rd, hrd, hy⟩⟩, ?_⟩
    intro hnone
    exact absurd (hiff.mp hg) hnone
  · refine ⟨⟨fun hl => absurd (hy.trans hyear0) hl.1, fun hr => absurd (hiff.mpr hr) hno⟩, ?_⟩
    intro _
    exact ⟨hy.trans hyear0, hf.trans hfactor0⟩

/-- C3 as amended (candidate set of the scan): on a series of `n ≥ 5` records
the loop variable of the scan takes exactly the values `i` with `i ≥ 5` and
`n - i ≥ 6`, each once and in increasing order, and the scan is the loop body
run over these indices in that order. -/
theorem scanIndices_spec (data : List (RainfallData F)) (h : 5 ≤ data.length) :
    scanIndices data = List.range' 5 (data.length - 10) ∧
    (∀ i : Nat, i ∈ scanIndices data ↔ 5 ≤ i ∧ 6 ≤ data.length - i) ∧
    (scanIndices data).Pairwise (fun i j => i < j) ∧
    ∀ (sqrt : F → F) (st : Scan F),
      scanLoop sqrt data (scanBound data - 5) 5 st = scanOver sqrt data (scanIndices data) st := by
  have hb : scanBound data = data.length - 5 := by
    unfold scanBound sizeSub
    rw [if_pos h]
  refine ⟨?_, ?_, ?_, ?_⟩
  · rw [scanIndices, hb]
    congr 1
  · intro i
    rw [mem_scanIndices, hb]
    omega
  · exact List.pairwise_lt_range' 5 _
  · intro sqrt st
    exact scanLoop_eq_scanOver sqrt data _ 5 st

/-- C6 (correction factor): `detectInconsistency` returns on every series of
at least five records, and whenever it returns with the significance gate
passed (`max_slope_diff > 0.05`) the selected index `b` is an index of the
scan, the stored slopes are `calculateSlope(0, b-1)` and
`calculateSlope(b, n-1)`, and `correction_factor` is the second divided by
the first. -/
theorem detectInconsistency_correction_factor (sqrt : F → F) (s : DoubleMassCurve F) :
    (5 ≤ s.data.length → ∃ out, detectInconsistency sqrt s = some out) ∧
    ∀ out, detectInconsistency sqrt s = some out → out.max_slope_diff > 0.05 →
      ∃ b ∈ scanIndices s.data, out.best_break_point = (b : Int) ∧
        ∃ slope1 slope2 : F,
          calculateSlope s.data 0 ((b : Int) - 1) = some slope1 ∧
          calculateSlope s.data (b : Int) (lastIndex s.data) = some slope2 ∧
          out.state.slope_before = slope1 ∧ out.state.slope_after = slope2 ∧
          out.state.correction_factor = slope2 / slope1 := by
  refine ⟨detectInconsistency_isSome sqrt s, ?_⟩
  intro out h hgate
  obtain ⟨b, c, rd, hb, hc, _, hbest, _, hsb, hsa, _, _, hf, _⟩ :=
    detectInconsistency_accepted sqrt s out h hgate
  obtain ⟨e1, e2, _⟩ := (evalCandidate_eq_some sqrt s.data _ c).mp hc
  exact ⟨b, hb, hbest, c.slope1, c.slope2, e1, e2, hsb, hsa, hf⟩

/-- Witness of C1: the step series, on which index 5 is selected. -/
theorem detectInconsistency_selection_witness :
    5 ≤ (stepState 2005 : DoubleMassCurve ℝ).data.length ∧
    detectInconsistency Real.sqrt (stepState 2005 : DoubleMassCurve ℝ) =
      some (stepDetection 2005) ∧
    ∀ i ∈ scanIndices (stepState 2005 : DoubleMassCurve ℝ).data,
      ∃ c, evalCandidate Real.sqrt (stepState 2005 : DoubleMassCurve ℝ).data (i : Int) = some c :=
  ⟨by rw [stepState_data]; decide, stepState_detect 2005,
    ((detectInconsistency_selection Real.sqrt (stepState 2005)).2 _ (stepState_detect 2005)).1⟩

/-- Counterexample to C2 as stated: in the step series whose record at index 5
carries the year `-1`, candidate 5 is eligible with `slope_diff = 1 > 0.05`,
yet `inconsistency_year` is `-1` after detection, the no-break state, while
`correction_factor` has become `2`. -/
theorem detectInconsistency_gate_counterexample :
    (∃ i ∈ scanIndices (stepState (-1) : DoubleMassCurve ℝ).data,
      ∃ c, evalCandidate Real.sqrt (stepState (-1) : DoubleMassCurve ℝ).data (i : Int) = some c ∧
        c.eligible ∧ c.slope_diff > 0.05) ∧
    ∃ out, detectInconsistency Real.sqrt (stepState (-1) : DoubleMassCurve ℝ) = some out ∧
      out.state.inconsistency_year = -1 ∧ out.state.correction_factor = 2 := by
  refine ⟨⟨5, ?_, ⟨1, 2, 1, 1⟩, ?_, ?_, ?_⟩, stepDetection (-1), stepState_detect (-1), rfl, rfl⟩
  · rw [stepState_data]; decide
  · rw [stepState_data]; exact stepRecords_candidate (-1)
  · constructor <;> norm_num
  · norm_num [Candidate.slope_diff]

/-- Witness of C2 as amended: the step series with the year 2005 at index 5. -/
theorem detectInconsistency_gate_witness :
    (stepState 2005 : DoubleMassCurve ℝ).inconsistency_year = -1 ∧
    detectInconsistency Real.sqrt (stepState 2005 : DoubleMassCurve ℝ) =
      some (stepDetection 2005) ∧
    ((stepDetection 2005 : Detection ℝ).state.inconsistency_year ≠ -1 ∧
        ∃ rd, readAt (stepState 2005 : DoubleMassCurve ℝ).data
            (stepDetection 2005 : Detection ℝ).best_break_point = some rd ∧
          (stepDetection 2005 : Detection ℝ).state.inconsistency_year = rd.year) ∧
    ∃ i ∈ scanIndices (stepState 2005 : DoubleMassCurve ℝ).data,
      ∃ c, evalCandidate Real.sqrt (stepState 2005 : DoubleMassCurve ℝ).data (i : Int) = some c ∧
        c.eligible ∧ c.slope_diff > 0.05 := by
  have hread : readAt (stepState 2005 : DoubleMassCurve ℝ).data
      (stepDetection 2005 : Detection ℝ).best_break_point = some ⟨2005, 2, 1, 7, 6⟩ := by
    rw [stepState_data]; simp [readAt, stepRecords, stepDetection]
  have hyear : ∀ rd, readAt (stepState 2005 : DoubleMassCurve ℝ).data
      (stepDetection 2005 : Detection ℝ).best_break_point = some rd → rd.year ≠ -1 := by
    intro rd hrd
    rw [hread] at hrd
    rw [← Option.some.inj hrd]
    decide
  have hleft : (stepDetection 2005 : Detection ℝ).state.inconsistency_year ≠ -1 ∧
      ∃ rd, readAt (stepState 2005 : DoubleMassCurve ℝ).data
          (stepDetection 2005 : Detection ℝ).best_break_point = some rd ∧
        (stepDetection 2005 : Detection ℝ).state.inconsistency_year = rd.year :=
    ⟨by decide, _, hread, rfl⟩
  exact ⟨rfl, stepState_detect 2005, hleft,
    (detectInconsistency_gate Real.sqrt (stepState 2005) (stepDetection 2005) rfl rfl
      (stepState_detect 2005) hyear).1.mp hleft⟩

/-- Counterexample to C3 as stated: on ten records the index 5 has five
records on each side (`5 ≥ 5` and `10 - 5 ≥ 5`), but the scan visits no
index at all. -/
theorem scanIndices_counterexample :
    (5 ≤ 5 ∧ 5 ≤ (shortRecords : List (RainfallData ℝ)).length - 5) ∧
    scanIndices (shortRecords : List (RainfallData ℝ)) = [] := by
  refine ⟨⟨le_refl _, by decide⟩, by decide⟩

/-- Witness of C3 as amended: the eleven records of the step series, where the
scan visits index 5 only. -/
theorem scanIndices_spec_witness :
    5 ≤ (stepRecords 2005 : List (RainfallData ℝ)).length ∧
    scanIndices (stepRecords 2005 : List (RainfallData ℝ)) = [5] :=
  ⟨by decide, (scanIndices_spec (stepRecords 2005 : List (RainfallData ℝ)) (by decide)).1.trans
    (by decide)⟩

/-- Witness of C6: on the step series the factor is `2 = 2 / 1`, the quotient
of the slopes of candidate 5. -/
theorem detectInconsistency_correction_factor_witness :
    detectInconsistency Real.sqrt (stepState 2005 : DoubleMassCurve ℝ) =
      some (stepDetection 2005) ∧
    (stepDetection 2005 : Detection ℝ).max_slope_diff > 0.05 ∧
    ∃ b ∈ scanIndices (stepState 2005 : DoubleMassCurve ℝ).data,
      (stepDetection 2005 : Detection ℝ).best_break_point = (b : Int) ∧
      ∃ slope1 slope2 : ℝ,
        calculateSlope (stepState 2005 : DoubleMassCurve ℝ).data 0 ((b : Int) - 1) = some slope1 ∧
        calculateSlope (stepState 2005 : DoubleMassCurve ℝ).data (b : Int)
          (lastIndex (stepState 2005 : DoubleMassCurve ℝ).data) = some slope2 ∧
        (stepDetection 2005 : Detection ℝ).state.slope_before = slope1 ∧
        (stepDetection 2005 : Detection ℝ).state.slope_after = slope2 ∧
        (stepDetection 2005 : Detection ℝ).state.correction_factor = slope2 / slope1 :=
  ⟨stepState_detect 2005, by norm_num [stepDetection],
    (detectInconsistency_correction_factor Real.sqrt (stepState 2005)).2 _
      (stepState_detect 2005) (by norm_num [stepDetection])⟩

end Detector

/-! ## The segment regressor -/

section Regressor

variable {F : Type} [LinearOrderedField F]

/-- A range whose start is negative and whose end is a valid index passes the
guard of lines 58 and 79, and the first iteration of the loop reads
`data[start_idx]` out of bounds. -/
theorem sumLoop_negative_start (data : List (RainfallData F)) (start_idx end_idx : Int)
    (h0 : start_idx < 0) (h1 : 0 ≤ end_idx) (h2 : end_idx < data.length) :
    degenerate data start_idx end_idx = false ∧
    sumLoop data (end_idx - start_idx + 1).toNat start_idx ⟨0, 0, 0, 0, 0⟩ = none := by
  constructor
  · simp only [degenerate, toSizeT, h1, if_true, Bool.or_eq_false_iff, decide_eq_false_iff_not]
    constructor <;> omega
  · have hcount : (end_idx - start_idx + 1).toNat = (end_idx - start_idx).toNat + 1 := by omega
    rw [hcount, sumLoop, readAt_neg data start_idx h0]

/-- C4 (`calculateSlope` is the least-squares closed form): on a range
`0 ≤ start < end ≤ n - 1` the segment `start..end` has `k = end - start + 1`
records and `calculateSlope` returns
`(k·Σxy − Σx·Σy) / (k·Σx² − (Σx)²)`, the sums taken over the segment with
`x = cum_avg` and `y = cum_pa`. -/
theorem calculateSlope_least_squares (data : List (RainfallData F)) (start_idx end_idx : Int)
    (h0 : 0 ≤ start_idx) (h1 : start_idx < end_idx) (h2 : end_idx ≤ lastIndex data) :
    ((segment data start_idx end_idx).length : Int) = end_idx - start_idx + 1 ∧
    calculateSlope data start_idx end_idx =
      some ((((end_idx - start_idx + 1 : Int) : F) * Sxy (segment data start_idx end_idx)
              - Sx (segment data start_idx end_idx) * Sy (segment data start_idx end_idx)) /
            (((end_idx - start_idx + 1 : Int) : F) * Sxx (segment data start_idx end_idx)
              - Sx (segment data start_idx end_idx) * Sx (segment data start_idx end_idx))) := by
  have h3 : end_idx < data.length := by unfold lastIndex at h2; omega
  have hk := segment_length data start_idx end_idx h0 (le_of_lt h1) h3
  refine ⟨hk, ?_⟩
  rw [calculateSlope_segment data start_idx end_idx h0 h1 h3, olsSlope, covNum, slopeDen, ← hk]
  simp

/-- Witness of C4: the first five records of the step series, slope `1`. -/
theorem calculateSlope_least_squares_witness :
    (0 : Int) ≤ 0 ∧ (0 : Int) < 4 ∧ (4 : Int) ≤ lastIndex (stepRecords 2005 : List (RainfallData ℝ)) ∧
    calculateSlope (stepRecords 2005 : List (RainfallData ℝ)) 0 4 = some 1 := by
  have hlast : (4 : Int) ≤ lastIndex (stepRecords 2005 : List (RainfallData ℝ)) := by
    simp [lastIndex, stepRecords]
  refine ⟨le_refl _, by norm_num, hlast, ?_⟩
  have hseg : segment (stepRecords 2005 : List (RainfallData ℝ)) 0 4 =
      [ ⟨2000, 1, 1, 1, 1⟩, ⟨2001, 1, 1, 2, 2⟩, ⟨2002, 1, 1, 3, 3⟩, ⟨2003, 1, 1, 4, 4⟩,
        ⟨2004, 1, 1, 5, 5⟩ ] := by
    simp [segment, stepRecords]
  rw [(calculateSlope_least_squares (stepRecords 2005 : List (RainfallData ℝ)) 0 4 (le_refl _)
    (by norm_num) hlast).2, hseg]
  norm_num [Sx, Sy, Sxy, Sxx, sumOver]

/-- C5 (`calculateCorrelation` is the guarded Pearson formula): on a range
`0 ≤ start < end ≤ n - 1` the segment has `k = end - start + 1` records and
the result is `(k·Σxy − Σx·Σy) / sqrt((k·Σx² − (Σx)²)·(k·Σy² − (Σy)²))` when
that square root is not zero and `0.0` when it is zero, which is the case
whenever `x` or `y` is constant on the segment. -/
theorem calculateCorrelation_pearson (data : List (RainfallData ℝ)) (start_idx end_idx : Int)
    (h0 : 0 ≤ start_idx) (h1 : start_idx < end_idx) (h2 : end_idx ≤ lastIndex data) :
    ((segment data start_idx end_idx).length : Int) = end_idx - start_idx + 1 ∧
    (Real.sqrt (((((end_idx - start_idx + 1 : Int) : ℝ)) * Sxx (segment data start_idx end_idx)
          - Sx (segment data start_idx end_idx) * Sx (segment data start_idx end_idx)) *
        ((((end_idx - start_idx + 1 : Int) : ℝ)) * Syy (segment data start_idx end_idx)
          - Sy (segment data start_idx end_idx) * Sy (segment data start_idx end_idx))) ≠ 0 →
      calculateCorrelation Real.sqrt data start_idx end_idx =
        some ((((end_idx - start_idx + 1 : Int) : ℝ) * Sxy (segment data start_idx end_idx)
            - Sx (segment data start_idx end_idx) * Sy (segment data start_idx end_idx)) /
          Real.sqrt (((((end_idx - start_idx + 1 : Int) : ℝ)) * Sxx (segment data start_idx end_idx)
              - Sx (segment data start_idx end_idx) * Sx (segment data start_idx end_idx)) *
            ((((end_idx - start_idx + 1 : Int) : ℝ)) * Syy (segment data start_idx end_idx)
              - Sy (segment data start_idx end_idx) * Sy (segment data start_idx end_idx))))) ∧
    (Real.sqrt (((((end_idx - start_idx + 1 : Int) : ℝ)) * Sxx (segment data start_idx end_idx)
          - Sx (segment data start_idx end_idx) * Sx (segment data start_idx end_idx)) *
        ((((end_idx - start_idx + 1 : Int) : ℝ)) * Syy (segment data start_idx end_idx)
          - Sy (segment data start_idx end_idx) * Sy (segment data start_idx end_idx))) = 0 →
      calculateCorrelation Real.sqrt data start_idx end_idx = some 0) ∧
    ((∃ c, ∀ rd ∈ segment data start_idx end_idx, rd.cum_avg = c) →
      calculateCorrelation Real.sqrt data start_idx end_idx = some 0) ∧
    ((∃ c, ∀ rd ∈ segment data start_idx end_idx, rd.cum_pa = c) →
      calculateCorrelation Real.sqrt data start_idx end_idx = some 0) := by
  have h3 : end_idx < data.length := by unfold lastIndex at h2; omega
  have hk := segment_length data start_idx end_idx h0 (le_of_lt h1) h3
  have hk2 : ((end_idx - start_idx + 1 : Int) : ℝ) =
      ((segment data start_idx end_idx).length : ℝ) := by
    rw [← hk]; simp
  have hcorr := calculateCorrelation_segment Real.sqrt data start_idx end_idx h0 h1 h3
  rw [hk2, hcorr]
  refine ⟨hk, ?_, ?_, ?_, ?_⟩
  · intro hne
    have hne2 : pearsonDen Real.sqrt (segment data start_idx end_idx) ≠ 0 := hne
    rw [pearson, if_pos hne2]
    rfl
  · intro heq
    have heq2 : pearsonDen Real.sqrt (segment data start_idx end_idx) = 0 := heq
    rw [pearson, if_neg (not_not.mpr heq2)]
  · rintro ⟨c, hc⟩
    have hD := (slopeDen_covNum_of_const _ c hc).1
    have hden : pearsonDen Real.sqrt (segment data start_idx end_idx) = 0 := by
      rw [pearsonDen, hD, zero_mul, Real.sqrt_zero]
    rw [pearson, if_neg (not_not.mpr hden)]
  · rintro ⟨c, hc⟩
    have hD := (yDen_covNum_of_const _ c hc).1
    have hden : pearsonDen Real.sqrt (segment data start_idx end_idx) = 0 := by
      rw [pearsonDen, hD, mul_zero, Real.sqrt_zero]
    rw [pearson, if_neg (not_not.mpr hden)]

/-- Witness of C5: three records with a constant cumulative reference, whose
correlation is `0`. -/
theorem calculateCorrelation_pearson_witness :
    (0 : Int) ≤ 0 ∧ (0 : Int) < 2 ∧ (2 : Int) ≤ lastIndex (flatRecords : List (RainfallData ℝ)) ∧
    calculateCorrelation Real.sqrt (flatRecords : List (RainfallData ℝ)) 0 2 = some 0 := by
  have hlast : (2 : Int) ≤ lastIndex (flatRecords : List (RainfallData ℝ)) := by
    simp [lastIndex, flatRecords]
  refine ⟨le_refl _, by norm_num, hlast, ?_⟩
  refine (calculateCorrelation_pearson (flatRecords : List (RainfallData ℝ)) 0 2 (le_refl _)
    (by norm_num) hlast).2.2.2.1 ⟨3, ?_⟩
  have hseg : segment (flatRecords : List (RainfallData ℝ)) 0 2 = flatRecords := by
    simp [segment, flatRecords]
  rw [hseg]
  intro rd hrd
  simp only [flatRecords, List.mem_cons, List.mem_singleton, List.not_mem_nil, or_false] at hrd
  rcases hrd with rfl | rfl | rfl <;> rfl

/-- C9 at its failing input: on the eleven records of the step series the
range `start = -1`, `end = 1` passes the guard of lines 58 and 79, and both
methods read `data[-1]`, out of bounds, instead of returning `0.0`. -/
theorem degenerate_range_negative_start :
    degenerate (stepRecords 2005 : List (RainfallData ℝ)) (-1) 1 = false ∧
    calculateSlope (stepRecords 2005 : List (RainfallData ℝ)) (-1) 1 = none ∧
    calculateCorrelation Real.sqrt (stepRecords 2005 : List (RainfallData ℝ)) (-1) 1 = none := by
  obtain ⟨hd, hs⟩ := sumLoop_negative_start (stepRecords 2005 : List (RainfallData ℝ)) (-1) 1
    (by norm_num) (by norm_num) (by simp [stepRecords])
  refine ⟨hd, ?_, ?_⟩
  · simp only [calculateSlope, hd]
    rw [hs]
    simp
  · simp only [calculateCorrelation, hd]
    rw [hs]
    simp

/-- C10 (regression identity): on a range `0 ≤ start < end ≤ n - 1` whose
points lie on a line `cum_pa = m·cum_avg + b` and on which `cum_avg` is not
constant, `calculateSlope` returns `m` and `calculateCorrelation` returns
`1` when `m > 0` and `-1` when `m < 0`. -/
theorem regression_identity (data : List (RainfallData ℝ)) (start_idx end_idx : Int) (m b : ℝ)
    (h0 : 0 ≤ start_idx) (h1 : start_idx < end_idx) (h2 : end_idx ≤ lastIndex data)
    (hline : ∀ rd ∈ segment data start_idx end_idx, rd.cum_pa = m * rd.cum_avg + b)
    (hx : ∃ rd ∈ segment data start_idx end_idx, ∃ rd' ∈ segment data start_idx end_idx,
      rd.cum_avg ≠ rd'.cum_avg) :
    calculateSlope data start_idx end_idx = some m ∧
    (0 < m → calculateCorrelation Real.sqrt data start_idx end_idx = some 1) ∧
    (m < 0 → calculateCorrelation Real.sqrt data start_idx end_idx = some (-1)) := by
  have h3 : end_idx < data.length := by unfold lastIndex at h2; omega
  refine ⟨?_, ?_, ?_⟩
  · rw [calculateSlope_segment data start_idx end_idx h0 h1 h3, olsSlope_of_line m b _ hline hx]
  · intro hm
    rw [calculateCorrelation_segment Real.sqrt data start_idx end_idx h0 h1 h3,
      pearson_of_line_pos m b _ hline hx hm]
  · intro hm
    rw [calculateCorrelation_segment Real.sqrt data start_idx end_idx h0 h1 h3,
      pearson_of_line_neg m b _ hline hx hm]

/-- Witness of C10: three records on the falling line `cum_pa = -cum_avg`,
with slope `-1` and correlation `-1`. -/
theorem regression_identity_witness :
    (0 : Int) ≤ 0 ∧ (0 : Int) < 2 ∧ (2 : Int) ≤ lastIndex (fallRecords : List (RainfallData ℝ)) ∧
    (∀ rd ∈ segment (fallRecords : List (RainfallData ℝ)) 0 2,
      rd.cum_pa = (-1) * rd.cum_avg + 0) ∧
    calculateSlope (fallRecords : List (RainfallData ℝ)) 0 2 = some (-1) ∧
    calculateCorrelation Real.sqrt (fallRecords : List (RainfallData ℝ)) 0 2 = some (-1) := by
  have hlast : (2 : Int) ≤ lastIndex (fallRecords : List (RainfallData ℝ)) := by
    simp [lastIndex, fallRecords]
  have hseg : segment (fallRecords : List (RainfallData ℝ)) 0 2 = fallRecords := by
    simp [segment, fallRecords]
  have hline : ∀ rd ∈ segment (fallRecords : List (RainfallData ℝ)) 0 2,
      rd.cum_pa = (-1) * rd.cum_avg + 0 := by
    rw [hseg]
    intro rd hrd
    simp only [fallRecords, List.mem_cons, List.mem_singleton, List.not_mem_nil, or_false] at hrd
    rcases hrd with rfl | rfl | rfl <;> norm_num
  have hx : ∃ rd ∈ segment (fallRecords : List (RainfallData ℝ)) 0 2,
      ∃ rd' ∈ segment (fallRecords : List (RainfallData ℝ)) 0 2, rd.cum_avg ≠ rd'.cum_avg := by
    rw [hseg]
    exact ⟨⟨2000, -1, 1, -1, 1⟩, by simp [fallRecords], ⟨2001, -1, 1, -2, 2⟩,
      by simp [fallRecords], by norm_num⟩
  have hthm := regression_identity (fallRecords : List (RainfallData ℝ)) 0 2 (-1) 0 (le_refl _)
    (by norm_num) hlast hline hx
  exact ⟨le_refl _, by norm_num, hlast, hline, hthm.1, hthm.2.2 (by norm_num)⟩

end Regressor

/-! ## The corrector and the series builder -/

section CorrectorBuilder

variable {F : Type} [LinearOrderedField F]

/-- C7 as amended (corrector): when `detectInconsistency` has returned with
the significance gate passed at the selected index `b`, the years of the
series are pairwise distinct and the year of the record at `b` is not `-1`,
the search of `correctData` recovers `b`, and `correctData` prints one row
per record in the original order: the value `pa·correction_factor` with the
status `Corrected` for every index below `b`, and the value `pa` with the
status `Original` for every index from `b` on. -/
theorem correctData_rows (sqrt : F → F) (s : DoubleMassCurve F) (out : Detection F)
    (h : detectInconsistency sqrt s = some out) (hgate : out.max_slope_diff > 0.05)
    (hnodup : (s.data.map (fun rd => rd.year)).Nodup)
    (hyear : ∀ rd, readAt s.data out.best_break_point = some rd → rd.year ≠ -1) :
    findBreak out.state.inconsistency_year out.state.data 0 = out.best_break_point ∧
    (correctData out.state).length = s.data.length ∧
    ∀ (i : Nat) (rd : RainfallData F), s.data.get? i = some rd →
      ((i : Int) < out.best_break_point →
        (correctData out.state).get? i =
          some { year := rd.year, original_pa := rd.pa,
                 corrected_pa := rd.pa * out.state.correction_factor,
                 avg_p10 := rd.avg_p10, status := "Corrected" }) ∧
      (out.best_break_point ≤ (i : Int) →
        (correctData out.state).get? i =
          some { year := rd.year, original_pa := rd.pa, corrected_pa := rd.pa,
                 avg_p10 := rd.avg_p10, status := "Original" }) := by
  obtain ⟨b, c, rdb, _, _, _, hbest, _, _, _, hread, hy, _, hdata⟩ :=
    detectInconsistency_accepted sqrt s out h hgate
  have hne : rdb.year ≠ -1 := hyear rdb (by rw [hbest]; exact hread)
  have hget : s.data.get? b = some rdb := by rw [← readAt_natCast]; exact hread
  have hfind : findBreak out.state.inconsistency_year out.state.data 0 = (b : Int) := by
    rw [hy, hdata, findBreak_nodup s.data b rdb 0 hnodup hget, zero_add]
  have hrows : correctData out.state =
      correctRows out.state.correction_factor (b : Int) s.data ((0 : Nat) : Int) := by
    unfold correctData
    rw [if_neg (by rw [hy]; exact hne)]
    simp only []
    rw [hfind, if_neg (by omega), hdata]
    rfl
  refine ⟨by rw [hfind, hbest], by rw [hrows, correctRows_length], ?_⟩
  intro i rd hi
  have hrow := correctRows_get out.state.correction_factor (b : Int) s.data 0 i rd hi
  rw [← hrows, zero_add] at hrow
  rw [hbest]
  constructor
  · intro hlt
    rw [hrow, expectedRow, if_pos hlt]
  · intro hge
    rw [hrow, expectedRow, if_neg (not_lt.mpr hge)]

/-- Counterexample to C7 as stated: in the step series whose record at index 5
carries the year `-1` the years are pairwise distinct and the break at
index 5 passes the significance gate, yet `correctData` prints no row for
any of the eleven records. -/
theorem correctData_counterexample :
    ((stepState (-1) : DoubleMassCurve ℝ).data.map (fun rd => rd.year)).Nodup ∧
    (stepState (-1) : DoubleMassCurve ℝ).data.length = 11 ∧
    ∃ out, detectInconsistency Real.sqrt (stepState (-1) : DoubleMassCurve ℝ) = some out ∧
      out.max_slope_diff > 0.05 ∧ out.best_break_point = 5 ∧ correctData out.state = [] := by
  refine ⟨?_, ?_, stepDetection (-1), stepState_detect (-1), ?_, rfl, ?_⟩
  · rw [stepState_data]
    simp only [stepRecords, List.map_cons, List.map_nil]
    decide
  · rw [stepState_data]
    rfl
  · norm_num [stepDetection]
  · simp [correctData, stepDetection]

/-- Witness of C7 as amended: the step series with the year 2005 at index 5,
whose eleven rows `correctData` prints and whose first row is corrected by
the factor `2`. -/
theorem correctData_rows_witness :
    detectInconsistency Real.sqrt (stepState 2005 : DoubleMassCurve ℝ) =
      some (stepDetection 2005) ∧
    (stepDetection 2005 : Detection ℝ).max_slope_diff > 0.05 ∧
    ((stepState 2005 : DoubleMassCurve ℝ).data.map (fun rd => rd.year)).Nodup ∧
    findBreak (stepDetection 2005 : Detection ℝ).state.inconsistency_year
      (stepDetection 2005 : Detection ℝ).state.data 0 = 5 ∧
    (correctData (stepDetection 2005 : Detection ℝ).state).length = 11 := by
  have hgate : (stepDetection 2005 : Detection ℝ).max_slope_diff > 0.05 := by
    norm_num [stepDetection]
  have hnodup : ((stepState 2005 : DoubleMassCurve ℝ).data.map (fun rd => rd.year)).Nodup := by
    rw [stepState_data]
    simp only [stepRecords, List.map_cons, List.map_nil]
    decide
  have hyear : ∀ rd, readAt (stepState 2005 : DoubleMassCurve ℝ).data
      (stepDetection 2005 : Detection ℝ).best_break_point = some rd → rd.year ≠ -1 := by
    intro rd hrd
    rw [stepState_data] at hrd
    simp only [readAt, stepRecords, stepDetection] at hrd
    norm_num at hrd
    rw [← hrd]
    decide
  have hthm := correctData_rows Real.sqrt (stepState 2005) (stepDetection 2005)
    (stepState_detect 2005) hgate hnodup hyear
  refine ⟨stepState_detect 2005, hgate, hnodup, hthm.1, ?_⟩
  rw [hthm.2.1, stepState_data]
  rfl

/-- C8 (series builder): for every table of `(year, station, reference)`
triples the accumulation loop of `inputData` builds as many records as the
table has entries, with the same years and values in the same order; the
`cum_pa` of record `i` is the sum of the station values `0..i` and its
`cum_avg` the sum of the reference values `0..i`, each record adding its
own value to the sum of the record before it, the first one to `0`; and
`inputData` is this loop on its hard-coded table. -/
theorem inputDataFrom_running_sums (table : List (Int × F × F)) (s : DoubleMassCurve F) :
    (inputDataFrom table s).data.length = table.length ∧
    (inputDataFrom table s).data.map (fun rd => (rd.year, rd.pa, rd.avg_p10)) = table ∧
    (inputDataFrom table s).data.map (fun rd => rd.cum_pa) =
      (List.range table.length).map
        (fun i => ((table.take (i + 1)).map (fun entry => entry.2.1)).sum) ∧
    (inputDataFrom table s).data.map (fun rd => rd.cum_avg) =
      (List.range table.length).map
        (fun i => ((table.take (i + 1)).map (fun entry => entry.2.2)).sum) ∧
    List.Chain (fun rd rd' => rd'.cum_pa = rd.cum_pa + rd'.pa ∧
        rd'.cum_avg = rd.cum_avg + rd'.avg_p10)
      (⟨0, 0, 0, 0, 0⟩ : RainfallData F) (inputDataFrom table s).data ∧
    inputData s = inputDataFrom rainfall_data s := by
  have htriples := accumulate_triples table (0 : F) 0
  refine ⟨?_, htriples, ?_, ?_, accumulate_step table 0 0 _ rfl rfl, rfl⟩
  · have := congrArg List.length htriples
    rw [List.length_map] at this
    exact this
  · have := accumulate_cum_pa table (0 : F) 0
    simp only [zero_add] at this
    exact this
  · have := accumulate_cum_avg table (0 : F) 0
    simp only [zero_add] at this
    exact this

end CorrectorBuilder

/-! ## Series with non-negative and with positive values -/

section Monotone

variable {F : Type} [LinearOrderedField F]

/-- With non-negative values every record built by the loop has cumulative
sums at least the starting sums, and both cumulative fields never decrease
along the vector. -/
theorem accumulate_nondecreasing (table : List (Int × F × F)) :
    ∀ (cum_pa cum_avg : F), (∀ entry ∈ table, 0 ≤ entry.2.1 ∧ 0 ≤ entry.2.2) →
      (∀ rd ∈ accumulate table cum_pa cum_avg [], cum_pa ≤ rd.cum_pa ∧ cum_avg ≤ rd.cum_avg) ∧
      (accumulate table cum_pa cum_avg []).Pairwise
        (fun rd rd' => rd.cum_pa ≤ rd'.cum_pa ∧ rd.cum_avg ≤ rd'.cum_avg) := by
  induction table with
  | nil => intro _ _ _; simp [accumulate]
  | cons entry rest ih =>
    intro cum_pa cum_avg h
    obtain ⟨h1, h2⟩ := h entry (List.mem_cons_self _ _)
    obtain ⟨ihge, ihpw⟩ := ih (cum_pa + entry.2.1) (cum_avg + entry.2.2)
      (fun e he => h e (List.mem_cons_of_mem _ he))
    rw [accumulate_cons]
    constructor
    · intro rd hrd
      rcases List.mem_cons.mp hrd with rfl | hmem
      · exact ⟨by simp only []; linarith, by simp only []; linarith⟩
      · have := ihge rd hmem
        exact ⟨by linarith [this.1], by linarith [this.2]⟩
    · rw [List.pairwise_cons]
      exact ⟨fun rd hrd => ihge rd hrd, ihpw⟩

/-- With positive reference values the cumulative reference is above the
starting sum and strictly increasing along the vector. -/
theorem accumulate_increasing (table : List (Int × F × F)) :
    ∀ (cum_pa cum_avg : F), (∀ entry ∈ table, 0 < entry.2.2) →
      (∀ rd ∈ accumulate table cum_pa cum_avg [], cum_avg < rd.cum_avg) ∧
      (accumulate table cum_pa cum_avg []).Pairwise (fun rd rd' => rd.cum_avg < rd'.cum_avg) := by
  induction table with
  | nil => intro _ _ _; simp [accumulate]
  | cons entry rest ih =>
    intro cum_pa cum_avg h
    have h1 := h entry (List.mem_cons_self _ _)
    obtain ⟨ihgt, ihpw⟩ := ih (cum_pa + entry.2.1) (cum_avg + entry.2.2)
      (fun e he => h e (List.mem_cons_of_mem _ he))
    rw [accumulate_cons]
    constructor
    · intro rd hrd
      rcases List.mem_cons.mp hrd with rfl | hmem
      · simp only []; linarith
      · linarith [ihgt rd hmem]
    · rw [List.pairwise_cons]
      exact ⟨fun rd hrd => ihgt rd hrd, ihpw⟩

/-- When every station value is `c` times the reference value of its year,
every cumulative station sum is `c` times the cumulative reference sum. -/
theorem accumulate_ratio (c : F) (table : List (Int × F × F)) :
    ∀ (cum_pa cum_avg : F), cum_pa = c * cum_avg → (∀ entry ∈ table, entry.2.1 = c * entry.2.2) →
      ∀ rd ∈ accumulate table cum_pa cum_avg [], rd.cum_pa = c * rd.cum_avg := by
  induction table with
  | nil => intro _ _ _ _ rd hrd; simp [accumulate] at hrd
  | cons entry rest ih =>
    intro cum_pa cum_avg h0 h rd hrd
    have h1 := h entry (List.mem_cons_self _ _)
    have hnext : cum_pa + entry.2.1 = c * (cum_avg + entry.2.2) := by rw [h0, h1]; ring
    rw [accumulate_cons] at hrd
    rcases List.mem_cons.mp hrd with rfl | hmem
    · exact hnext
    · exact ih _ _ hnext (fun e he => h e (List.mem_cons_of_mem _ he)) rd hmem

/-- On a series with strictly increasing `cum_avg` no range of two or more
records has a constant `x`. -/
theorem segment_spread (data : List (RainfallData F))
    (hinc : data.Pairwise (fun rd rd' => rd.cum_avg < rd'.cum_avg)) (start_idx end_idx : Int)
    (h0 : 0 ≤ start_idx) (h1 : start_idx < end_idx) (h2 : end_idx < data.length) :
    ∃ rd ∈ segment data start_idx end_idx, ∃ rd' ∈ segment data start_idx end_idx,
      rd.cum_avg ≠ rd'.cum_avg := by
  have hlen := segment_length data start_idx end_idx h0 (le_of_lt h1) h2
  have hpw := hinc.sublist (segment_sublist data start_idx end_idx)
  rcases hseg : segment data start_idx end_idx with _ | ⟨a, _ | ⟨b, rest⟩⟩
  · rw [hseg] at hlen; simp at hlen; omega
  · rw [hseg] at hlen; simp at hlen; omega
  · rw [hseg] at hpw
    have hab : a.cum_avg < b.cum_avg :=
      (List.pairwise_cons.mp hpw).1 b (List.mem_cons_self _ _)
    exact ⟨a, by simp, b, by simp, ne_of_lt hab⟩

/-- C15 (cumulative monotonicity): for every table whose station and
reference values are all non-negative, the `cum_pa` of the records built by
the accumulation loop of `inputData` never decreases with the record index,
and neither does their `cum_avg`. -/
theorem inputDataFrom_cumulative_monotone (table : List (Int × F × F)) (s : DoubleMassCurve F)
    (h : ∀ entry ∈ table, 0 ≤ entry.2.1 ∧ 0 ≤ entry.2.2) :
    ((inputDataFrom table s).data.map (fun rd => rd.cum_pa)).Pairwise (fun a b => a ≤ b) ∧
    ((inputDataFrom table s).data.map (fun rd => rd.cum_avg)).Pairwise (fun a b => a ≤ b) := by
  have hpw := (accumulate_nondecreasing table 0 0 h).2
  constructor
  · rw [List.pairwise_map]
    exact hpw.imp (fun hab => hab.1)
  · rw [List.pairwise_map]
    exact hpw.imp (fun hab => hab.2)

/-- Witness of C15: the step table, whose values are `1` and `2`. -/
theorem inputDataFrom_cumulative_monotone_witness :
    (∀ entry ∈ (stepTable 2005 : List (Int × ℝ × ℝ)), 0 ≤ entry.2.1 ∧ 0 ≤ entry.2.2) ∧
    ((stepState 2005 : DoubleMassCurve ℝ).data.map (fun rd => rd.cum_pa)).Pairwise
      (fun a b => a ≤ b) := by
  have h : ∀ entry ∈ (stepTable 2005 : List (Int × ℝ × ℝ)), 0 ≤ entry.2.1 ∧ 0 ≤ entry.2.2 := by
    intro entry hentry
    simp only [stepTable, List.mem_cons, List.mem_singleton, List.not_mem_nil, or_false] at hentry
    rcases hentry with rfl | rfl | rfl | rfl | rfl | rfl | rfl | rfl | rfl | rfl | rfl <;>
      norm_num
  exact ⟨h, (inputDataFrom_cumulative_monotone (stepTable 2005) DoubleMassCurve.initial h).1⟩

/-- The four results of a candidate with five records before it and five
after it, in terms of its two segments. -/
theorem evalCandidate_segments (sqrt : F → F) (data : List (RainfallData F)) (i : Nat)
    (h5 : 5 ≤ i) (hn : i + 6 ≤ data.length) :
    evalCandidate sqrt data (i : Int) =
      some { slope1 := olsSlope (segment data 0 ((i : Int) - 1)),
             slope2 := olsSlope (segment data (i : Int) (lastIndex data)),
             corr1 := pearson sqrt (segment data 0 ((i : Int) - 1)),
             corr2 := pearson sqrt (segment data (i : Int) (lastIndex data)) } := by
  have e1 := calculateSlope_segment data 0 ((i : Int) - 1) (le_refl _) (by omega) (by omega)
  have e2 := calculateSlope_segment data (i : Int) (lastIndex data) (by omega)
    (by unfold lastIndex; omega) (by unfold lastIndex; omega)
  have e3 := calculateCorrelation_segment sqrt data 0 ((i : Int) - 1) (le_refl _) (by omega)
    (by omega)
  have e4 := calculateCorrelation_segment sqrt data (i : Int) (lastIndex data) (by omega)
    (by unfold lastIndex; omega) (by unfold lastIndex; omega)
  have e5 := readAt_isSome data (i : Int) (by omega) (by omega)
  exact (evalCandidate_eq_some sqrt data i _).mpr ⟨e1, e2, e3, e4, e5⟩

/-- C19 (slope denominator on strictly increasing `x`): for every table whose
reference values are all strictly positive, the `cum_avg` of the records
built from it is strictly increasing, and on every range
`0 ≤ start < end ≤ n - 1` the denominator `k·Σx² − (Σx)²` of
`calculateSlope` is strictly positive and `calculateSlope` returns the
quotient by it; in particular both slope denominators of every candidate of
the scan are positive. -/
theorem slopeDen_pos_of_positive_reference (table : List (Int × F × F)) (s : DoubleMassCurve F)
    (hpos : ∀ entry ∈ table, 0 < entry.2.2) :
    ((inputDataFrom table s).data.map (fun rd => rd.cum_avg)).Pairwise (fun a b => a < b) ∧
    (∀ start_idx end_idx : Int, 0 ≤ start_idx → start_idx < end_idx →
      end_idx ≤ lastIndex (inputDataFrom table s).data →
      0 < ((end_idx - start_idx + 1 : Int) : F) *
            Sxx (segment (inputDataFrom table s).data start_idx end_idx)
          - Sx (segment (inputDataFrom table s).data start_idx end_idx) *
            Sx (segment (inputDataFrom table s).data start_idx end_idx) ∧
      calculateSlope (inputDataFrom table s).data start_idx end_idx =
        some ((((end_idx - start_idx + 1 : Int) : F) *
              Sxy (segment (inputDataFrom table s).data start_idx end_idx)
            - Sx (segment (inputDataFrom table s).data start_idx end_idx) *
              Sy (segment (inputDataFrom table s).data start_idx end_idx)) /
          (((end_idx - start_idx + 1 : Int) : F) *
              Sxx (segment (inputDataFrom table s).data start_idx end_idx)
            - Sx (segment (inputDataFrom table s).data start_idx end_idx) *
              Sx (segment (inputDataFrom table s).data start_idx end_idx)))) ∧
    (5 ≤ (inputDataFrom table s).data.length →
      ∀ i ∈ scanIndices (inputDataFrom table s).data,
        0 < slopeDen (segment (inputDataFrom table s).data 0 ((i : Int) - 1)) ∧
        0 < slopeDen (segment (inputDataFrom table s).data (i : Int)
              (lastIndex (inputDataFrom table s).data))) := by
  have hinc := (accumulate_increasing table 0 0 hpos).2
  have hD : ∀ start_idx end_idx : Int, 0 ≤ start_idx → start_idx < end_idx →
      end_idx < (inputDataFrom table s).data.length →
      0 < slopeDen (segment (inputDataFrom table s).data start_idx end_idx) :=
    fun start_idx end_idx h0 h1 h2 =>
      slopeDen_pos _ (segment_spread _ hinc start_idx end_idx h0 h1 h2)
  refine ⟨?_, ?_, ?_⟩
  · rw [List.pairwise_map]
    exact hinc
  · intro start_idx end_idx h0 h1 h2
    have h3 : end_idx < (inputDataFrom table s).data.length := by
      unfold lastIndex at h2; omega
    have hk := segment_length _ start_idx end_idx h0 (le_of_lt h1) h3
    have hk2 : ((end_idx - start_idx + 1 : Int) : F) =
        ((segment (inputDataFrom table s).data start_idx end_idx).length : F) := by
      rw [← hk]; simp
    have hden := hD start_idx end_idx h0 h1 h3
    rw [hk2, calculateSlope_segment _ start_idx end_idx h0 h1 h3]
    exact ⟨hden, rfl⟩
  · intro h5 i hi
    obtain ⟨hi5, hin⟩ := scanIndices_bounds _ h5 i hi
    exact ⟨hD 0 ((i : Int) - 1) (le_refl _) (by omega) (by omega),
      hD (i : Int) _ (by omega) (by unfold lastIndex; omega) (by unfold lastIndex; omega)⟩

/-- Witness of C19: the step table, whose reference values are all `1`, on
the range of its first five records. -/
theorem slopeDen_pos_of_positive_reference_witness :
    (∀ entry ∈ (stepTable 2005 : List (Int × ℝ × ℝ)), 0 < entry.2.2) ∧
    0 < (((4 : Int) - 0 + 1 : Int) : ℝ) *
          Sxx (segment (stepState 2005 : DoubleMassCurve ℝ).data 0 4)
        - Sx (segment (stepState 2005 : DoubleMassCurve ℝ).data 0 4) *
          Sx (segment (stepState 2005 : DoubleMassCurve ℝ).data 0 4) := by
  have h : ∀ entry ∈ (stepTable 2005 : List (Int × ℝ × ℝ)), 0 < entry.2.2 := by
    intro entry hentry
    simp only [stepTable, List.mem_cons, List.mem_singleton, List.not_mem_nil, or_false] at hentry
    rcases hentry with rfl | rfl | rfl | rfl | rfl | rfl | rfl | rfl | rfl | rfl | rfl <;>
      norm_num
  have hlast : (4 : Int) ≤ lastIndex (stepState 2005 : DoubleMassCurve ℝ).data := by
    rw [stepState_data]
    simp [lastIndex, stepRecords]
  exact ⟨h, ((slopeDen_pos_of_positive_reference (stepTable 2005) DoubleMassCurve.initial h).2.1
    0 4 (le_refl _) (by norm_num) hlast).1⟩

end Monotone

/-! ## Short series, consistent series and index safety -/

section Safety

variable {F : Type} [LinearOrderedField F]

/-- C12 (no break on a perfectly consistent series): for every table of at
least 11 entries in which every station value is `c` times the reference
value and every reference value is strictly positive, every candidate of the
scan is evaluated with `slope1 = slope2 = c` and `slope_diff = 0`, and
`detectInconsistency` returns with `inconsistency_year` and
`correction_factor` unchanged (`-1` and `1.0` on a fresh object),
`best_break_point = -1` and `max_slope_diff = 0 ≤ 0.05`. -/
theorem detectInconsistency_consistent (sqrt : F → F) (c : F) (table : List (Int × F × F))
    (s : DoubleMassCurve F) (hn : 11 ≤ table.length)
    (hratio : ∀ entry ∈ table, entry.2.1 = c * entry.2.2)
    (hpos : ∀ entry ∈ table, 0 < entry.2.2) :
    (∀ i ∈ scanIndices (inputDataFrom table s).data,
      ∃ cand, evalCandidate sqrt (inputDataFrom table s).data (i : Int) = some cand ∧
        cand.slope1 = c ∧ cand.slope2 = c ∧ cand.slope_diff = 0) ∧
    ∃ out, detectInconsistency sqrt (inputDataFrom table s) = some out ∧
      out.state.inconsistency_year = s.inconsistency_year ∧
      out.state.correction_factor = s.correction_factor ∧
      out.best_break_point = -1 ∧ out.max_slope_diff = 0 ∧ out.max_slope_diff ≤ 0.05 := by
  have hlen : (inputDataFrom table s).data.length = table.length := by
    have := congrArg List.length (accumulate_triples table (0 : F) 0)
    rw [List.length_map] at this
    exact this
  have h5 : 5 ≤ (inputDataFrom table s).data.length := by omega
  have hinc := (accumulate_increasing table 0 0 hpos).2
  have hline : ∀ rd ∈ (inputDataFrom table s).data, rd.cum_pa = c * rd.cum_avg + 0 := by
    intro rd hrd
    rw [add_zero]
    exact accumulate_ratio c table 0 0 (by ring) hratio rd hrd
  have hslope : ∀ start_idx end_idx : Int, 0 ≤ start_idx → start_idx < end_idx →
      end_idx < (inputDataFrom table s).data.length →
      olsSlope (segment (inputDataFrom table s).data start_idx end_idx) = c :=
    fun start_idx end_idx h0 h1 h2 =>
      olsSlope_of_line c 0 _
        (fun rd hrd => hline rd ((segment_sublist _ start_idx end_idx).subset hrd))
        (segment_spread _ hinc start_idx end_idx h0 h1 h2)
  have hcand : ∀ i ∈ scanIndices (inputDataFrom table s).data,
      ∃ cand, evalCandidate sqrt (inputDataFrom table s).data (i : Int) = some cand ∧
        cand.slope1 = c ∧ cand.slope2 = c ∧ cand.slope_diff = 0 := by
    intro i hi
    obtain ⟨hi5, hin⟩ := scanIndices_bounds _ h5 i hi
    have e1 := hslope 0 ((i : Int) - 1) (le_refl _) (by omega) (by omega)
    have e2 := hslope (i : Int) (lastIndex (inputDataFrom table s).data) (by omega)
      (by unfold lastIndex; omega) (by unfold lastIndex; omega)
    refine ⟨_, evalCandidate_segments sqrt _ i hi5 hin, e1, e2, ?_⟩
    simp only [Candidate.slope_diff, e1, e2, sub_self, abs_zero]
  refine ⟨hcand, ?_⟩
  obtain ⟨out, hout⟩ := detectInconsistency_isSome sqrt (inputDataFrom table s) h5
  obtain ⟨st, hscan, h1, h2, _, _, _, hcase⟩ := detectInconsistency_eq_some sqrt _ out hout
  have hsel := detectInconsistency_selected sqrt _ st hscan
  have hst : st.max_slope_diff = 0 ∧ st.best_break_point = -1 := by
    rcases hsel with ⟨hmax, hbest, _⟩ | ⟨b, cb, hb5, hbhi, hcb, _, hpos, _⟩
    · exact ⟨hmax, hbest⟩
    · obtain ⟨cand, hc, _, _, hzero⟩ := hcand b ((mem_scanIndices _ _).mpr ⟨hb5, hbhi⟩)
      rw [hcb] at hc
      rw [Option.some.inj hc, hzero] at hpos
      exact absurd hpos (lt_irrefl _)
  have h05 : (0 : F) < 0.05 := by norm_num
  rcases hcase with ⟨hg, _⟩ | ⟨_, hy, hf⟩
  · rw [hst.1] at hg
    exact absurd hg (not_lt.mpr (le_of_lt h05))
  · exact ⟨out, hout, hy, hf, by rw [h2, hst.2], by rw [h1, hst.1],
      by rw [h1, hst.1]; exact le_of_lt h05⟩

/-- Witness of C12: a table of eleven years with the station at twice the
reference, on a fresh object. -/
theorem detectInconsistency_consistent_witness :
    11 ≤ (doubleTable : List (Int × ℝ × ℝ)).length ∧
    (∀ entry ∈ (doubleTable : List (Int × ℝ × ℝ)), entry.2.1 = 2 * entry.2.2) ∧
    (∀ entry ∈ (doubleTable : List (Int × ℝ × ℝ)), 0 < entry.2.2) ∧
    ∃ out, detectInconsistency Real.sqrt
        (inputDataFrom (doubleTable : List (Int × ℝ × ℝ)) DoubleMassCurve.initial) = some out ∧
      out.state.inconsistency_year = -1 ∧ out.state.correction_factor = 1 ∧
      out.best_break_point = -1 ∧ out.max_slope_diff = 0 ∧ out.max_slope_diff ≤ 0.05 := by
  have hratio : ∀ entry ∈ (doubleTable : List (Int × ℝ × ℝ)), entry.2.1 = 2 * entry.2.2 := by
    intro entry hentry
    simp only [doubleTable, List.mem_cons, List.mem_singleton, List.not_mem_nil, or_false] at hentry
    rcases hentry with rfl | rfl | rfl | rfl | rfl | rfl | rfl | rfl | rfl | rfl | rfl <;>
      norm_num
  have hpos : ∀ entry ∈ (doubleTable : List (Int × ℝ × ℝ)), 0 < entry.2.2 := by
    intro entry hentry
    simp only [doubleTable, List.mem_cons, List.mem_singleton, List.not_mem_nil, or_false] at hentry
    rcases hentry with rfl | rfl | rfl | rfl | rfl | rfl | rfl | rfl | rfl | rfl | rfl <;>
      norm_num
  exact ⟨by decide, hratio, hpos,
    (detectInconsistency_consistent Real.sqrt 2 doubleTable DoubleMassCurve.initial (by decide)
      hratio hpos).2⟩

/-- C13 as amended (short series): on a series of five to ten records the
scan visits no index, no record is read, and `detectInconsistency` returns
normally with the object unchanged, `max_slope_diff = 0` and
`best_break_point = -1`, which is the no-break result; no error is raised. -/
theorem detectInconsistency_few_records (sqrt : F → F) (s : DoubleMassCurve F)
    (h5 : 5 ≤ s.data.length) (h10 : s.data.length ≤ 10) :
    scanIndices s.data = [] ∧
    detectInconsistency sqrt s =
      some { state := s, max_slope_diff := 0, best_break_point := -1 } := by
  have hb : scanBound s.data - 5 = 0 := by
    unfold scanBound sizeSub
    rw [if_pos h5]
    omega
  constructor
  · rw [scanIndices, hb]
    rfl
  · unfold detectInconsistency
    rw [hb, scanLoop]
    simp only []
    rw [if_neg (by norm_num)]

/-- Counterexample to C13 as stated: on the ten records of the shortened step
series `detectInconsistency` returns the no-break result (sentinel year `-1`,
factor `1.0`, `max_slope_diff = 0`) instead of failing. -/
theorem detectInconsistency_few_records_counterexample :
    (shortRecords : List (RainfallData ℝ)).length < 11 ∧
    detectInconsistency Real.sqrt
        { data := (shortRecords : List (RainfallData ℝ)), inconsistency_year := -1,
          slope_before := 0, slope_after := 0, correction_factor := 1 } =
      some { state := { data := shortRecords, inconsistency_year := -1, slope_before := 0,
                        slope_after := 0, correction_factor := 1 },
             max_slope_diff := 0, best_break_point := -1 } := by
  refine ⟨by decide, ?_⟩
  have hb : scanBound (shortRecords : List (RainfallData ℝ)) - 5 = 0 := by decide
  unfold detectInconsistency
  simp only []
  rw [hb, scanLoop]
  simp only []
  rw [if_neg (by norm_num)]

/-- Witness of C13 as amended: the ten records of the shortened step series. -/
theorem detectInconsistency_few_records_witness :
    5 ≤ (shortRecords : List (RainfallData ℝ)).length ∧
    (shortRecords : List (RainfallData ℝ)).length ≤ 10 ∧
    scanIndices (shortRecords : List (RainfallData ℝ)) = [] :=
  ⟨by decide, by decide,
    (detectInconsistency_few_records Real.sqrt
      { data := (shortRecords : List (RainfallData ℝ)), inconsistency_year := -1,
        slope_before := 0, slope_after := 0, correction_factor := 1 }
      (by decide) (by decide)).1⟩

/-- C20 (index safety of detection): on a series of at least five records
every candidate `i` of the scan makes its calls on the ranges `(0, i-1)` and
`(i, n-1)`, both with `0 ≤ start < end ≤ n - 1`, reads `data[i]` in bounds
and is evaluated; `detectInconsistency` returns, so that no read was out of
bounds; and when the significance gate passes the selected index satisfies
`5 ≤ best_break_point ≤ n - 6`, is not the initial `-1`, and the read
`data[best_break_point]` is in bounds. -/
theorem detectInconsistency_index_safety (sqrt : F → F) (s : DoubleMassCurve F)
    (h : 5 ≤ s.data.length) :
    (∀ i ∈ scanIndices s.data,
      ((0 : Int) < (i : Int) - 1 ∧ (i : Int) - 1 ≤ (s.data.length : Int) - 1) ∧
      ((0 : Int) ≤ (i : Int) ∧ (i : Int) < lastIndex s.data ∧
        lastIndex s.data = (s.data.length : Int) - 1) ∧
      (∃ rd, readAt s.data (i : Int) = some rd) ∧
      ∃ c, evalCandidate sqrt s.data (i : Int) = some c) ∧
    (∃ out, detectInconsistency sqrt s = some out) ∧
    ∀ out, detectInconsistency sqrt s = some out → out.max_slope_diff > 0.05 →
      5 ≤ out.best_break_point ∧ out.best_break_point ≤ (s.data.length : Int) - 6 ∧
      out.best_break_point ≠ -1 ∧ ∃ rd, readAt s.data out.best_break_point = some rd := by
  refine ⟨?_, detectInconsistency_isSome sqrt s h, ?_⟩
  · intro i hi
    obtain ⟨hi5, hin⟩ := scanIndices_bounds _ h i hi
    exact ⟨⟨by omega, by omega⟩, ⟨by omega, by unfold lastIndex; omega, rfl⟩,
      readAt_isSome s.data (i : Int) (by omega) (by omega),
      evalCandidate_isSome sqrt s.data i hi5 hin⟩
  · intro out hout hgate
    obtain ⟨b, c, rd, hb, _, _, hbest, _, _, _, hread, _⟩ :=
      detectInconsistency_accepted sqrt s out hout hgate
    obtain ⟨hb5, hbn⟩ := scanIndices_bounds _ h b hb
    rw [hbest]
    exact ⟨by omega, by omega, by omega, rd, hread⟩

/-- Witness of C20: the step series, whose break at index 5 passes the gate
with `5 ≤ 5 ≤ 11 - 6`. -/
theorem detectInconsistency_index_safety_witness :
    5 ≤ (stepState 2005 : DoubleMassCurve ℝ).data.length ∧
    detectInconsistency Real.sqrt (stepState 2005 : DoubleMassCurve ℝ) =
      some (stepDetection 2005) ∧
    (stepDetection 2005 : Detection ℝ).max_slope_diff > 0.05 ∧
    5 ≤ (stepDetection 2005 : Detection ℝ).best_break_point ∧
    (stepDetection 2005 : Detection ℝ).best_break_point ≤
      ((stepState 2005 : DoubleMassCurve ℝ).data.length : Int) - 6 := by
  have h5 : 5 ≤ (stepState 2005 : DoubleMassCurve ℝ).data.length := by
    rw [stepState_data]; decide
  have hgate : (stepDetection 2005 : Detection ℝ).max_slope_diff > 0.05 := by
    norm_num [stepDetection]
  have hthm := (detectInconsistency_index_safety Real.sqrt (stepState 2005) h5).2.2 _
    (stepState_detect 2005) hgate
  exact ⟨h5, stepState_detect 2005, hgate, hthm.1, hthm.2.1⟩

end Safety

/-! ## Bounds on the correlation -/

section Bounds

variable {F : Type} [LinearOrderedField F]

theorem sumOver_eq_zero_of_forall (h : RainfallData F → F) (seg : List (RainfallData F))
    (hz : ∀ rd ∈ seg, h rd = 0) : sumOver h seg = 0 := by
  rw [sumOver_const h 0 seg hz, mul_zero]

/-- Expansion of `Σ (a·f − c·g)²`. -/
theorem sumOver_sq_combo (f g : RainfallData F → F) (a c : F) :
    ∀ seg : List (RainfallData F),
      sumOver (fun rd => (a * f rd - c * g rd) * (a * f rd - c * g rd)) seg =
        a * a * sumOver (fun rd => f rd * f rd) seg
          - 2 * a * c * sumOver (fun rd => f rd * g rd) seg
          + c * c * sumOver (fun rd => g rd * g rd) seg
  | [] => by simp [sumOver]
  | rd :: seg => by
    rw [sumOver_cons, sumOver_cons, sumOver_cons, sumOver_cons, sumOver_sq_combo f g a c seg]
    ring

/-- Expansion of `Σ (a·f − c)·(a·g − d)`. -/
theorem sumOver_affine_mul (f g : RainfallData F → F) (a c d : F) :
    ∀ seg : List (RainfallData F),
      sumOver (fun rd => (a * f rd - c) * (a * g rd - d)) seg =
        a * a * sumOver (fun rd => f rd * g rd) seg - a * d * sumOver f seg
          - a * c * sumOver g seg + (seg.length : F) * (c * d)
  | [] => by simp [sumOver]
  | rd :: seg => by
    rw [sumOver_cons, sumOver_cons, sumOver_cons, sumOver_cons, sumOver_affine_mul f g a c d seg]
    simp only [List.length_cons, Nat.cast_add, Nat.cast_one]
    ring

/-- The Cauchy-Schwarz inequality for the sums over a segment. -/
theorem sumOver_cauchy_schwarz (f g : RainfallData F → F) (seg : List (RainfallData F)) :
    sumOver (fun rd => f rd * g rd) seg * sumOver (fun rd => f rd * g rd) seg ≤
      sumOver (fun rd => f rd * f rd) seg * sumOver (fun rd => g rd * g rd) seg := by
  have hA : 0 ≤ sumOver (fun rd => g rd * g rd) seg :=
    sumOver_nonneg _ (fun rd => mul_self_nonneg _) seg
  have hexp := sumOver_sq_combo f g (sumOver (fun rd => g rd * g rd) seg)
    (sumOver (fun rd => f rd * g rd) seg) seg
  have hsq := sumOver_nonneg
    (fun rd => (sumOver (fun rd => g rd * g rd) seg * f rd
        - sumOver (fun rd => f rd * g rd) seg * g rd) *
      (sumOver (fun rd => g rd * g rd) seg * f rd
        - sumOver (fun rd => f rd * g rd) seg * g rd))
    (fun rd => mul_self_nonneg _) seg
  rw [hexp] at hsq
  rcases lt_or_eq_of_le hA with hpos | hzero
  · have hfac : 0 ≤ sumOver (fun rd => g rd * g rd) seg *
        (sumOver (fun rd => f rd * f rd) seg * sumOver (fun rd => g rd * g rd) seg
          - sumOver (fun rd => f rd * g rd) seg * sumOver (fun rd => f rd * g rd) seg) := by
      nlinarith [hsq]
    have := nonneg_of_mul_nonneg_right hfac hpos
    linarith
  · have hg : ∀ rd ∈ seg, g rd * g rd = 0 :=
      sumOver_eq_zero _ (fun rd => mul_self_nonneg _) seg hzero.symm
    have hfg : sumOver (fun rd => f rd * g rd) seg = 0 :=
      sumOver_eq_zero_of_forall _ seg (fun rd hrd => by
        rw [mul_self_eq_zero.mp (hg rd hrd), mul_zero])
    rw [hfg, ← hzero]
    simp

/-- The variance identity for the station values:
`k·(k·Σy² − (Σy)²) = Σ (k·y − Σy)²`. -/
theorem length_mul_yDen (seg : List (RainfallData F)) :
    (seg.length : F) * yDen seg =
      sumOver (fun rd => ((seg.length : F) * rd.cum_pa - Sy seg) *
        ((seg.length : F) * rd.cum_pa - Sy seg)) seg := by
  rw [sumOver_sq_affine (fun rd => rd.cum_pa) (seg.length : F) (Sy seg) seg]
  simp only [yDen, Syy, Sy]
  ring

/-- The covariance identity `k·(k·Σxy − Σx·Σy) = Σ (k·x − Σx)·(k·y − Σy)`. -/
theorem length_mul_covNum (seg : List (RainfallData F)) :
    (seg.length : F) * covNum seg =
      sumOver (fun rd => ((seg.length : F) * rd.cum_avg - Sx seg) *
        ((seg.length : F) * rd.cum_pa - Sy seg)) seg := by
  rw [sumOver_affine_mul (fun rd => rd.cum_avg) (fun rd => rd.cum_pa) (seg.length : F)
    (Sx seg) (Sy seg) seg]
  simp only [covNum, Sxy, Sx, Sy]
  ring

/-- The square of the shared numerator is at most the product of the two
factors under the square root of the Pearson formula. -/
theorem covNum_sq_le (seg : List (RainfallData F)) :
    covNum seg * covNum seg ≤ slopeDen seg * yDen seg := by
  rcases Nat.eq_zero_or_pos seg.length with h | h
  · have : seg = [] := List.length_eq_zero.mp h
    subst this
    simp [covNum, slopeDen, yDen, Sx, Sy, Sxy, Sxx, Syy, sumOver]
  · have hk : (0 : F) < (seg.length : F) := by exact_mod_cast h
    have hcs := sumOver_cauchy_schwarz
      (fun rd => (seg.length : F) * rd.cum_avg - Sx seg)
      (fun rd => (seg.length : F) * rd.cum_pa - Sy seg) seg
    rw [← length_mul_covNum, ← length_mul_slopeDen, ← length_mul_yDen] at hcs
    have hkk : (0 : F) < (seg.length : F) * (seg.length : F) := mul_pos hk hk
    have hfac : (seg.length : F) * (seg.length : F) * (covNum seg * covNum seg) ≤
        (seg.length : F) * (seg.length : F) * (slopeDen seg * yDen seg) := by
      calc (seg.length : F) * (seg.length : F) * (covNum seg * covNum seg)
          = (seg.length : F) * covNum seg * ((seg.length : F) * covNum seg) := by ring
        _ ≤ (seg.length : F) * slopeDen seg * ((seg.length : F) * yDen seg) := hcs
        _ = (seg.length : F) * (seg.length : F) * (slopeDen seg * yDen seg) := by ring
    exact le_of_mul_le_mul_left hfac hkk

/-- The factor `k·Σy² − (Σy)²` is never negative. -/
theorem yDen_nonneg (seg : List (RainfallData F)) : 0 ≤ yDen seg := by
  rcases Nat.eq_zero_or_pos seg.length with h | h
  · have : seg = [] := List.length_eq_zero.mp h
    subst this
    simp [yDen, Syy, Sy, sumOver]
  · have hk : (0 : F) < (seg.length : F) := by exact_mod_cast h
    have h1 := length_mul_yDen seg
    have h2 := sumOver_nonneg (fun rd => ((seg.length : F) * rd.cum_pa - Sy seg) *
        ((seg.length : F) * rd.cum_pa - Sy seg)) (fun rd => mul_self_nonneg _) seg
    rw [← h1] at h2
    exact nonneg_of_mul_nonneg_right h2 hk

/-- A range that passes the guard and starts below index 0 makes the loop
read `data[start_idx]` out of bounds. -/
theorem sumLoop_of_negative (data : List (RainfallData F)) (start_idx end_idx : Int)
    (acc : Sums F) (h0 : start_idx < 0) (h : degenerate data start_idx end_idx = false) :
    sumLoop data (end_idx - start_idx + 1).toNat start_idx acc = none := by
  simp only [degenerate, Bool.or_eq_false_iff, decide_eq_false_iff_not] at h
  have hcount : (end_idx - start_idx + 1).toNat = (end_idx - start_idx).toNat + 1 := by omega
  rw [hcount, sumLoop, readAt_neg data start_idx h0]

/-- What `calculateCorrelation` returns, case by case: `0.0` from the guard,
the guarded Pearson quotient of the segment on a range inside the vector. -/
theorem calculateCorrelation_cases (sqrt : F → F) (data : List (RainfallData F))
    (start_idx end_idx : Int) (v : F)
    (h : calculateCorrelation sqrt data start_idx end_idx = some v) :
    (degenerate data start_idx end_idx = true ∧ v = 0) ∨
    (0 ≤ start_idx ∧ start_idx < end_idx ∧ end_idx < data.length ∧
      v = pearson sqrt (segment data start_idx end_idx)) := by
  cases hd : degenerate data start_idx end_idx with
  | true =>
    rw [calculateCorrelation_of_degenerate sqrt data start_idx end_idx hd] at h
    exact Or.inl ⟨rfl, (Option.some.inj h).symm⟩
  | false =>
    right
    by_cases h0 : 0 ≤ start_idx
    · obtain ⟨h1, h2⟩ := valid_of_not_degenerate data start_idx end_idx h0 hd
      rw [calculateCorrelation_segment sqrt data start_idx end_idx h0 h1 h2] at h
      exact ⟨h0, h1, h2, (Option.some.inj h).symm⟩
    · have hnone := sumLoop_of_negative data start_idx end_idx ⟨0, 0, 0, 0, 0⟩
        (not_le.mp h0) hd
      simp only [calculateCorrelation, hd] at h
      rw [hnone] at h
      exact absurd h (by simp)

/-- What `calculateSlope` returns, case by case. -/
theorem calculateSlope_cases (data : List (RainfallData F))
    (start_idx end_idx : Int) (v : F)
    (h : calculateSlope data start_idx end_idx = some v) :
    (degenerate data start_idx end_idx = true ∧ v = 0) ∨
    (0 ≤ start_idx ∧ start_idx < end_idx ∧ end_idx < data.length ∧
      v = olsSlope (segment data start_idx end_idx)) := by
  cases hd : degenerate data start_idx end_idx with
  | true =>
    rw [calculateSlope_of_degenerate data start_idx end_idx hd] at h
    exact Or.inl ⟨rfl, (Option.some.inj h).symm⟩
  | false =>
    right
    by_cases h0 : 0 ≤ start_idx
    · obtain ⟨h1, h2⟩ := valid_of_not_degenerate data start_idx end_idx h0 hd
      rw [calculateSlope_segment data start_idx end_idx h0 h1 h2] at h
      exact ⟨h0, h1, h2, (Option.some.inj h).symm⟩
    · have hnone := sumLoop_of_negative data start_idx end_idx ⟨0, 0, 0, 0, 0⟩
        (not_le.mp h0) hd
      simp only [calculateSlope, hd] at h
      rw [hnone] at h
      exact absurd h (by simp)

/-- In real arithmetic the guarded Pearson quotient lies in `[-1, 1]`. -/
theorem pearson_abs_le_one (seg : List (RainfallData ℝ)) : |pearson Real.sqrt seg| ≤ 1 := by
  unfold pearson
  by_cases hden : pearsonDen Real.sqrt seg ≠ 0
  · rw [if_pos hden]
    have hnn : 0 ≤ pearsonDen Real.sqrt seg := Real.sqrt_nonneg _
    have hpos : 0 < pearsonDen Real.sqrt seg := lt_of_le_of_ne hnn (Ne.symm hden)
    have hnum : |covNum seg| ≤ pearsonDen Real.sqrt seg := by
      apply Real.abs_le_sqrt
      rw [sq]
      exact covNum_sq_le seg
    rw [abs_div, abs_of_pos hpos]
    exact (div_le_one hpos).mpr hnum
  · rw [if_neg hden]
    simp

/-- In real arithmetic a positive correlation needs a positive numerator and a
positive slope denominator, and the least-squares slope is then positive. -/
theorem olsSlope_pos_of_pearson_pos (seg : List (RainfallData ℝ))
    (h : 0 < pearson Real.sqrt seg) :
    0 < covNum seg ∧ 0 < slopeDen seg ∧ 0 < olsSlope seg := by
  unfold pearson at h
  by_cases hden : pearsonDen Real.sqrt seg ≠ 0
  · rw [if_pos hden] at h
    have hnn : 0 ≤ pearsonDen Real.sqrt seg := Real.sqrt_nonneg _
    have hpos : 0 < pearsonDen Real.sqrt seg := lt_of_le_of_ne hnn (Ne.symm hden)
    have hnum : 0 < covNum seg := by
      have := mul_pos h hpos
      rwa [div_mul_cancel₀ _ hden] at this
    have hD : 0 < slopeDen seg := by
      rcases lt_or_eq_of_le (slopeDen_nonneg seg) with hlt | heq
      · exact hlt
      · exfalso
        apply hden
        rw [pearsonDen, ← heq, zero_mul, Real.sqrt_zero]
    exact ⟨hnum, hD, div_pos hnum hD⟩
  · rw [if_neg hden] at h
    exact absurd h (lt_irrefl _)

/-- In real arithmetic, when `calculateCorrelation` returns a positive value
on a range that does not start below index 0, `calculateSlope` returns a
positive value on the same range. -/
theorem calculateSlope_pos_of_correlation (data : List (RainfallData ℝ))
    (start_idx end_idx : Int) (r m : ℝ)
    (hr : calculateCorrelation Real.sqrt data start_idx end_idx = some r) (hpos : 0 < r)
    (hm : calculateSlope data start_idx end_idx = some m) : 0 < m := by
  rcases calculateCorrelation_cases Real.sqrt data start_idx end_idx r hr with
    ⟨_, hzero⟩ | ⟨h0, h1, h2, hv⟩
  · rw [hzero] at hpos
    exact absurd hpos (lt_irrefl _)
  · rw [calculateSlope_segment data start_idx end_idx h0 h1 h2] at hm
    rw [← Option.some.inj hm]
    rw [hv] at hpos
    exact (olsSlope_pos_of_pearson_pos _ hpos).2.2

/-- C16 (correlation range): in real arithmetic every value
`calculateCorrelation` returns lies in `[-1, 1]`, and it returns a value for
every pair of indices whose start is not negative. -/
theorem calculateCorrelation_range (data : List (RainfallData ℝ)) (start_idx end_idx : Int) :
    (0 ≤ start_idx → ∃ v, calculateCorrelation Real.sqrt data start_idx end_idx = some v) ∧
    ∀ v, calculateCorrelation Real.sqrt data start_idx end_idx = some v → -1 ≤ v ∧ v ≤ 1 := by
  constructor
  · intro h0
    cases hd : degenerate data start_idx end_idx with
    | true => exact ⟨0, calculateCorrelation_of_degenerate Real.sqrt data start_idx end_idx hd⟩
    | false =>
      obtain ⟨h1, h2⟩ := valid_of_not_degenerate data start_idx end_idx h0 hd
      exact ⟨_, calculateCorrelation_segment Real.sqrt data start_idx end_idx h0 h1 h2⟩
  · intro v hv
    rcases calculateCorrelation_cases Real.sqrt data start_idx end_idx v hv with
      ⟨_, hzero⟩ | ⟨_, _, _, hp⟩
    · rw [hzero]
      constructor <;> norm_num
    · rw [hp]
      exact abs_le.mp (pearson_abs_le_one _)

/-- Witness of C16: the first five records of the step series, with
correlation `1`. -/
theorem calculateCorrelation_range_witness :
    (0 : Int) ≤ 0 ∧
    calculateCorrelation Real.sqrt (stepRecords 2005 : List (RainfallData ℝ)) 0
      (((5 : Nat) : Int) - 1) = some 1 ∧
    (-1 : ℝ) ≤ 1 ∧ (1 : ℝ) ≤ 1 := by
  have hc := ((evalCandidate_eq_some Real.sqrt (stepRecords 2005 : List (RainfallData ℝ))
    ((5 : Nat) : Int) ⟨1, 2, 1, 1⟩).mp (stepRecords_candidate 2005)).2.2.1
  have hthm := (calculateCorrelation_range (stepRecords 2005 : List (RainfallData ℝ)) 0
    (((5 : Nat) : Int) - 1)).2 1 hc
  exact ⟨le_refl _, hc, hthm.1, hthm.2⟩

/-- C18 (the correction-factor division): in real arithmetic both slopes of
every eligible candidate are strictly positive; hence whenever
`detectInconsistency` returns with the significance gate passed, the stored
`slope_before` is not zero, and `correction_factor`, the quotient
`slope_after / slope_before`, is strictly positive. -/
theorem correction_factor_pos (s : DoubleMassCurve ℝ) :
    (∀ (i : Nat) (c : Candidate ℝ), evalCandidate Real.sqrt s.data (i : Int) = some c →
      c.eligible → 0 < c.slope1 ∧ 0 < c.slope2) ∧
    ∀ out, detectInconsistency Real.sqrt s = some out → out.max_slope_diff > 0.05 →
      out.state.slope_before ≠ 0 ∧ 0 < out.state.slope_before ∧ 0 < out.state.slope_after ∧
      out.state.correction_factor = out.state.slope_after / out.state.slope_before ∧
      0 < out.state.correction_factor := by
  have hcand : ∀ (i : Nat) (c : Candidate ℝ),
      evalCandidate Real.sqrt s.data (i : Int) = some c → c.eligible →
      0 < c.slope1 ∧ 0 < c.slope2 := by
    intro i c hc hel
    obtain ⟨e1, e2, e3, e4, _⟩ := (evalCandidate_eq_some Real.sqrt s.data _ c).mp hc
    have h85 : (0 : ℝ) < 0.85 := by norm_num
    exact ⟨calculateSlope_pos_of_correlation s.data _ _ _ _ e3 (lt_trans h85 hel.1) e1,
      calculateSlope_pos_of_correlation s.data _ _ _ _ e4 (lt_trans h85 hel.2) e2⟩
  refine ⟨hcand, ?_⟩
  intro out hout hgate
  obtain ⟨b, c, rd, _, hc, hel, _, _, hsb, hsa, _, _, hf, _⟩ :=
    detectInconsistency_accepted Real.sqrt s out hout hgate
  obtain ⟨h1, h2⟩ := hcand b c hc hel
  rw [hsb, hsa, hf]
  exact ⟨ne_of_gt h1, h1, h2, rfl, div_pos h2 h1⟩

/-- Witness of C18: the step series, whose factor is `2`. -/
theorem correction_factor_pos_witness :
    detectInconsistency Real.sqrt (stepState 2005 : DoubleMassCurve ℝ) =
      some (stepDetection 2005) ∧
    (stepDetection 2005 : Detection ℝ).max_slope_diff > 0.05 ∧
    (stepDetection 2005 : Detection ℝ).state.slope_before ≠ 0 ∧
    0 < (stepDetection 2005 : Detection ℝ).state.correction_factor := by
  have hgate : (stepDetection 2005 : Detection ℝ).max_slope_diff > 0.05 := by
    norm_num [stepDetection]
  have hthm := (correction_factor_pos (stepState 2005)).2 _ (stepState_detect 2005) hgate
  exact ⟨stepState_detect 2005, hgate, hthm.1, hthm.2.2.2.2⟩

end Bounds

/-! ## The correction round trip and the caller of `calculateSlope` -/

section RoundTrip

variable {F : Type} [LinearOrderedField F]

/-- When the stored year is the sentinel `-1`, `correctData` prints nothing
(line 143). -/
theorem correctData_of_sentinel (s : DoubleMassCurve F) (h : s.inconsistency_year = -1) :
    correctData s = [] := by
  simp [correctData, h]

/-- When the stored year is the year of record `b`, is not `-1`, and the years
are pairwise distinct, `correctData` finds `b` and runs the printing loop
with it. -/
theorem correctData_of_break (s : DoubleMassCurve F) (b : Nat) (rdb : RainfallData F)
    (hnodup : (s.data.map (fun rd => rd.year)).Nodup) (hget : s.data.get? b = some rdb)
    (hy : s.inconsistency_year = rdb.year) (hne : rdb.year ≠ -1) :
    findBreak s.inconsistency_year s.data 0 = (b : Int) ∧
    correctData s = correctRows s.correction_factor (b : Int) s.data ((0 : Nat) : Int) := by
  have hfind : findBreak s.inconsistency_year s.data 0 = (b : Int) := by
    rw [hy, findBreak_nodup s.data b rdb 0 hnodup hget, zero_add]
  refine ⟨hfind, ?_⟩
  unfold correctData
  rw [if_neg (by rw [hy]; exact hne)]
  simp only []
  rw [hfind, if_neg (by omega)]
  rfl

/-- Every row printed by the loop of lines 161-172 belongs to the record at
its position and is the row of the specification. -/
theorem correctRows_row (f : F) (break_idx : Int) (data : List (RainfallData F)) (i : Nat)
    (row : Row F) (h : (correctRows f break_idx data ((0 : Nat) : Int)).get? i = some row) :
    ∃ rd, data.get? i = some rd ∧ row = expectedRow f break_idx i rd := by
  have hlt : i < data.length := by
    have := List.get?_eq_some.mp h
    obtain ⟨hi, _⟩ := this
    rw [correctRows_length] at hi
    exact hi
  have hget : data.get? i = some (data.get ⟨i, hlt⟩) := List.get?_eq_get hlt
  have hrow := correctRows_get f break_idx data 0 i _ hget
  rw [h, zero_add] at hrow
  exact ⟨_, hget, Option.some.inj hrow⟩

/-- C11 (correction round trip): in real arithmetic, when
`detectInconsistency` has returned with the significance gate passed on a
series with pairwise distinct years, the factor `f` it computed is not zero,
and every row `correctData` prints belongs to the record at its position,
with `corrected_value / f` equal to the station value of the record for every
index below the break and `corrected_value` equal to it for every index from
the break on; the rows are one per record when the year of the break record
is not `-1`. -/
theorem correction_round_trip (s : DoubleMassCurve ℝ) (out : Detection ℝ)
    (h : detectInconsistency Real.sqrt s = some out) (hgate : out.max_slope_diff > 0.05)
    (hnodup : (s.data.map (fun rd => rd.year)).Nodup) :
    out.state.correction_factor ≠ 0 ∧
    (∀ (i : Nat) (row : Row ℝ), (correctData out.state).get? i = some row →
      ∃ rd, s.data.get? i = some rd ∧ row.original_pa = rd.pa ∧
        ((i : Int) < out.best_break_point →
          row.corrected_pa / out.state.correction_factor = rd.pa) ∧
        (out.best_break_point ≤ (i : Int) → row.corrected_pa = rd.pa)) ∧
    ((∀ rd, readAt s.data out.best_break_point = some rd → rd.year ≠ -1) →
      (correctData out.state).length = s.data.length) := by
  obtain ⟨b, c, rdb, _, hc, hel, hbest, _, hsb, hsa, hread, hy, hf, hdata⟩ :=
    detectInconsistency_accepted Real.sqrt s out h hgate
  have h85 : (0 : ℝ) < 0.85 := by norm_num
  obtain ⟨e1, e2, e3, e4, _⟩ := (evalCandidate_eq_some Real.sqrt s.data _ c).mp hc
  have hs1 := calculateSlope_pos_of_correlation s.data _ _ _ _ e3 (lt_trans h85 hel.1) e1
  have hs2 := calculateSlope_pos_of_correlation s.data _ _ _ _ e4 (lt_trans h85 hel.2) e2
  have hfne : out.state.correction_factor ≠ 0 := by
    rw [hf]
    exact ne_of_gt (div_pos hs2 hs1)
  have hget : out.state.data.get? b = some rdb := by
    rw [hdata, ← readAt_natCast]; exact hread
  have hnodup2 : (out.state.data.map (fun rd => rd.year)).Nodup := by rw [hdata]; exact hnodup
  refine ⟨hfne, ?_, ?_⟩
  · intro i row hrow
    by_cases hyear : rdb.year = -1
    · rw [correctData_of_sentinel out.state (hy.trans hyear)] at hrow
      exact absurd hrow (by simp)
    · rw [(correctData_of_break out.state b rdb hnodup2 hget hy hyear).2] at hrow
      obtain ⟨rd, hrd, hexp⟩ := correctRows_row _ _ _ i row hrow
      rw [hdata] at hrd
      refine ⟨rd, hrd, ?_, ?_, ?_⟩
      · rw [hexp, expectedRow]
        split <;> rfl
      · intro hlt
        rw [hbest] at hlt
        rw [hexp, expectedRow, if_pos hlt]
        exact mul_div_cancel_right₀ rd.pa hfne
      · intro hge
        rw [hbest] at hge
        rw [hexp, expectedRow, if_neg (not_lt.mpr hge)]
  · intro hyear
    have hne : rdb.year ≠ -1 := hyear rdb (by rw [hbest]; exact hread)
    rw [(correctData_of_break out.state b rdb hnodup2 hget hy hne).2, correctRows_length, hdata]

/-- Witness of C11: the step series with the year 2005 at index 5, whose
factor `2` is not zero and whose eleven rows are printed. -/
theorem correction_round_trip_witness :
    detectInconsistency Real.sqrt (stepState 2005 : DoubleMassCurve ℝ) =
      some (stepDetection 2005) ∧
    (stepDetection 2005 : Detection ℝ).max_slope_diff > 0.05 ∧
    ((stepState 2005 : DoubleMassCurve ℝ).data.map (fun rd => rd.year)).Nodup ∧
    (stepDetection 2005 : Detection ℝ).state.correction_factor ≠ 0 ∧
    (correctData (stepDetection 2005 : Detection ℝ).state).length = 11 := by
  have hgate : (stepDetection 2005 : Detection ℝ).max_slope_diff > 0.05 := by
    norm_num [stepDetection]
  have hnodup : ((stepState 2005 : DoubleMassCurve ℝ).data.map (fun rd => rd.year)).Nodup := by
    rw [stepState_data]
    simp only [stepRecords, List.map_cons, List.map_nil]
    decide
  have hyear : ∀ rd, readAt (stepState 2005 : DoubleMassCurve ℝ).data
      (stepDetection 2005 : Detection ℝ).best_break_point = some rd → rd.year ≠ -1 := by
    intro rd hrd
    rw [stepState_data] at hrd
    simp only [readAt, stepRecords, stepDetection] at hrd
    norm_num at hrd
    rw [← hrd]
    decide
  have hthm := correction_round_trip (stepState 2005) (stepDetection 2005)
    (stepState_detect 2005) hgate hnodup
  refine ⟨stepState_detect 2005, hgate, hnodup, hthm.1, ?_⟩
  rw [hthm.2.2 hyear, stepState_data]
  rfl

theorem dryState_data {F : Type} [LinearOrderedField F] :
    (inputDataFrom (dryTable : List (Int × F × F)) DoubleMassCurve.initial).data = dryRecords := by
  simp only [inputDataFrom, dryTable, accumulate_cons, accumulate, dryRecords]
  norm_num

/-- C17 at its failing input: the table `dryTable` has eleven years of
non-negative values, its scan evaluates candidate 5, whose first call is
`calculateSlope(0, 4)`; that range passes the guard of line 58 although
`cum_avg` is constant on it, so that both the denominator `k·Σx² − (Σx)²`
and the numerator of line 73 are zero. -/
theorem calculateSlope_zero_variance_call :
    (∀ entry ∈ (dryTable : List (Int × ℝ × ℝ)), 0 ≤ entry.2.1 ∧ 0 ≤ entry.2.2) ∧
    11 ≤ (dryTable : List (Int × ℝ × ℝ)).length ∧
    5 ∈ scanIndices (inputDataFrom (dryTable : List (Int × ℝ × ℝ)) DoubleMassCurve.initial).data ∧
    (∃ c, evalCandidate Real.sqrt
      (inputDataFrom (dryTable : List (Int × ℝ × ℝ)) DoubleMassCurve.initial).data
      ((5 : Nat) : Int) = some c) ∧
    degenerate (inputDataFrom (dryTable : List (Int × ℝ × ℝ)) DoubleMassCurve.initial).data
      0 (((5 : Nat) : Int) - 1) = false ∧
    slopeDen (segment (inputDataFrom (dryTable : List (Int × ℝ × ℝ)) DoubleMassCurve.initial).data
      0 (((5 : Nat) : Int) - 1)) = 0 ∧
    covNum (segment (inputDataFrom (dryTable : List (Int × ℝ × ℝ)) DoubleMassCurve.initial).data
      0 (((5 : Nat) : Int) - 1)) = 0 := by
  have hvals : ∀ entry ∈ (dryTable : List (Int × ℝ × ℝ)), 0 ≤ entry.2.1 ∧ 0 ≤ entry.2.2 := by
    intro entry hentry
    simp only [dryTable, List.mem_cons, List.mem_singleton, List.not_mem_nil, or_false] at hentry
    rcases hentry with rfl | rfl | rfl | rfl | rfl | rfl | rfl | rfl | rfl | rfl | rfl <;>
      norm_num
  have hlen : (dryRecords : List (RainfallData ℝ)).length = 11 := rfl
  have hseg : segment (dryRecords : List (RainfallData ℝ)) 0 (((5 : Nat) : Int) - 1) =
      [ ⟨2000, 1, 3, 1, 3⟩, ⟨2001, 1, 0, 2, 3⟩, ⟨2002, 1, 0, 3, 3⟩, ⟨2003, 1, 0, 4, 3⟩,
        ⟨2004, 1, 0, 5, 3⟩ ] := by
    simp [segment, dryRecords]
  have hconst : ∀ rd ∈ segment (dryRecords : List (RainfallData ℝ)) 0 (((5 : Nat) : Int) - 1),
      rd.cum_avg = 3 := by
    rw [hseg]
    intro rd hrd
    simp only [List.mem_cons, List.mem_singleton, List.not_mem_nil, or_false] at hrd
    rcases hrd with rfl | rfl | rfl | rfl | rfl <;> rfl
  obtain ⟨hD, hN⟩ := slopeDen_covNum_of_const _ 3 hconst
  rw [dryState_data]
  refine ⟨hvals, by decide, by decide,
    evalCandidate_isSome Real.sqrt _ 5 (le_refl _) (by rw [hlen]), ?_, hD, hN⟩
  exact degenerate_eq_false _ _ _ (le_refl _) (by norm_num) (by rw [hlen]; norm_num)

end RoundTrip

/-! ## The hard-coded series -/

section EndToEnd

/-- A candidate of the scan that is eligible with `slope_diff > 0.05` makes the
significance gate of line 134 pass. -/
theorem gate_of_eligible {F : Type} [LinearOrderedField F] (sqrt : F → F)
    (s : DoubleMassCurve F) (out : Detection F) (h : detectInconsistency sqrt s = some out)
    (i : Nat) (c : Candidate F) (hi : i ∈ scanIndices s.data)
    (hc : evalCandidate sqrt s.data (i : Int) = some c) (hel : c.eligible)
    (hdiff : c.slope_diff > 0.05) : out.max_slope_diff > 0.05 := by
  obtain ⟨hi5, hilt⟩ := (mem_scanIndices _ _).mp hi
  have h05 : (0 : F) < 0.05 := by norm_num
  rcases detectInconsistency_outcome sqrt s out h with
    ⟨_, _, _, _, hall⟩ | ⟨b, cb, _, _, _, _, _, hmax, _, _, _, hall⟩
  · have := hall i c hi5 hilt hc hel
    linarith
  · have := (hall i c hi5 hilt hc hel).1
    simp only [] at hmax
    rw [hmax]
    exact lt_of_lt_of_le hdiff this

/-- In real arithmetic the correlation of a segment is above `t` when the
numerator is positive and its square is above `t²` times the product under
the square root. -/
theorem pearson_gt_of_sq (seg : List (RainfallData ℝ)) (t : ℝ)
    (hnum : 0 < covNum seg) (hP : 0 < slopeDen seg * yDen seg)
    (hsq : t * t * (slopeDen seg * yDen seg) < covNum seg * covNum seg) :
    t < pearson Real.sqrt seg := by
  have hden : 0 < pearsonDen Real.sqrt seg := Real.sqrt_pos.mpr hP
  have hself : pearsonDen Real.sqrt seg * pearsonDen Real.sqrt seg = slopeDen seg * yDen seg :=
    Real.mul_self_sqrt (le_of_lt hP)
  have hlt : t * pearsonDen Real.sqrt seg < covNum seg := by
    apply lt_of_mul_self_lt_mul_self₀ (le_of_lt hnum)
    calc t * pearsonDen Real.sqrt seg * (t * pearsonDen Real.sqrt seg)
        = t * t * (pearsonDen Real.sqrt seg * pearsonDen Real.sqrt seg) := by ring
      _ = t * t * (slopeDen seg * yDen seg) := by rw [hself]
      _ < covNum seg * covNum seg := hsq
  rw [pearson, if_pos (ne_of_gt hden)]
  exact (lt_div_iff₀ hden).mpr hlt

theorem inputData_data {F : Type} [LinearOrderedField F] :
    (inputData (DoubleMassCurve.initial : DoubleMassCurve F)).data = rainfallRecords := by
  simp only [inputData, inputDataFrom, rainfall_data, accumulate_cons, accumulate,
    rainfallRecords]
  norm_num

theorem sumOver_toField {F : Type} [LinearOrderedField F] (f : RainfallData F → F)
    (g : RainfallData Int → Int) (h : ∀ rd : RainfallData Int, f rd.toField = ((g rd : Int) : F)) :
    ∀ seg : List (RainfallData Int),
      sumOver f (seg.map RainfallData.toField) = ((intSum g seg : Int) : F)
  | [] => by simp [sumOver, intSum]
  | rd :: seg => by
    have ih := sumOver_toField f g h seg
    simp only [sumOver, intSum, List.map_cons, List.sum_cons, Int.cast_add] at ih ⊢
    rw [ih, h]

/-- The three regression quantities of a segment of whole-number records are
the casts of their integer copies. -/
theorem regression_toField {F : Type} [LinearOrderedField F] (seg : List (RainfallData Int)) :
    covNum (seg.map RainfallData.toField : List (RainfallData F)) = ((intCovNum seg : Int) : F) ∧
    slopeDen (seg.map RainfallData.toField : List (RainfallData F)) =
      ((intSlopeDen seg : Int) : F) ∧
    yDen (seg.map RainfallData.toField : List (RainfallData F)) = ((intYDen seg : Int) : F) := by
  have hx := sumOver_toField (F := F) (fun rd => rd.cum_avg) (fun rd => rd.cum_avg)
    (fun _ => rfl) seg
  have hy := sumOver_toField (F := F) (fun rd => rd.cum_pa) (fun rd => rd.cum_pa)
    (fun _ => rfl) seg
  have hxy := sumOver_toField (F := F) (fun rd => rd.cum_avg * rd.cum_pa)
    (fun rd => rd.cum_avg * rd.cum_pa)
    (fun rd => by simp [RainfallData.toField]) seg
  have hxx := sumOver_toField (F := F) (fun rd => rd.cum_avg * rd.cum_avg)
    (fun rd => rd.cum_avg * rd.cum_avg)
    (fun rd => by simp [RainfallData.toField]) seg
  have hyy := sumOver_toField (F := F) (fun rd => rd.cum_pa * rd.cum_pa)
    (fun rd => rd.cum_pa * rd.cum_pa)
    (fun rd => by simp [RainfallData.toField]) seg
  refine ⟨?_, ?_, ?_⟩
  · simp only [covNum, Sx, Sy, Sxy, intCovNum, hx, hy, hxy, List.length_map]
    push_cast
    ring
  · simp only [slopeDen, Sx, Sxx, intSlopeDen, hx, hxx, List.length_map]
    push_cast
    ring
  · simp only [yDen, Sy, Syy, intYDen, hy, hyy, List.length_map]
    push_cast
    ring

theorem segment_map {F : Type} (ints : List (RainfallData Int))
    (f : RainfallData Int → RainfallData F) (start_idx end_idx : Int) :
    segment (ints.map f) start_idx end_idx = (segment ints start_idx end_idx).map f := by
  simp [segment, List.map_take, List.map_drop]

theorem rainfallRecords_eq {F : Type} [LinearOrderedField F] :
    (rainfallRecords : List (RainfallData F)) = rainfallInts.map RainfallData.toField := by
  simp only [rainfallRecords, rainfallInts, List.map_cons, List.map_nil, RainfallData.toField]
  norm_num

theorem lastIndex_map {F : Type} (ints : List (RainfallData Int))
    (f : RainfallData Int → RainfallData F) : lastIndex (ints.map f) = lastIndex ints := by
  simp [lastIndex]

/-- The difference of two quotients with positive denominators and in rising
order, over the common denominator. -/
theorem abs_quotient_gap {F : Type} [LinearOrderedField F] (n1 d1 n2 d2 : F) (h1 : 0 < d1)
    (h2 : 0 < d2) (hgap : 0 < n2 * d1 - n1 * d2) :
    |n2 / d2 - n1 / d1| = (n2 * d1 - n1 * d2) / (d1 * d2) := by
  have heq : n2 / d2 - n1 / d1 = (n2 * d1 - n1 * d2) / (d1 * d2) := by
    field_simp
    ring
  rw [heq]
  exact abs_of_pos (div_pos hgap (mul_pos h1 h2))

/-- The candidates `5, ..., 24` of the hard-coded series, computed in `Int`:
both slope denominators are positive, the second slope is above the first,
and the gap between the slopes is largest at candidate 18, strictly. -/
theorem rainfall_gaps :
    ∀ j ∈ List.range' 5 20, 0 < intSlopeDen (intBefore j) ∧ 0 < intSlopeDen (intAfter j) ∧
      0 < gapNum j ∧ (j ≠ 18 → gapNum j * gapDen 18 < gapNum 18 * gapDen j) := by
  decide

/-- The regression quantities of candidate 18 of the hard-coded series,
computed in `Int`. -/
theorem rainfall_sums_18 :
    intCovNum (intBefore 18) = 3317979500 ∧ intSlopeDen (intBefore 18) = 3773305625 ∧
    intYDen (intBefore 18) = 2917602668 ∧ intCovNum (intAfter 18) = 461626092 ∧
    intSlopeDen (intAfter 18) = 448831248 ∧ intYDen (intAfter 18) = 474820883 := by
  decide

/-- Every candidate of the hard-coded series is evaluated; its slopes are the
quotients of the integer sums of its two segments and its `slope_diff` is
`gapNum j / gapDen j`. -/
theorem rainfall_candidate (j : Nat) (hj : j ∈ List.range' 5 20) :
    ∃ c : Candidate ℝ,
      evalCandidate Real.sqrt (rainfallRecords : List (RainfallData ℝ)) (j : Int) = some c ∧
      c.slope1 = ((intCovNum (intBefore j) : Int) : ℝ) / ((intSlopeDen (intBefore j) : Int) : ℝ) ∧
      c.slope2 = ((intCovNum (intAfter j) : Int) : ℝ) / ((intSlopeDen (intAfter j) : Int) : ℝ) ∧
      c.corr1 = pearson Real.sqrt ((intBefore j).map RainfallData.toField) ∧
      c.corr2 = pearson Real.sqrt ((intAfter j).map RainfallData.toField) ∧
      c.slope_diff = ((gapNum j : Int) : ℝ) / ((gapDen j : Int) : ℝ) := by
  obtain ⟨hd1, hd2, hgap, _⟩ := rainfall_gaps j hj
  rw [List.mem_range'_1] at hj
  have hlen : (rainfallRecords : List (RainfallData ℝ)).length = 30 := rfl
  have hbefore : segment (rainfallRecords : List (RainfallData ℝ)) 0 ((j : Int) - 1) =
      (intBefore j).map RainfallData.toField := by
    rw [rainfallRecords_eq, segment_map]
    rfl
  have hafter : segment (rainfallRecords : List (RainfallData ℝ)) (j : Int)
      (lastIndex (rainfallRecords : List (RainfallData ℝ))) =
      (intAfter j).map RainfallData.toField := by
    rw [rainfallRecords_eq, segment_map, lastIndex_map]
    rfl
  obtain ⟨hn1, hD1, _⟩ := regression_toField (F := ℝ) (intBefore j)
  obtain ⟨hn2, hD2, _⟩ := regression_toField (F := ℝ) (intAfter j)
  have hs1 : olsSlope ((intBefore j).map RainfallData.toField : List (RainfallData ℝ)) =
      ((intCovNum (intBefore j) : Int) : ℝ) / ((intSlopeDen (intBefore j) : Int) : ℝ) := by
    rw [olsSlope, hn1, hD1]
  have hs2 : olsSlope ((intAfter j).map RainfallData.toField : List (RainfallData ℝ)) =
      ((intCovNum (intAfter j) : Int) : ℝ) / ((intSlopeDen (intAfter j) : Int) : ℝ) := by
    rw [olsSlope, hn2, hD2]
  refine ⟨_, evalCandidate_segments Real.sqrt _ j hj.1 (by rw [hlen]; omega), ?_, ?_, ?_, ?_, ?_⟩
  · simp only []; rw [hbefore, hs1]
  · simp only []; rw [hafter, hs2]
  · simp only []; rw [hbefore]
  · simp only []; rw [hafter]
  · simp only [Candidate.slope_diff]
    rw [hbefore, hafter, hs1, hs2]
    have hd1r : (0 : ℝ) < ((intSlopeDen (intBefore j) : Int) : ℝ) := by exact_mod_cast hd1
    have hd2r : (0 : ℝ) < ((intSlopeDen (intAfter j) : Int) : ℝ) := by exact_mod_cast hd2
    have hgapr : (0 : ℝ) < ((intCovNum (intAfter j) : Int) : ℝ) *
        ((intSlopeDen (intBefore j) : Int) : ℝ) -
        ((intCovNum (intBefore j) : Int) : ℝ) * ((intSlopeDen (intAfter j) : Int) : ℝ) := by
      have : (0 : ℝ) < ((gapNum j : Int) : ℝ) := by exact_mod_cast hgap
      simpa [gapNum] using this
    rw [abs_quotient_gap _ _ _ _ hd1r hd2r hgapr]
    simp [gapNum, gapDen]

/-- Candidate 18 of the hard-coded series is eligible and its slopes differ by
more than `0.05`. -/
theorem rainfall_candidate_18 :
    ∃ c : Candidate ℝ,
      evalCandidate Real.sqrt (rainfallRecords : List (RainfallData ℝ)) ((18 : Nat) : Int) =
        some c ∧
      c.slope1 = 3317979500 / 3773305625 ∧ c.slope2 = 461626092 / 448831248 ∧
      c.eligible ∧ c.slope_diff > 0.05 ∧
      c.slope_diff = ((gapNum 18 : Int) : ℝ) / ((gapDen 18 : Int) : ℝ) := by
  obtain ⟨c, hc, hs1, hs2, hr1, hr2, hgap⟩ := rainfall_candidate 18 (by decide)
  obtain ⟨hn1, hd1, hy1, hn2, hd2, hy2⟩ := rainfall_sums_18
  obtain ⟨hcov1, hden1, hyd1⟩ := regression_toField (F := ℝ) (intBefore 18)
  obtain ⟨hcov2, hden2, hyd2⟩ := regression_toField (F := ℝ) (intAfter 18)
  rw [hn1] at hcov1
  rw [hd1] at hden1
  rw [hy1] at hyd1
  rw [hn2] at hcov2
  rw [hd2] at hden2
  rw [hy2] at hyd2
  rw [hn1, hd1] at hs1
  rw [hn2, hd2] at hs2
  have e1 : c.slope1 = 3317979500 / 3773305625 := by rw [hs1]; norm_num
  have e2 : c.slope2 = 461626092 / 448831248 := by rw [hs2]; norm_num
  refine ⟨c, hc, e1, e2, ⟨?_, ?_⟩, ?_, hgap⟩
  · rw [hr1]
    apply pearson_gt_of_sq
    · rw [hcov1]; norm_num
    · rw [hden1, hyd1]; norm_num
    · rw [hcov1, hden1, hyd1]; norm_num
  · rw [hr2]
    apply pearson_gt_of_sq
    · rw [hcov2]; norm_num
    · rw [hden2, hyd2]; norm_num
    · rw [hcov2, hden2, hyd2]; norm_num
  · have hlt : (0.05 : ℝ) < c.slope2 - c.slope1 := by rw [e1, e2]; norm_num
    exact lt_of_lt_of_le hlt (le_abs_self _)

theorem rainfallRecords_scanIndices :
    scanIndices (rainfallRecords : List (RainfallData ℝ)) = List.range' 5 20 := by
  decide

/-- The selected candidate of the hard-coded series is index 18: the gate
passes, and the locals and slope fields hold candidate 18. -/
theorem rainfall_selected (out : Detection ℝ)
    (hout : detectInconsistency Real.sqrt
      (inputData (DoubleMassCurve.initial : DoubleMassCurve ℝ)) = some out) :
    out.max_slope_diff > 0.05 ∧ out.best_break_point = 18 ∧
    out.state.slope_before = 3317979500 / 3773305625 ∧
    out.state.slope_after = 461626092 / 448831248 ∧
    out.max_slope_diff = |out.state.slope_after - out.state.slope_before| := by
  have hdata : (inputData (DoubleMassCurve.initial : DoubleMassCurve ℝ)).data = rainfallRecords :=
    inputData_data
  obtain ⟨c18, hc18, hs1, hs2, hel18, hdiff18, hgap18⟩ := rainfall_candidate_18
  have hmem18 : 18 ∈ scanIndices (inputData (DoubleMassCurve.initial : DoubleMassCurve ℝ)).data := by
    rw [hdata, rainfallRecords_scanIndices]; decide
  have hgate := gate_of_eligible Real.sqrt _ out hout 18 c18 hmem18 (by rw [hdata]; exact hc18)
    hel18 hdiff18
  obtain ⟨h18a, h18b⟩ := (mem_scanIndices _ _).mp hmem18
  rcases detectInconsistency_outcome Real.sqrt _ out hout with
    ⟨hmax, _⟩ | ⟨b, cb, hb5, hbhi, hcb, _, _, hmax, hbest, hsb, hsa, hall⟩
  · simp only [] at hmax
    rw [hmax] at hgate
    exact absurd hgate (by norm_num)
  · simp only [] at hmax hbest hsb hsa
    have hbmem : b ∈ List.range' 5 20 := by
      rw [← rainfallRecords_scanIndices, ← hdata]
      exact (mem_scanIndices _ _).mpr ⟨hb5, hbhi⟩
    have hb18 : b = 18 := by
      by_contra hne
      obtain ⟨cj, hcj, _, _, _, _, hdj⟩ := rainfall_candidate b hbmem
      rw [hdata, hcj] at hcb
      have hcjb : cj = cb := Option.some.inj hcb
      obtain ⟨hp1, hp2, _, hcmp⟩ := rainfall_gaps b hbmem
      obtain ⟨hq1, hq2, _, _⟩ := rainfall_gaps 18 (by decide)
      have hlt := hcmp hne
      have hdb : (0 : ℝ) < ((gapDen b : Int) : ℝ) := by
        have : 0 < gapDen b := Int.mul_pos hp1 hp2
        exact_mod_cast this
      have hd18 : (0 : ℝ) < ((gapDen 18 : Int) : ℝ) := by
        have : 0 < gapDen 18 := Int.mul_pos hq1 hq2
        exact_mod_cast this
      have hltr : ((gapNum b : Int) : ℝ) * ((gapDen 18 : Int) : ℝ) <
          ((gapNum 18 : Int) : ℝ) * ((gapDen b : Int) : ℝ) := by exact_mod_cast hlt
      have hdiv : cj.slope_diff < c18.slope_diff := by
        rw [hdj, hgap18]
        exact (div_lt_div_iff₀ hdb hd18).mpr hltr
      have hle := (hall 18 c18 h18a h18b (by rw [hdata]; exact hc18) hel18).1
      rw [hcjb] at hdiv
      exact absurd hle (not_le.mpr hdiv)
    subst hb18
    rw [hdata, hc18] at hcb
    have hcc : c18 = cb := Option.some.inj hcb
    subst hcc
    refine ⟨hgate, hbest, by rw [hsb, hs1], by rw [hsa, hs2], ?_⟩
    rw [hmax, hsb, hsa]
    rfl

/-- C14 (end-to-end scenario on the hard-coded series): `inputData` followed
by `detectInconsistency` returns with the break accepted at index 18 of the
scanned range, the year 2008; both segment correlations of that candidate
are above `0.85`, the stored slopes are `calculateSlope(0, 17)` and
`calculateSlope(18, 29)`, they differ by more than `0.05`, the factor is
their quotient, and `correctData` then prints the thirty records, the station
value times that quotient for the records before index 18 and the station
value itself from index 18 on. -/
theorem inputData_end_to_end :
    ∃ out : Detection ℝ,
      detectInconsistency Real.sqrt
        (inputData (DoubleMassCurve.initial : DoubleMassCurve ℝ)) = some out ∧
      out.state.data = (inputData (DoubleMassCurve.initial : DoubleMassCurve ℝ)).data ∧
      out.state.data.length = 30 ∧
      18 ∈ scanIndices out.state.data ∧ out.best_break_point = 18 ∧
      out.state.inconsistency_year = 2008 ∧
      (∃ corr1 corr2 : ℝ,
        calculateCorrelation Real.sqrt out.state.data 0 17 = some corr1 ∧ corr1 > 0.85 ∧
        calculateCorrelation Real.sqrt out.state.data 18 29 = some corr2 ∧ corr2 > 0.85) ∧
      calculateSlope out.state.data 0 17 = some out.state.slope_before ∧
      calculateSlope out.state.data 18 29 = some out.state.slope_after ∧
      out.state.slope_before = 3317979500 / 3773305625 ∧
      out.state.slope_after = 461626092 / 448831248 ∧
      out.max_slope_diff = |out.state.slope_after - out.state.slope_before| ∧
      out.max_slope_diff > 0.05 ∧
      out.state.correction_factor = out.state.slope_after / out.state.slope_before ∧
      (correctData out.state).length = 30 ∧
      ∀ (i : Nat) (rd : RainfallData ℝ), out.state.data.get? i = some rd →
        ((i : Int) < 18 →
          (correctData out.state).get? i =
            some { year := rd.year, original_pa := rd.pa,
                   corrected_pa := rd.pa * (out.state.slope_after / out.state.slope_before),
                   avg_p10 := rd.avg_p10, status := "Corrected" }) ∧
        ((18 : Int) ≤ (i : Int) →
          (correctData out.state).get? i =
            some { year := rd.year, original_pa := rd.pa, corrected_pa := rd.pa,
                   avg_p10 := rd.avg_p10, status := "Original" }) := by
  have hdata : (inputData (DoubleMassCurve.initial : DoubleMassCurve ℝ)).data = rainfallRecords :=
    inputData_data
  have hlen : (rainfallRecords : List (RainfallData ℝ)).length = 30 := rfl
  obtain ⟨out, hout⟩ := detectInconsistency_isSome Real.sqrt
    (inputData (DoubleMassCurve.initial : DoubleMassCurve ℝ)) (by rw [hdata, hlen]; norm_num)
  obtain ⟨hgate, hbest, hsb, hsa, hmax⟩ := rainfall_selected out hout
  obtain ⟨b, c, rdb, _, hc, hel, hbest2, _, hsb2, hsa2, hread, hy, hf, hod⟩ :=
    detectInconsistency_accepted Real.sqrt _ out hout hgate
  have hb : b = 18 := by
    rw [hbest] at hbest2
    exact_mod_cast hbest2.symm
  subst hb
  obtain ⟨e1, e2, e3, e4, _⟩ := (evalCandidate_eq_some Real.sqrt _ _ c).mp hc
  have hlast : lastIndex (inputData (DoubleMassCurve.initial : DoubleMassCurve ℝ)).data = 29 := by
    rw [hdata]
    simp [lastIndex, hlen]
  rw [hlast] at e2 e4
  have h17 : (((18 : Nat) : Int) - 1) = 17 := by norm_num
  have h18 : ((18 : Nat) : Int) = 18 := by norm_num
  rw [h17] at e1 e3
  rw [h18] at e2 e4 hread
  have hrd : rdb = ⟨2008, 595, 646, 11268, 12791⟩ := by
    rw [hdata] at hread
    simp only [readAt, rainfallRecords] at hread
    norm_num at hread
    exact hread.symm
  have hyear : out.state.inconsistency_year = 2008 := by rw [hy, hrd]
  have hnodup : (out.state.data.map (fun rd => rd.year)).Nodup := by
    rw [hod, hdata]
    simp only [rainfallRecords, List.map_cons, List.map_nil]
    decide
  have hget : out.state.data.get? 18 = some rdb := by
    rw [hod, ← readAt_natCast, h18]
    exact hread
  have hne : rdb.year ≠ -1 := by rw [hrd]; decide
  obtain ⟨_, hrows⟩ := correctData_of_break out.state 18 rdb hnodup hget hy hne
  rw [h18] at hrows
  have hfac : out.state.correction_factor = out.state.slope_after / out.state.slope_before := by
    rw [hf, hsa2, hsb2]
  refine ⟨out, hout, hod, by rw [hod, hdata, hlen], ?_, hbest, hyear,
    ⟨c.corr1, c.corr2, by rw [hod]; exact e3, hel.1, by rw [hod]; exact e4, hel.2⟩,
    by rw [hod, hsb2]; exact e1, by rw [hod, hsa2]; exact e2, hsb, hsa, hmax, hgate, hfac,
    by rw [hrows, correctRows_length, hod, hdata, hlen], ?_⟩
  · rw [hod, hdata, rainfallRecords_scanIndices]
    decide
  · intro i rd hi
    have hrow := correctRows_get out.state.correction_factor 18 out.state.data 0 i rd hi
    rw [← hrows, zero_add] at hrow
    constructor
    · intro hlt
      rw [hrow, expectedRow, if_pos hlt, hfac]
    · intro hge
      rw [hrow, expectedRow, if_neg (not_lt.mpr hge)]

end EndToEnd

/-! ## The program in double arithmetic -/

section DoubleArithmetic

/-- The doubles that the literals `0.1`, `0.85` and `0.05` denote, and two
operations that round: `300000007²` needs 57 bits, and `1/3` is not a binary
fraction. -/
theorem roundD_examples :
    literalD (1 / 10) = 3602879701896397 / 36028797018963968 ∧
    literalD (85 / 100) = 7656119366529843 / 9007199254740992 ∧
    literalD (5 / 100) = 3602879701896397 / 72057594037927936 ∧
    mulD 300000007 300000007 = some 90000004200000048 ∧
    divD 1 3 = some (6004799503160661 / 18014398509481984) ∧
    sqrtD 2 = some (6369051672525773 / 4503599627370496) ∧
    addD 9007199254740992 1 = some 9007199254740992 := by
  decide!

/-- Counterexample to C5 as stated: on the five records built from
`constantTable` both `cum_pa` and `cum_avg` are constant (the doubles `0.1`
and `0.2`), yet in double arithmetic the radicand of line 96 is not zero and
`calculateCorrelation(0, 4)` returns `1.0`, not `0.0`. -/
theorem calculateCorrelation_constant_counterexample :
    (inputDataFromD constantTable DoubleMassCurve.initial).map
        (fun s => s.data.map (fun rd => (rd.cum_pa, rd.cum_avg))) =
      some (List.replicate 5 (literalD (1 / 10), literalD (1 / 5))) ∧
    (inputDataFromD constantTable DoubleMassCurve.initial).bind
        (fun s => calculateCorrelationD s.data 0 4) = some 1 := by
  decide!

/-- Counterexample to C12 as stated: `tripleTable` has eleven years, every
station value is three times the reference value and every reference value
is positive, yet in double arithmetic the slopes of candidate 5 are about
`2.909` and `3.024`, not `3`, their difference is about `0.1145 > 0.05`, and
`detectInconsistency` reports a break: `inconsistency_year = 2005`,
`best_break_point = 5` and a correction factor of about `1.039`. -/
theorem detectInconsistency_consistent_counterexample :
    11 ≤ tripleTable.length ∧
    (∀ entry ∈ tripleTable, entry.2.1 = 3 * entry.2.2 ∧ 0 < entry.2.2) ∧
    ((inputDataFromD tripleTable DoubleMassCurve.initial).bind
        (fun s => evalCandidateD s.data 5)).map
        (fun c => (c.1.slope1, c.1.slope2, c.2)) =
      some (3275345183542179 / 1125899906842624, 1702147890659715 / 562949953421312,
        128950597777251 / 1125899906842624) ∧
    ((inputDataFromD tripleTable DoubleMassCurve.initial).bind detectInconsistencyD).map
        (fun out => (out.state.inconsistency_year, out.best_break_point, out.max_slope_diff,
          out.state.correction_factor)) =
      some (2005, 5, 128950597777251 / 1125899906842624,
        585113337414277 / 562949953421312) ∧
    literalD (5 / 100) < 128950597777251 / 1125899906842624 := by
  decide!

/-- Counterexample to C19 as stated: every reference value of `largeTable` is
positive and `cum_avg` is strictly increasing, yet in double arithmetic the
denominator of line 73 is `0` on the range `(0, 4)` and `-4096` on the range
`(5, 10)`, the two ranges of candidate 5, and `calculateSlope(0, 4)` divides
by zero. -/
theorem slopeDenominator_counterexample :
    (∀ entry ∈ largeTable, 0 < entry.2.2) ∧
    (inputDataFromD largeTable DoubleMassCurve.initial).map
        (fun s => s.data.map (fun rd => rd.cum_avg)) =
      some [1000000001, 1000000002, 1000000003, 1000000004, 1000000005, 1000000006,
        1000000007, 1000000008, 1000000009, 1000000010, 1000000011] ∧
    (inputDataFromD largeTable DoubleMassCurve.initial).bind
        (fun s => slopeDenominatorD s.data 0 4) = some 0 ∧
    (inputDataFromD largeTable DoubleMassCurve.initial).bind
        (fun s => slopeDenominatorD s.data 5 10) = some (-4096) ∧
    (inputDataFromD largeTable DoubleMassCurve.initial).bind
        (fun s => calculateSlopeD s.data 0 4) = none := by
  decide!

end DoubleArithmetic

end DMCT
